import Mathlib

/-!
# nfcd: session ids, controller session state machine, IPC socket, LLCP service socket

A shallow embedding of `src/SessionId.cpp`, `src/nci/NfcManager.cpp`,
`src/NfcIpcSocket.cpp` and `src/nci/LlcpServiceSocket.cpp`, and the properties
of them that the specification states.
-/

namespace Nfcd

/-! ## SessionId.cpp -/

/-- Largest value of a C `int` (32 bits, two's complement). -/
def INT_MAX : Int := 2147483647

/-- Smallest value of a C `int`. -/
def INT_MIN : Int := -2147483648

/-- Reduction of an integer to the range of a 32-bit two's complement `int`. -/
def wrapInt32 (x : Int) : Int := (x + 2147483648) % 4294967296 - 2147483648

/-- The static counter `SessionId::mId` (an `int`). -/
structure SessionId where
  mId : Int
deriving DecidableEq, Repr

/-- `int SessionId::mId = 0;` -/
def SessionId.init : SessionId := ⟨0⟩

/-- `SessionId::generateNewId`: `return ++mId;` on a 32-bit `int`. -/
def SessionId.generateNewId (s : SessionId) : Int × SessionId :=
  let v := wrapInt32 (s.mId + 1)
  (v, ⟨v⟩)

/-- `SessionId::getCurrentId`: `return mId;` -/
def SessionId.getCurrentId (s : SessionId) : Int := s.mId

/-- `SessionId::isValid`: `return mId == id;` -/
def SessionId.isValid (s : SessionId) (id : Int) : Bool := decide (s.mId = id)

/-- The ids returned by `n` successive calls of `generateNewId`, oldest first,
and the counter after them. -/
def SessionId.generateMany : Nat → SessionId → List Int × SessionId
  | 0, s => ([], s)
  | n + 1, s =>
      let r := s.generateNewId
      let rest := SessionId.generateMany n r.2
      (r.1 :: rest.1, rest.2)

/-! ## NfcManager.cpp: types of the radio interface

The NFA library (`nfa_api.h` and friends) is not part of this repository. Its
enumerations are embedded as inductive types whose constructors are the named
constants the code compares against; `other` stands for any remaining code.
-/

/-- `NFA_STATUS_OK` of `tNFA_STATUS`; every other value is a failure. -/
def NFA_STATUS_OK : Nat := 0

/-- `NFA_STATUS_FAILED`, the initial value of several local `status` variables. -/
def NFA_STATUS_FAILED : Nat := 3

def NFA_TECHNOLOGY_MASK_A : Nat := 0x01
def NFA_TECHNOLOGY_MASK_B : Nat := 0x02
def NFA_TECHNOLOGY_MASK_F : Nat := 0x04
def NFA_TECHNOLOGY_MASK_ISO15693 : Nat := 0x08
def NFA_TECHNOLOGY_MASK_B_PRIME : Nat := 0x10
def NFA_TECHNOLOGY_MASK_KOVIO : Nat := 0x20
def NFA_TECHNOLOGY_MASK_A_ACTIVE : Nat := 0x40
def NFA_TECHNOLOGY_MASK_F_ACTIVE : Nat := 0x80

/-- `DEFAULT_TECH_MASK` of NfcManager.cpp. -/
def DEFAULT_TECH_MASK : Nat :=
  NFA_TECHNOLOGY_MASK_A ||| NFA_TECHNOLOGY_MASK_B ||| NFA_TECHNOLOGY_MASK_F
    ||| NFA_TECHNOLOGY_MASK_ISO15693 ||| NFA_TECHNOLOGY_MASK_B_PRIME
    ||| NFA_TECHNOLOGY_MASK_A_ACTIVE ||| NFA_TECHNOLOGY_MASK_F_ACTIVE
    ||| NFA_TECHNOLOGY_MASK_KOVIO

/-- `NFA_DM_RF_FIELD_ON` of `rf_field.rf_field_status`. -/
def NFA_DM_RF_FIELD_ON : Nat := 1

/-- `sizeof(sConfig)` for `static UINT8 sConfig[256]`. -/
def sizeof_sConfig : Nat := 256

/-- The `activate_ntf.protocol` of an activation. -/
inductive Protocol where
  | NFC_DEP
  | other (code : Nat)
deriving DecidableEq, Repr

/-- The `activate_ntf.rf_tech_param.mode` of an activation. -/
inductive RfMode where
  | LISTEN_A | LISTEN_B | LISTEN_F | LISTEN_A_ACTIVE | LISTEN_F_ACTIVE
  | LISTEN_ISO15693 | LISTEN_B_PRIME
  | other (code : Nat)
deriving DecidableEq, Repr

/-- The `deactivated.type` of a deactivation. -/
inductive DeactType where
  | IDLE | SLEEP | SLEEP_AF | DISCOVERY
  | other (code : Nat)
deriving DecidableEq, Repr

/-- The NCI parameters the file configures with `NFA_SetConfig`. -/
inductive NciParam where
  | RF_FIELD_INFO | ACT_ORDER
deriving DecidableEq, Repr

/-- `PowerSwitch::PowerLevel`. -/
inductive PowerLevel where
  | UNKNOWN_LEVEL | FULL_POWER | LOW_POWER | POWER_OFF
deriving DecidableEq, Repr

/-- `PowerSwitch::PowerActivity`. -/
inductive PowerActivity where
  | DISCOVERY | SE_ROUTING | SE_CONNECTED
deriving DecidableEq, Repr

/-- The five `SyncEvent` statics of NfcManager.cpp. -/
inductive SyncEv where
  | sNfaEnableEvent | sNfaDisableEvent | sNfaEnableDisablePollingEvent
  | sNfaSetConfigEvent | sNfaGetConfigEvent
deriving DecidableEq, Repr

/-- Events of `NfaDeviceManagementCallback`, with the fields of `eventData`
that the handler reads. -/
inductive DmEvt where
  | ENABLE (status : Nat)
  | DISABLE
  | SET_CONFIG
  | GET_CONFIG (status : Nat) (tlv_size : Nat) (param_tlvs : List Nat)
  | RF_FIELD (status : Nat) (rf_field_status : Nat)
  | NFCC_TRANSPORT_ERR
  | NFCC_TIMEOUT
  | PWR_MODE_CHANGE
  | other (code : Nat)
deriving DecidableEq, Repr

/-- Events of `NfaConnectionCallback`, with the fields of `eventData` that
the handler reads. -/
inductive ConnEvt where
  | POLL_ENABLED | POLL_DISABLED | RF_DISCOVERY_STARTED | RF_DISCOVERY_STOPPED
  | DISC_RESULT (status : Nat) (more : Bool)
  | SELECT_RESULT | DEACTIVATE_FAIL
  | ACTIVATED (protocol : Protocol) (mode : RfMode)
  | DEACTIVATED (type : DeactType)
  | TLV_DETECT (status : Nat)
  | NDEF_DETECT (status : Nat)
  | DATA | RW_INTF_ERROR
  | SELECT_CPLT (status : Nat)
  | READ_CPLT (status : Nat)
  | WRITE_CPLT (status : Nat)
  | SET_TAG_RO (status : Nat)
  | CE_NDEF_WRITE_START | CE_NDEF_WRITE_CPLT
  | LLCP_ACTIVATED | LLCP_DEACTIVATED | LLCP_FIRST_PACKET_RECEIVED
  | PRESENCE_CHECK (status : Nat)
  | FORMAT_CPLT (status : Nat)
  | I93_CMD_CPLT | CE_UICC_LISTEN_CONFIGURED | SET_P2P_LISTEN_TECH
  | other (code : Nat)
deriving DecidableEq, Repr

/-- One callback of the radio interface: the NFA library calls either the
device-management or the connection callback registered by `NFA_Enable`. -/
inductive Callback where
  | dm (e : DmEvt)
  | conn (e : ConnEvt)
deriving DecidableEq, Repr

/-- Radio-interface commands that return a `tNFA_STATUS`. -/
inductive NfaCmd where
  | NFA_Enable
  | NFA_Disable (graceful : Bool)
  | NFA_EnablePolling (mask : Nat)
  | NFA_DisablePolling
  | NFA_StartRfDiscovery
  | NFA_StopRfDiscovery
  | NFA_SetConfig (param : NciParam) (value : List Nat)
deriving DecidableEq, Repr

/-- Calls without arguments into the collaborators of NfcManager.cpp
(PowerSwitch, SecureElement, PeerToPeer, NfcTag, NfcTagManager, Pn544Interop,
NfcAdaptation), none of which is part of the embedded file. -/
inductive Collab where
  | NFA_Init | NfcAdaptation_Initialize | NfcAdaptation_Finalize
  | PowerSwitch_Abort | PowerSwitch_GetLevel | PowerSwitch_DeviceManagementCallback
  | Pn544InteropAbortNow | Pn544InteropIsBusy
  | SE_Initialize | SE_Finalize | SE_Activate | SE_Deactivate | SE_RouteToDefault
  | SE_RouteToSecureElement | SE_IsBusy | SE_ResetRfFieldStatus
  | SE_ConnectionEventHandler
  | P2P_Initialize | P2P_LlcpActivatedHandler | P2P_LlcpDeactivatedHandler
  | P2P_LlcpFirstPacketHandler | P2P_ConnectionEventHandler
  | NfcTag_Initialize | NfcTag_Abort | NfcTag_SetActivationState
  | NfcTag_ConnectionEventHandler | NfcTag_IsP2pDiscovered | NfcTag_SelectP2p
  | NfcTag_SelectFirstTag
  | TagManager_DoRegisterNdefTypeHandler | TagManager_DoAbortWaits
  | TagManager_DoResetPresenceCheck | TagManager_DoTransceiveComplete
  | TagManager_NotifyRfTimeout
deriving DecidableEq, Repr

/-- The tracing modules whose level `Initialize` sets. -/
inductive TraceModule where
  | CE | LLCP | NFC | RW | NFA | NFA_P2p
deriving DecidableEq, Repr

/-- Everything the file does that is visible outside it, in the order it
happens: commands to the radio interface with the status they returned,
callbacks delivered, waits and notifications of the sync events, and calls
into the collaborators. -/
inductive Effect where
  | nfa (c : NfaCmd) (status : Nat)
  | callback (c : Callback)
  | Wait (ev : SyncEv)
  | NotifyOne (ev : SyncEv)
  | call (c : Collab)
  | SetTraceLevel (m : TraceModule) (level : Nat)
  | NFA_SetRfDiscoveryDuration (ms : Nat)
  | PowerSwitch_Initialize (level : PowerLevel)
  | PowerSwitch_SetLevel (level : PowerLevel)
  | PowerSwitch_SetModeOn (a : PowerActivity)
  | PowerSwitch_SetModeOff (a : PowerActivity)
  | SE_NotifyRfFieldEvent (b : Bool)
  | SE_NotifyListenModeState (b : Bool)
  | P2P_HandleNfcOnOff (b : Bool)
  | P2P_EnableP2pListening (b : Bool)
  | P2P_SetP2pListenMask (mask : Nat)
  | NfcTag_SetDeactivationState (type : DeactType)
  | TagManager_DoConnectStatus (ok : Bool)
  | TagManager_DoDeactivateStatus (status : Nat)
  | TagManager_DoCheckNdefResult (status : Nat)
  | TagManager_DoReadCompleted (status : Nat)
  | TagManager_DoWriteStatus (ok : Bool)
  | TagManager_DoMakeReadonlyResult (status : Nat)
  | TagManager_DoPresenceCheckResult (status : Nat)
  | TagManager_FormatStatus (ok : Bool)
  | memcpy_sConfig (n : Nat)
deriving DecidableEq, Repr

/-- Values the file reads from outside itself: results of collaborator calls,
the `extern` globals of other modules, and configuration lookups. -/
inductive Query where
  | SE_Activate | SE_RouteToDefault | SE_IsBusy
  | PowerSwitch_SetModeOff | PowerSwitch_GetLevel
  | P2P_EnableP2pListening
  | Pn544InteropIsBusy | gIsSelectingRfInterface | gIsTagDeactivating
  | NfcTag_IsP2pDiscovered
  | initializeGlobalAppLogLevel
  | GetNumValue_POLLING_TECH_MASK | NAME_POLLING_TECH_MASK
  | GetNumValue_NFA_DM_DISC_DURATION_POLL | NAME_NFA_DM_DISC_DURATION_POLL
deriving DecidableEq, Repr

/-- Numeric code of a power level, for the answers of `GetLevel`. -/
def PowerLevel.code : PowerLevel → Nat
  | .UNKNOWN_LEVEL => 0
  | .FULL_POWER => 1
  | .LOW_POWER => 2
  | .POWER_OFF => 3

/-! ## NfcManager.cpp: session state and the environment -/

/-- The `static bool` session flags of NfcManager.cpp (lines 69-76). -/
structure Session where
  sIsNfaEnabled : Bool
  sDiscoveryEnabled : Bool
  sIsDisabling : Bool
  sRfEnabled : Bool
  sSeRfActive : Bool
  sP2pActive : Bool
  sAbortConnlessWait : Bool
  sIsSecElemSelected : Bool
deriving DecidableEq, Repr

/-- The initial values of the session flags: all `false`. -/
def Session.init : Session :=
  { sIsNfaEnabled := false, sDiscoveryEnabled := false, sIsDisabling := false,
    sRfEnabled := false, sSeRfActive := false, sP2pActive := false,
    sAbortConnlessWait := false, sIsSecElemSelected := false }

/-- The state of NfcManager.cpp together with its environment.

* `flags`, `tech_mask` (`gNat.tech_mask`), `sCurrentConfigLen`, `sConfig` are
  the variables of the file.
* `status k` is the status the radio interface returns to the `k`-th command
  issued, `issued` the number of commands issued so far.
* `answer q k` is the value of the `k`-th read of `q`, `asked q` the number of
  reads of `q` so far.
* `pending` are the callbacks the radio interface will deliver, in order.
* `signals` are the sync events notified by the callback now running.
* `trace` is everything done so far, oldest first. -/
structure World where
  flags : Session
  tech_mask : Nat
  sCurrentConfigLen : Nat
  sConfig : List Nat
  status : Nat → Nat
  issued : Nat
  answer : Query → Nat → Nat
  asked : Query → Nat
  pending : List Callback
  signals : List SyncEv
  trace : List Effect

/-- What a piece of code of the file comes to: it returns a value, or it
stays blocked for ever in a `SyncEvent::Wait` that nothing notifies. -/
inductive Outcome (α : Type) where
  | ret (a : α) (w : World)
  | blocked (w : World)

/-- The world an outcome ends in. -/
def Outcome.world {α : Type} : Outcome α → World
  | .ret _ w => w
  | .blocked w => w

/-- The value returned, if any. -/
def Outcome.value {α : Type} : Outcome α → Option α
  | .ret a _ => some a
  | .blocked _ => none

/-- Code of the file: a function of the world. -/
def Op (α : Type) : Type := World → Outcome α

/-- Sequencing: a blocked first part blocks the whole. -/
def Op.bind {α β : Type} (m : Op α) (f : α → Op β) : Op β := fun w =>
  match m w with
  | .ret a w1 => f a w1
  | .blocked w1 => .blocked w1

instance : Monad Op where
  pure a := fun w => .ret a w
  bind := Op.bind

/-- Record an effect in the trace. -/
def log (e : Effect) : Op Unit := fun w =>
  .ret () { w with trace := w.trace ++ [e] }

/-- A call without arguments into a collaborator. -/
def call (c : Collab) : Op Unit := log (.call c)

/-- Issue a command to the radio interface and get its status. -/
def nfa (c : NfaCmd) : Op Nat := fun w =>
  .ret (w.status w.issued)
    { w with issued := w.issued + 1, trace := w.trace ++ [.nfa c (w.status w.issued)] }

/-- Read a value from outside the file. -/
def ask (q : Query) : Op Nat := fun w =>
  .ret (w.answer q (w.asked q))
    { w with asked := fun q1 => if q1 = q then w.asked q1 + 1 else w.asked q1 }

/-- Read a `bool` from outside the file. -/
def askBool (q : Query) : Op Bool := fun w =>
  .ret (w.answer q (w.asked q) != 0)
    { w with asked := fun q1 => if q1 = q then w.asked q1 + 1 else w.asked q1 }

/-- Read the session flags. -/
def getFlags : Op Session := fun w => .ret w.flags w

/-- Write session flags. -/
def setFlags (f : Session → Session) : Op Unit := fun w =>
  .ret () { w with flags := f w.flags }

/-- Read `gNat.tech_mask`. -/
def getTechMask : Op Nat := fun w => .ret w.tech_mask w

/-- Read `(tNFA_TECHNOLOGY_MASK)gNat.tech_mask`: the mask cut to eight bits. -/
def getTechMask8 : Op Nat := fun w => .ret (w.tech_mask % 256) w

/-- Write `gNat.tech_mask`. -/
def setTechMask (mask : Nat) : Op Unit := fun w =>
  .ret () { w with tech_mask := mask }

/-- Write `sCurrentConfigLen`. -/
def setCurrentConfigLen (n : Nat) : Op Unit := fun w =>
  .ret () { w with sCurrentConfigLen := n }

/-- `memcpy(sConfig, param_tlvs, n)`: the first `n` bytes of `sConfig` are
replaced by the first `n` bytes at `param_tlvs`. -/
def memcpy_sConfig (param_tlvs : List Nat) (n : Nat) : Op Unit := fun w =>
  .ret () { w with sConfig := param_tlvs.take n ++ w.sConfig.drop n,
                   trace := w.trace ++ [.memcpy_sConfig n] }

/-- `SyncEvent::NotifyOne` on one of the sync events. -/
def NotifyOne (ev : SyncEv) : Op Unit := fun w =>
  .ret () { w with signals := w.signals ++ [ev], trace := w.trace ++ [.NotifyOne ev] }

/-! ## NfcManager.cpp: the callbacks -/

/-- `IsPeerToPeer`: `activated.activate_ntf.protocol == NFA_PROTOCOL_NFC_DEP`. -/
def IsPeerToPeer (protocol : Protocol) : Bool :=
  protocol == Protocol.NFC_DEP

/-- `IsListenMode`: the mode is one of the seven listen modes. -/
def IsListenMode (mode : RfMode) : Bool :=
  (RfMode.LISTEN_A == mode)
    || (RfMode.LISTEN_B == mode)
    || (RfMode.LISTEN_F == mode)
    || (RfMode.LISTEN_A_ACTIVE == mode)
    || (RfMode.LISTEN_F_ACTIVE == mode)
    || (RfMode.LISTEN_ISO15693 == mode)
    || (RfMode.LISTEN_B_PRIME == mode)

/-- `HandleRfDiscoveryEvent`, given `discoveredDevice->more`. -/
def HandleRfDiscoveryEvent (more : Bool) : Op Unit := do
  if more then
    pure ()
  else
    call .NfcTag_IsP2pDiscovered
    let isP2p ← askBool .NfcTag_IsP2pDiscovered
    if isP2p then
      call .NfcTag_SelectP2p
    else
      call .NfcTag_SelectFirstTag

/-- `NfaDeviceManagementCallback`. -/
def NfaDeviceManagementCallback (dmEvent : DmEvt) : Op Unit :=
  match dmEvent with
  | .ENABLE status => do
      setFlags fun s => { s with sIsNfaEnabled := status == NFA_STATUS_OK }
      setFlags fun s => { s with sIsDisabling := false }
      NotifyOne .sNfaEnableEvent
  | .DISABLE => do
      setFlags fun s => { s with sIsNfaEnabled := false }
      setFlags fun s => { s with sIsDisabling := false }
      NotifyOne .sNfaDisableEvent
  | .SET_CONFIG =>
      NotifyOne .sNfaSetConfigEvent
  | .GET_CONFIG status tlv_size param_tlvs => do
      if status == NFA_STATUS_OK && decide (tlv_size ≤ sizeof_sConfig) then
        setCurrentConfigLen tlv_size
        memcpy_sConfig param_tlvs tlv_size
      else
        setCurrentConfigLen 0
      NotifyOne .sNfaGetConfigEvent
  | .RF_FIELD status rf_field_status => do
      let s ← getFlags
      if s.sIsDisabling || !s.sIsNfaEnabled then
        pure ()
      else if !s.sP2pActive && status == NFA_STATUS_OK then
        log (.SE_NotifyRfFieldEvent (rf_field_status == NFA_DM_RF_FIELD_ON))
      else
        pure ()
  | .NFCC_TRANSPORT_ERR | .NFCC_TIMEOUT => do
      call .TagManager_DoAbortWaits
      call .NfcTag_Abort
      setFlags fun s => { s with sAbortConnlessWait := true }
      NotifyOne .sNfaEnableDisablePollingEvent
      NotifyOne .sNfaEnableEvent
      NotifyOne .sNfaDisableEvent
      setFlags fun s => { s with sDiscoveryEnabled := false }
      call .PowerSwitch_Abort
      let s ← getFlags
      if !s.sIsDisabling && s.sIsNfaEnabled then
        let _ ← nfa (.NFA_Disable false)
        setFlags fun s => { s with sIsDisabling := true }
      else
        setFlags fun s => { s with sIsNfaEnabled := false }
        setFlags fun s => { s with sIsDisabling := false }
      log (.PowerSwitch_Initialize .UNKNOWN_LEVEL)
  | .PWR_MODE_CHANGE =>
      call .PowerSwitch_DeviceManagementCallback
  | .other _ =>
      pure ()

/-- `NfaConnectionCallback`. -/
def NfaConnectionCallback (connEvent : ConnEvt) : Op Unit :=
  match connEvent with
  | .POLL_ENABLED => NotifyOne .sNfaEnableDisablePollingEvent
  | .POLL_DISABLED => NotifyOne .sNfaEnableDisablePollingEvent
  | .RF_DISCOVERY_STARTED => NotifyOne .sNfaEnableDisablePollingEvent
  | .RF_DISCOVERY_STOPPED => NotifyOne .sNfaEnableDisablePollingEvent
  | .DISC_RESULT status more => do
      if status != NFA_STATUS_OK then
        pure ()
      else
        call .NfcTag_ConnectionEventHandler
        HandleRfDiscoveryEvent more
  | .SELECT_RESULT => pure ()
  | .DEACTIVATE_FAIL => pure ()
  | .ACTIVATED protocol mode => do
      let s ← getFlags
      if s.sIsDisabling || !s.sIsNfaEnabled then
        pure ()
      else
        call .NfcTag_SetActivationState
        let selecting ← askBool .gIsSelectingRfInterface
        if selecting then
          log (.TagManager_DoConnectStatus true)
        else
          call .TagManager_DoResetPresenceCheck
          if IsPeerToPeer protocol then
            setFlags fun s => { s with sP2pActive := true }
            let _ ← nfa (.NFA_SetConfig .RF_FIELD_INFO [0x00])
            log (.SE_NotifyRfFieldEvent true)
          else
            call .Pn544InteropIsBusy
            let busy ← askBool .Pn544InteropIsBusy
            if busy == false then
              call .NfcTag_ConnectionEventHandler
              if IsListenMode mode then
                setFlags fun s => { s with sSeRfActive := true }
                log (.SE_NotifyListenModeState true)
  | .DEACTIVATED type => do
      log (.NfcTag_SetDeactivationState type)
      if type != DeactType.SLEEP then
        call .TagManager_DoResetPresenceCheck
        call .NfcTag_ConnectionEventHandler
        call .TagManager_DoAbortWaits
        call .NfcTag_Abort
      else
        let deactivating ← askBool .gIsTagDeactivating
        if deactivating then
          log (.TagManager_DoDeactivateStatus 0)
      if (type == DeactType.IDLE) || (type == DeactType.DISCOVERY) then
        let s ← getFlags
        if s.sSeRfActive then
          setFlags fun s => { s with sSeRfActive := false }
          if !s.sIsDisabling && s.sIsNfaEnabled then
            log (.SE_NotifyListenModeState false)
        else if s.sP2pActive then
          setFlags fun s => { s with sP2pActive := false }
          if !s.sIsDisabling && s.sIsNfaEnabled then
            let _ ← nfa (.NFA_SetConfig .RF_FIELD_INFO [0x01])
            log (.SE_NotifyRfFieldEvent false)
  | .TLV_DETECT _ => pure ()
  | .NDEF_DETECT status => do
      call .NfcTag_ConnectionEventHandler
      log (.TagManager_DoCheckNdefResult status)
  | .DATA => call .TagManager_DoTransceiveComplete
  | .RW_INTF_ERROR => call .TagManager_NotifyRfTimeout
  | .SELECT_CPLT _ => pure ()
  | .READ_CPLT status => do
      log (.TagManager_DoReadCompleted status)
      call .NfcTag_ConnectionEventHandler
  | .WRITE_CPLT status => log (.TagManager_DoWriteStatus (status == NFA_STATUS_OK))
  | .SET_TAG_RO status => log (.TagManager_DoMakeReadonlyResult status)
  | .CE_NDEF_WRITE_START => pure ()
  | .CE_NDEF_WRITE_CPLT => pure ()
  | .LLCP_ACTIVATED => call .P2P_LlcpActivatedHandler
  | .LLCP_DEACTIVATED => call .P2P_LlcpDeactivatedHandler
  | .LLCP_FIRST_PACKET_RECEIVED => call .P2P_LlcpFirstPacketHandler
  | .PRESENCE_CHECK status => log (.TagManager_DoPresenceCheckResult status)
  | .FORMAT_CPLT status => log (.TagManager_FormatStatus (status == NFA_STATUS_OK))
  | .I93_CMD_CPLT => pure ()
  | .CE_UICC_LISTEN_CONFIGURED => call .SE_ConnectionEventHandler
  | .SET_P2P_LISTEN_TECH => call .P2P_ConnectionEventHandler
  | .other _ => pure ()

/-- The radio interface delivers one callback: the matching handler runs. The
notifications of callbacks that ran earlier are gone by then. -/
def dispatch (c : Callback) : Op Unit := fun w =>
  let w0 : World := { w with signals := [], trace := w.trace ++ [Effect.callback c] }
  match c with
  | .dm e => NfaDeviceManagementCallback e w0
  | .conn e => NfaConnectionCallback e w0

/-- The body of `SyncEvent::Wait`: callbacks are delivered one after the other
until one of them notifies `ev`; when no callback is left the wait never ends. -/
def waitLoop (ev : SyncEv) : List Callback → World → Outcome Unit
  | [], w => .blocked { w with pending := [] }
  | c :: rest, w =>
      match dispatch c { w with pending := rest } with
      | Outcome.ret _ w1 =>
          if w1.signals.contains ev then Outcome.ret () w1 else waitLoop ev rest w1
      | Outcome.blocked w1 => Outcome.blocked w1

/-- `SyncEvent::Wait` on one of the sync events. -/
def Wait (ev : SyncEv) : Op Unit := fun w =>
  waitLoop ev w.pending { w with trace := w.trace ++ [.Wait ev] }

/-! ## NfcManager.cpp: the host-facing operations -/

/-- `StartRfDiscovery(bool isStart)`. -/
def StartRfDiscovery (isStart : Bool) : Op Unit := do
  let status ← nfa (if isStart then .NFA_StartRfDiscovery else .NFA_StopRfDiscovery)
  if status == NFA_STATUS_OK then
    Wait .sNfaEnableDisablePollingEvent
    setFlags fun s => { s with sRfEnabled := isStart }
  else
    pure ()

/-- `DoStartupConfig()`. -/
def DoStartupConfig : Op Unit := do
  let tech_mask ← getTechMask
  if tech_mask &&& (NFA_TECHNOLOGY_MASK_A_ACTIVE ||| NFA_TECHNOLOGY_MASK_F_ACTIVE) != 0 then
    let stat ← nfa (.NFA_SetConfig .ACT_ORDER [0x01])
    if stat == NFA_STATUS_OK then
      Wait .sNfaSetConfigEvent
    else
      pure ()
  else
    pure ()

/-- `NfcManager::Initialize()`. -/
def Initialize : Op Bool := do
  log (.PowerSwitch_Initialize .FULL_POWER)
  call .NfcAdaptation_Initialize
  call .NFA_Init
  let stat ← nfa .NFA_Enable
  if stat == NFA_STATUS_OK then
    let num ← ask .initializeGlobalAppLogLevel
    log (.SetTraceLevel .CE num)
    log (.SetTraceLevel .LLCP num)
    log (.SetTraceLevel .NFC num)
    log (.SetTraceLevel .RW num)
    log (.SetTraceLevel .NFA num)
    log (.SetTraceLevel .NFA_P2p num)
    Wait .sNfaEnableEvent
  else
    pure ()
  let s ← getFlags
  if stat == NFA_STATUS_OK && s.sIsNfaEnabled then
    call .SE_Initialize
    call .TagManager_DoRegisterNdefTypeHandler
    call .NfcTag_Initialize
    call .P2P_Initialize
    log (.P2P_HandleNfcOnOff true)
    let found ← askBool .GetNumValue_POLLING_TECH_MASK
    if found then
      let num ← ask .NAME_POLLING_TECH_MASK
      setTechMask num
    else
      setTechMask DEFAULT_TECH_MASK
    let found ← askBool .GetNumValue_NFA_DM_DISC_DURATION_POLL
    if found then
      let num ← ask .NAME_NFA_DM_DISC_DURATION_POLL
      log (.NFA_SetRfDiscoveryDuration num)
    else
      pure ()
    DoStartupConfig
  else
    if s.sIsNfaEnabled then
      let _ ← nfa (.NFA_Disable false)
    else
      pure ()
    call .NfcAdaptation_Finalize
  let s ← getFlags
  if s.sIsNfaEnabled then
    log (.PowerSwitch_SetLevel .LOW_POWER)
  else
    pure ()
  pure s.sIsNfaEnabled

/-- `NfcManager::Deinitialize()`. -/
def Deinitialize : Op Bool := do
  setFlags fun s => { s with sIsDisabling := true }
  call .Pn544InteropAbortNow
  call .SE_Finalize
  let s ← getFlags
  if s.sIsNfaEnabled then
    let stat ← nfa (.NFA_Disable true)
    if stat == NFA_STATUS_OK then
      Wait .sNfaDisableEvent
      log (.P2P_HandleNfcOnOff false)
    else
      pure ()
  else
    pure ()
  call .TagManager_DoAbortWaits
  call .NfcTag_Abort
  setFlags fun s => { s with sAbortConnlessWait := true }
  setFlags fun s => { s with sIsNfaEnabled := false }
  setFlags fun s => { s with sDiscoveryEnabled := false }
  setFlags fun s => { s with sIsDisabling := false }
  setFlags fun s => { s with sIsSecElemSelected := false }
  NotifyOne .sNfaEnableDisablePollingEvent
  call .NfcAdaptation_Finalize
  pure true

/-- `NfcManager::EnableDiscovery()`. The local `tech_mask` is a
`tNFA_TECHNOLOGY_MASK`, eight bits wide. -/
def EnableDiscovery : Op Bool := do
  let tech_mask ← getTechMask8
  let s ← getFlags
  if s.sDiscoveryEnabled then
    pure true
  else
    log (.PowerSwitch_SetLevel .FULL_POWER)
    if s.sRfEnabled then
      StartRfDiscovery false
    else
      pure ()
    let stat ← nfa (.NFA_EnablePolling tech_mask)
    if stat == NFA_STATUS_OK then
      setFlags fun s => { s with sDiscoveryEnabled := true }
      Wait .sNfaEnableDisablePollingEvent
    else
      pure ()
    let s ← getFlags
    if s.sDiscoveryEnabled || (tech_mask == 0) then
      log (.P2P_EnableP2pListening true)
      if !s.sIsSecElemSelected then
        call .SE_RouteToDefault
      else
        pure ()
    else
      pure ()
    StartRfDiscovery true
    log (.PowerSwitch_SetModeOn .DISCOVERY)
    pure (stat == NFA_STATUS_OK)

/-- `NfcManager::DisableDiscovery()`. -/
def DisableDiscovery : Op Bool := do
  call .Pn544InteropAbortNow
  let s ← getFlags
  if !s.sDiscoveryEnabled then
    pure (NFA_STATUS_OK == NFA_STATUS_OK)
  else
    StartRfDiscovery false
    let s ← getFlags
    let status ←
      if s.sDiscoveryEnabled then do
        let status ← nfa .NFA_DisablePolling
        if status == NFA_STATUS_OK then
          setFlags fun s => { s with sDiscoveryEnabled := false }
          Wait .sNfaEnableDisablePollingEvent
        else
          pure ()
        pure status
      else
        pure NFA_STATUS_OK
    log (.P2P_EnableP2pListening false)
    log (.PowerSwitch_SetModeOff .DISCOVERY)
    let stillOn ← askBool .PowerSwitch_SetModeOff
    if !stillOn then
      log (.PowerSwitch_SetLevel .LOW_POWER)
    else
      pure ()
    call .SE_ResetRfFieldStatus
    pure (status == NFA_STATUS_OK)

/-- `StartStopPolling(bool isStartPolling)`. -/
def StartStopPolling (isStartPolling : Bool) : Op Bool := do
  StartRfDiscovery false
  let stat ←
    if isStartPolling then do
      let found ← askBool .GetNumValue_POLLING_TECH_MASK
      let tech_mask ←
        if found then do
          let num ← ask .NAME_POLLING_TECH_MASK
          pure (num % 256)
        else
          pure DEFAULT_TECH_MASK
      let stat ← nfa (.NFA_EnablePolling tech_mask)
      if stat == NFA_STATUS_OK then
        Wait .sNfaEnableDisablePollingEvent
      else
        pure ()
      pure stat
    else do
      let stat ← nfa .NFA_DisablePolling
      if stat == NFA_STATUS_OK then
        Wait .sNfaEnableDisablePollingEvent
      else
        pure ()
      pure stat
  StartRfDiscovery true
  pure (stat == NFA_STATUS_OK)

/-- `NfcManager::EnablePolling()`. -/
def EnablePolling : Op Bool := StartStopPolling true

/-- `NfcManager::DisablePolling()`. -/
def DisablePolling : Op Bool := StartStopPolling false

/-- `NfcManager::EnableP2pListening()`. -/
def EnableP2pListening : Op Bool := do
  log (.P2P_EnableP2pListening true)
  askBool .P2P_EnableP2pListening

/-- `NfcManager::DisableP2pListening()`. -/
def DisableP2pListening : Op Bool := do
  log (.P2P_EnableP2pListening false)
  askBool .P2P_EnableP2pListening

/-- `NfcManager::CheckLlcp()`. -/
def CheckLlcp : Op Bool := pure true

/-- `NfcManager::ActivateLlcp()`. -/
def ActivateLlcp : Op Bool := pure true

/-- The mask `SetP2pInitiatorModes` computes from `aModes`, given by its bit
pattern. -/
def initiatorMask (aModes : Nat) : Nat :=
  let mask := 0
  let mask := if aModes &&& 0x01 != 0 then mask ||| NFA_TECHNOLOGY_MASK_A else mask
  let mask := if aModes &&& 0x02 != 0 then mask ||| NFA_TECHNOLOGY_MASK_F else mask
  let mask := if aModes &&& 0x04 != 0 then mask ||| NFA_TECHNOLOGY_MASK_F else mask
  let mask := if aModes &&& 0x08 != 0 then mask ||| NFA_TECHNOLOGY_MASK_A_ACTIVE else mask
  let mask := if aModes &&& 0x10 != 0 then mask ||| NFA_TECHNOLOGY_MASK_F_ACTIVE else mask
  let mask := if aModes &&& 0x20 != 0 then mask ||| NFA_TECHNOLOGY_MASK_F_ACTIVE else mask
  mask

/-- `NfcManager::SetP2pInitiatorModes(int aModes)`. -/
def SetP2pInitiatorModes (aModes : Nat) : Op Unit :=
  setTechMask (initiatorMask aModes)

/-- The mask `SetP2pTargetModes` computes from `aModes`, given by its bit
pattern. -/
def targetMask (aModes : Nat) : Nat :=
  let mask := 0
  let mask := if aModes &&& 0x01 != 0 then mask ||| NFA_TECHNOLOGY_MASK_A else mask
  let mask := if aModes &&& 0x02 != 0 then mask ||| NFA_TECHNOLOGY_MASK_F else mask
  let mask := if aModes &&& 0x04 != 0 then mask ||| NFA_TECHNOLOGY_MASK_F else mask
  let mask := if aModes &&& 0x08 != 0 then
    mask ||| (NFA_TECHNOLOGY_MASK_A_ACTIVE ||| NFA_TECHNOLOGY_MASK_F_ACTIVE) else mask
  mask

/-- `NfcManager::SetP2pTargetModes(int aModes)`. -/
def SetP2pTargetModes (aModes : Nat) : Op Unit :=
  log (.P2P_SetP2pListenMask (targetMask aModes))

/-- `NfcManager::DoSelectSecureElement()`. -/
def DoSelectSecureElement : Op Bool := do
  let s ← getFlags
  if s.sIsSecElemSelected then
    pure true
  else
    log (.PowerSwitch_SetLevel .FULL_POWER)
    if s.sRfEnabled then
      StartRfDiscovery false
    else
      pure ()
    call .SE_Activate
    let result ← askBool .SE_Activate
    if result then
      call .SE_RouteToSecureElement
    else
      pure ()
    setFlags fun s => { s with sIsSecElemSelected := true }
    StartRfDiscovery true
    log (.PowerSwitch_SetModeOn .SE_ROUTING)
    pure result

/-- `NfcManager::DoDeselectSecureElement()`. The pair `out` holds the locals
`(result, reDiscover)` on reaching the label `TheEnd`. -/
def DoDeselectSecureElement : Op Bool := do
  let s ← getFlags
  let out ←
    if !s.sIsSecElemSelected then
      pure (false, false)
    else do
      call .PowerSwitch_GetLevel
      let level ← ask .PowerSwitch_GetLevel
      if level == PowerLevel.LOW_POWER.code then
        setFlags fun s => { s with sIsSecElemSelected := false }
        pure (false, false)
      else
        let reDiscover ←
          if s.sRfEnabled then do
            StartRfDiscovery false
            pure true
          else
            pure false
        call .SE_RouteToDefault
        let result ← askBool .SE_RouteToDefault
        setFlags fun s => { s with sIsSecElemSelected := false }
        call .SE_IsBusy
        let busy ← askBool .SE_IsBusy
        if !busy then
          call .SE_Deactivate
        else
          pure ()
        pure (result, reDiscover)
  if out.2 then
    StartRfDiscovery true
  else
    pure ()
  log (.PowerSwitch_SetModeOff .SE_ROUTING)
  let stillOn ← askBool .PowerSwitch_SetModeOff
  if !stillOn then
    log (.PowerSwitch_SetLevel .LOW_POWER)
  else
    pure ()
  pure out.1

/-- `IsNfcActive()`. -/
def IsNfcActive : Op Bool := do
  let s ← getFlags
  pure s.sIsNfaEnabled

/-! ## Runs of the daemon -/

/-- The operations the protocol dispatcher invokes on `NfcManager`. -/
inductive HostCmd where
  | Initialize | Deinit | EnableDiscovery | DisableDiscovery
  | EnablePolling | DisablePolling | EnableP2pListening | DisableP2pListening
  | CheckLlcp | ActivateLlcp
  | SetP2pInitiatorModes (aModes : Nat) | SetP2pTargetModes (aModes : Nat)
  | DoSelectSecureElement | DoDeselectSecureElement
deriving DecidableEq, Repr

/-- Run a host command, dropping its result. -/
def HostCmd.exec : HostCmd → Op Unit
  | .Initialize => do let _ ← Nfcd.Initialize
  | .Deinit => do let _ ← Nfcd.Deinitialize
  | .EnableDiscovery => do let _ ← Nfcd.EnableDiscovery
  | .DisableDiscovery => do let _ ← Nfcd.DisableDiscovery
  | .EnablePolling => do let _ ← Nfcd.EnablePolling
  | .DisablePolling => do let _ ← Nfcd.DisablePolling
  | .EnableP2pListening => do let _ ← Nfcd.EnableP2pListening
  | .DisableP2pListening => do let _ ← Nfcd.DisableP2pListening
  | .CheckLlcp => do let _ ← Nfcd.CheckLlcp
  | .ActivateLlcp => do let _ ← Nfcd.ActivateLlcp
  | .SetP2pInitiatorModes m => Nfcd.SetP2pInitiatorModes m
  | .SetP2pTargetModes m => Nfcd.SetP2pTargetModes m
  | .DoSelectSecureElement => do let _ ← Nfcd.DoSelectSecureElement
  | .DoDeselectSecureElement => do let _ ← Nfcd.DoDeselectSecureElement

/-- One step of a run: the host issues a command, or the radio interface
delivers its next callback while no command is running. -/
inductive Step where
  | host (c : HostCmd)
  | deliver
deriving DecidableEq, Repr

/-- Deliver the next pending callback, if there is one. -/
def deliverNext : Op Unit := fun w =>
  match w.pending with
  | [] => .ret () w
  | c :: rest => dispatch c { w with pending := rest }

/-- Perform one step. -/
def Step.exec : Step → Op Unit
  | .host c => c.exec
  | .deliver => deliverNext

/-- Perform the steps in order; a command that stays blocked ends the run. -/
def run : List Step → World → Outcome Unit
  | [], w => Outcome.ret () w
  | st :: rest, w =>
      match st.exec w with
      | Outcome.ret _ w1 => run rest w1
      | Outcome.blocked w1 => Outcome.blocked w1

/-- A world at daemon start: all flags false, nothing done yet; the
environment (`status`, `answer`, `pending`) is arbitrary. -/
def World.start (status : Nat → Nat) (answer : Query → Nat → Nat)
    (pending : List Callback) : World :=
  { flags := Session.init, tech_mask := 0, sCurrentConfigLen := 0,
    sConfig := List.replicate 256 0, status := status, issued := 0,
    answer := answer, asked := fun _ => 0, pending := pending, signals := [],
    trace := [] }

/-- A quiet environment at daemon start: every command is accepted, every
read answers 0, no callback is pending. -/
def World.idle : World :=
  World.start (fun _ => NFA_STATUS_OK) (fun _ _ => 0) []

/-- The session after a successful `NFA_Enable`: enabled, nothing else set. -/
def Session.enabled : Session := { Session.init with sIsNfaEnabled := true }

/-! ## Vocabulary of the properties -/

/-- The command is `NFA_StartRfDiscovery`. -/
def Effect.isRfStart : Effect → Bool
  | .nfa .NFA_StartRfDiscovery _ => true
  | _ => false

/-- The command is `NFA_StartRfDiscovery` or `NFA_StopRfDiscovery`. -/
def Effect.isRfCommand : Effect → Bool
  | .nfa .NFA_StartRfDiscovery _ => true
  | .nfa .NFA_StopRfDiscovery _ => true
  | _ => false

/-- The command is `NFA_EnablePolling` or `NFA_DisablePolling`. -/
def Effect.isPollingCommand : Effect → Bool
  | .nfa (.NFA_EnablePolling _) _ => true
  | .nfa .NFA_DisablePolling _ => true
  | _ => false

/-- The command is `NFA_Disable`. -/
def Effect.isNfaDisable : Effect → Bool
  | .nfa (.NFA_Disable _) _ => true
  | _ => false

/-- A command to the radio interface. -/
def Effect.isRadioCommand : Effect → Bool
  | .nfa _ _ => true
  | .call .NFA_Init => true
  | .NFA_SetRfDiscoveryDuration _ => true
  | _ => false

/-- A change of the secure-element routing. -/
def Effect.isRoutingChange : Effect → Bool
  | .call .SE_RouteToDefault => true
  | .call .SE_RouteToSecureElement => true
  | _ => false

/-- What a callback may do: anything but start or stop RF discovery, enable
or disable polling, wait on a sync event, or reset the RF field status. -/
def Effect.byCallback : Effect → Bool
  | .nfa .NFA_StartRfDiscovery _ => false
  | .nfa .NFA_StopRfDiscovery _ => false
  | .nfa (.NFA_EnablePolling _) _ => false
  | .nfa .NFA_DisablePolling _ => false
  | .Wait _ => false
  | .call .SE_ResetRfFieldStatus => false
  | _ => true

/-- What a wait for the completion of a start or stop of RF discovery may add
to the trace: the command itself, the wait, and what callbacks do. -/
def Effect.byWait : Effect → Bool
  | .nfa (.NFA_EnablePolling _) _ => false
  | .nfa .NFA_DisablePolling _ => false
  | .call .SE_ResetRfFieldStatus => false
  | _ => true

/-- A command to enable or disable polling that the radio interface refused. -/
def Effect.isRefusedPolling : Effect → Bool
  | .nfa (.NFA_EnablePolling _) st => st != NFA_STATUS_OK
  | .nfa .NFA_DisablePolling st => st != NFA_STATUS_OK
  | _ => false

/-- The effects of `w1` that came after those of `w0`. -/
def World.since (w0 w1 : World) : List Effect := w1.trace.drop w0.trace.length

/-- The radio interface delivers the given callbacks one after the other
while no command is running. -/
def deliverAll : List Callback → World → Outcome Unit
  | [], w => Outcome.ret () w
  | c :: rest, w =>
      match dispatch c w with
      | Outcome.ret _ w1 => deliverAll rest w1
      | Outcome.blocked w1 => Outcome.blocked w1

/-- `m` takes every world `w` to a world related to `w` by `R` when it
returns, and by `B` when it stays blocked. -/
def Op.Steps {α : Type} (R B : World → World → Prop) (m : Op α) : Prop :=
  ∀ w, match m w with
    | Outcome.ret _ w1 => R w w1
    | Outcome.blocked w1 => B w w1

/-- `m` always returns. -/
def Op.Total {α : Type} (m : Op α) : Prop :=
  ∀ w, ∃ a w1, m w = Outcome.ret a w1

/-- `m`, when it returns, returns `v` in a world related by `R`. -/
def Op.Yields {α : Type} (R : World → World → Prop) (v : α) (m : Op α) : Prop :=
  ∀ w, match m w with
    | Outcome.ret a w1 => R w w1 ∧ a = v
    | Outcome.blocked _ => True

/-- The outcome of an operation started in `w` reports refused polling: if
it returns, it returns `false` exactly when it issued a polling command that
the radio interface refused. -/
def PollingReported (w : World) : Outcome Bool → Prop
  | Outcome.ret r w1 =>
      ∃ new, w1.trace = w.trace ++ new ∧ (r = false ↔ ∃ e ∈ new, e.isRefusedPolling = true)
  | Outcome.blocked _ => True

/-- `m` reports refused polling from every world. -/
def Op.Reports (m : Op Bool) : Prop := ∀ w, PollingReported w (m w)

/-- `m`, when it returns, returns a value and a world that satisfy `Q`. -/
def Op.Ends {α : Type} (Q : α → World → Prop) (m : Op α) : Prop :=
  ∀ w, match m w with
    | Outcome.ret a w1 => Q a w1
    | Outcome.blocked _ => True

/-- What is needed of a pair of relations to follow them through sequencing,
waits and the delivery of callbacks. -/
structure Frame (R B : World → World → Prop) : Prop where
  refl : ∀ w, R w w
  trans : ∀ a b c, R a b → R b c → R a c
  comp : ∀ a b c, R a b → B b c → B a c
  stuck : ∀ w, B w w
  wait : ∀ ev w, R w { w with trace := w.trace ++ [Effect.Wait ev] }
  deliver : ∀ c rest w w1, w.pending = c :: rest →
    dispatch c { w with pending := rest } = Outcome.ret () w1 → R w w1

/-- What is needed of a relation to follow it through the primitive steps:
it holds across a step that keeps flags, trace and pending callbacks, across
the logging of an effect that satisfies `p`, and across a flag update that
satisfies `q`. -/
structure Prims (R : World → World → Prop) (p : Effect → Prop)
    (q : (Session → Session) → Prop) : Prop where
  keep : ∀ w w1, w1.flags = w.flags → w1.trace = w.trace → w1.pending = w.pending → R w w1
  emit : ∀ e w w1, p e → w1.flags = w.flags → w1.trace = w.trace ++ [e] →
    w1.pending = w.pending → R w w1
  update : ∀ f w w1, q f → w1.flags = f w.flags → w1.trace = w.trace →
    w1.pending = w.pending → R w w1

/-- The sync event an effect notifies, if it is a notification. -/
def Effect.notified : Effect → Option SyncEv
  | .NotifyOne ev => some ev
  | _ => none

/-- `w1` continues the trace of `w0` with effects that all satisfy `p`. -/
def Emits (p : Effect → Prop) (w0 w1 : World) : Prop :=
  ∃ new, w1.trace = w0.trace ++ new ∧ ∀ e ∈ new, p e

/-- `w1` continues the trace of `w0` with effects a callback may have, and its
signals with the sync events notified among them. -/
def EmitsSignals (w0 w1 : World) : Prop :=
  ∃ new, w1.trace = w0.trace ++ new
    ∧ w1.signals = w0.signals ++ new.filterMap Effect.notified
    ∧ ∀ e ∈ new, e.byCallback = true

/-- What an observer of the trace knows about RF discovery: `rf` is whether
the last completed start/stop command was a start; `armed` is the command
that returned OK and whose wait has not been woken yet. -/
structure RfView where
  rf : Bool
  armed : Option Bool
deriving DecidableEq, Repr

/-- How one effect changes the observer's view: a start/stop command that
returns OK arms the view; the next notification of
`sNfaEnableDisablePollingEvent` wakes the wait and completes the command. -/
def rfStep (v : RfView) : Effect → RfView
  | .nfa .NFA_StartRfDiscovery st =>
      if st = NFA_STATUS_OK then { v with armed := some true } else v
  | .nfa .NFA_StopRfDiscovery st =>
      if st = NFA_STATUS_OK then { v with armed := some false } else v
  | .NotifyOne .sNfaEnableDisablePollingEvent =>
      match v.armed with
      | some b => { rf := b, armed := none }
      | none => v
  | _ => v

/-- The observer's view after a trace that started at daemon start. -/
def rfView (tr : List Effect) : RfView :=
  tr.foldl rfStep { rf := false, armed := none }

/-- The flag `sRfEnabled` agrees with the observer's view of the trace. -/
def RfTracked (w : World) : Prop :=
  w.flags.sRfEnabled = (rfView w.trace).rf

/-- The flag agrees with the observer's view and no start/stop command is
waiting for its completion. -/
def RfSettled (w : World) : Prop :=
  RfTracked w ∧ (rfView w.trace).armed = none

/-- The callback is an `NFA_ACTIVATED_EVT`. -/
def Callback.isActivation : Callback → Bool
  | .conn (.ACTIVATED _ _) => true
  | _ => false

/-- The callback is an `NFA_DEACTIVATED_EVT` to IDLE or DISCOVERY. -/
def Callback.isRelease : Callback → Bool
  | .conn (.DEACTIVATED .IDLE) => true
  | .conn (.DEACTIVATED .DISCOVERY) => true
  | _ => false

/-! ## NfcManager.cpp: the phases of EnableDiscovery -/

/-- `NfcManager::EnableDiscovery()`, lines 257-275, once it is known that
discovery is not enabled yet: full power, the stop of RF discovery when it is
active, the polling request and the wait for its completion. Returns `stat`.
`s` are the flags read on entry. -/
def EnableDiscovery_polling (tech_mask : Nat) (s : Session) : Op Nat := do
  log (.PowerSwitch_SetLevel .FULL_POWER)
  if s.sRfEnabled then
    StartRfDiscovery false
  else
    pure ()
  let stat ← nfa (.NFA_EnablePolling tech_mask)
  if stat == NFA_STATUS_OK then
    setFlags fun s => { s with sDiscoveryEnabled := true }
    Wait .sNfaEnableDisablePollingEvent
  else
    pure ()
  pure stat

/-- `NfcManager::EnableDiscovery()`, lines 277-289: P2P listening and the
default routes. -/
def EnableDiscovery_listening (tech_mask : Nat) : Op Unit := do
  let s ← getFlags
  if s.sDiscoveryEnabled || (tech_mask == 0) then
    log (.P2P_EnableP2pListening true)
    if !s.sIsSecElemSelected then
      call .SE_RouteToDefault
    else
      pure ()
  else
    pure ()

/-- `m`, started in a world that satisfies `P`, returns a value and a world
that satisfy `Q`, or stays blocked in a world that satisfies `B`. -/
def Op.Hoare {α : Type} (P : World → Prop) (m : Op α) (Q : α → World → Prop)
    (B : World → Prop) : Prop :=
  ∀ w, P w → match m w with
    | Outcome.ret a w1 => Q a w1
    | Outcome.blocked w1 => B w1

/-- The effect is `EnableP2pListening` or `RouteToDefault`: the set-up of P2P
listening and of the default routes. -/
def Effect.isListeningSetup : Effect → Bool
  | .P2P_EnableP2pListening _ => true
  | .call .SE_RouteToDefault => true
  | _ => false

/-! ## NfcIpcSocket.cpp: writing to the socket -/

/-- What a call of `write(2)` comes to: `written n` is the return value
`n ≥ 0`, `EINTR` is `-1` with `errno == EINTR`, `error errno` is `-1` with any
other `errno`. -/
inductive WriteResult where
  | written (n : Nat)
  | EINTR
  | error (errno : Nat)
deriving DecidableEq, Repr

/-- One call `write(nfcdRw, aData + offset, count)` and what it came to. -/
structure WriteCall where
  offset : Nat
  count : Nat
  result : WriteResult
deriving DecidableEq, Repr

/-- The inner loop of `WriteToOutgoingQueue`,
`do { written = write(nfcdRw, aData + writeOffset, aDataLen - writeOffset); }
while (written < 0 && errno == EINTR);`
where `count` is `aDataLen - writeOffset`. `write k c` is the result of the
`k`-th call of `write`, made with count `c`; `calls` is the number of calls
made before. Returns the result that ended the loop and the calls made;
`none` when all of `fuel` calls were interrupted. -/
def writeRetry (write : Nat → Nat → WriteResult) (writeOffset count : Nat) :
    Nat → Nat → Option (WriteResult × List WriteCall)
  | 0, _ => none
  | fuel + 1, calls =>
      match write calls count with
      | .EINTR =>
          match writeRetry write writeOffset count fuel (calls + 1) with
          | some (r, cs) => some (r, ⟨writeOffset, count, .EINTR⟩ :: cs)
          | none => none
      | r => some (r, [⟨writeOffset, count, r⟩])

/-- The outer loop of `WriteToOutgoingQueue`, `while (writeOffset < aDataLen)`:
a result `written >= 0` advances `writeOffset`, any other breaks out of the
loop. Returns the final `writeOffset` and the calls made; `none` when the
loop has not ended within `fuel` rounds of at most `fuel` calls. -/
def writeLoop (write : Nat → Nat → WriteResult) (aDataLen : Nat) :
    Nat → Nat → Nat → Option (Nat × List WriteCall)
  | 0, _, _ => none
  | fuel + 1, writeOffset, calls =>
      if writeOffset < aDataLen then
        match writeRetry write writeOffset (aDataLen - writeOffset) (fuel + 1) calls with
        | none => none
        | some (.written n, cs) =>
            match writeLoop write aDataLen fuel (writeOffset + n) (calls + cs.length) with
            | some (off, rest) => some (off, cs ++ rest)
            | none => none
        | some (_, cs) => some (writeOffset, cs)
      else
        some (writeOffset, [])

/-- `NfcIpcSocket::WriteToOutgoingQueue(aData, aDataLen)`; `aData` is `none`
for a null pointer. The bytes of `aData` do not steer the function: it
returns the final `writeOffset` and the calls of `write` it made. -/
def WriteToOutgoingQueue (write : Nat → Nat → WriteResult) (aData : Option (List Nat))
    (aDataLen : Nat) (fuel : Nat) : Option (Nat × List WriteCall) :=
  if aData.isNone || aDataLen == 0 then
    some (0, [])
  else
    writeLoop write aDataLen fuel 0 0

/-- The bytes a call of `write` took: none when it failed. -/
def WriteResult.bytes : WriteResult → Nat
  | .written n => n
  | _ => 0

/-- The bytes of `data` a call of `write` sent: the first `bytes` from its
offset on. -/
def WriteCall.sent (data : List Nat) (c : WriteCall) : List Nat :=
  (data.drop c.offset).take c.result.bytes

/-- The calls of `write` a run of the loops of `WriteToOutgoingQueue` makes
from call number `k` and offset `off` on, and the offset it ends with:
* at `off ≥ len` the run is over;
* a call interrupted (`EINTR`) is followed by the rest of the run from the same
  offset;
* a call that wrote `n` bytes is followed by the rest of the run from
  `off + n`;
* a call that failed otherwise ends the run.
Every call is made at the current offset for the `len - off` bytes left. -/
inductive WriteLog (write : Nat → Nat → WriteResult) (len : Nat) :
    Nat → Nat → List WriteCall → Nat → Prop where
  | done {k off : Nat} : len ≤ off → WriteLog write len k off [] off
  | retried {k off : Nat} {cs : List WriteCall} {last : Nat} :
      off < len → write k (len - off) = .EINTR → WriteLog write len (k + 1) off cs last →
      WriteLog write len k off (⟨off, len - off, .EINTR⟩ :: cs) last
  | advanced {k off n : Nat} {cs : List WriteCall} {last : Nat} :
      off < len → write k (len - off) = .written n →
      WriteLog write len (k + 1) (off + n) cs last →
      WriteLog write len k off (⟨off, len - off, .written n⟩ :: cs) last
  | failed {k off errno : Nat} :
      off < len → write k (len - off) = .error errno →
      WriteLog write len k off [⟨off, len - off, .error errno⟩] off

/-! ## NfcIpcSocket.cpp: reading from the socket -/

/-- `MAX_COMMAND_BYTES`. -/
def MAX_COMMAND_BYTES : Nat := 8 * 1024

/-- Modelled from the spec: the length of a frame as four bytes, most
significant first ("a 4-byte unsigned big-endian length prefix"). -/
def be32 (n : Nat) : List Nat :=
  [n / 2 ^ 24 % 256, n / 2 ^ 16 % 256, n / 2 ^ 8 % 256, n % 256]

/-- Modelled from the spec: a frame on the wire, the length of the payload
and then the payload ("followed by exactly that many payload bytes"). -/
def frame (payload : List Nat) : List Nat := be32 payload.length ++ payload

/-- What `record_stream_get_next(rs, &data, &dataLen)` hands back to `Loop`:
the return value, `data` (`none` for `NULL`) and `dataLen`. -/
structure GetNext where
  ret : Int
  data : Option (List Nat)
  dataLen : Nat
deriving DecidableEq, Repr

/-- Modelled from the spec: the frame length announced by the bytes buffered,
once four of them are there. -/
def frameLength : List Nat → Option Nat
  | b0 :: b1 :: b2 :: b3 :: _ => some (b0 * 2 ^ 24 + b1 * 2 ^ 16 + b2 * 2 ^ 8 + b3)
  | _ => none

/-- Modelled from the spec: what the record stream of libcutils
(`record_stream_get_next`, not in src/) can hand back from the bytes buffered,
and the bytes it keeps. A frame length of zero signals end-of-stream; a frame
longer than `maxRecordLen`, the limit `Loop` gives to `record_stream_new`, is a
malformed frame length, a transport fault; a complete frame is handed back as
`data` and `dataLen`; otherwise more bytes are needed (`none`). -/
def bufferedRecord (maxRecordLen : Nat) (buffer : List Nat) : Option (GetNext × List Nat) :=
  match frameLength buffer with
  | none => none
  | some len =>
      if len = 0 then some (⟨0, none, 0⟩, buffer)
      else if maxRecordLen < len then some (⟨-1, none, 0⟩, buffer)
      else if 4 + len ≤ buffer.length then
        some (⟨0, some ((buffer.drop 4).take len), len⟩, buffer.drop (4 + len))
      else none

/-- Modelled from the spec: `record_stream_get_next` of libcutils, which is
not in src/. "The transport buffers partial reads and may extract multiple
complete frames from a single read. A frame length of zero, or a read
returning zero-length with no data, signals end-of-stream."
`buffer` holds the bytes read and not yet handed out; `reads` are the results
of the calls of `read` still to come, an empty one being a read that returns
0. Returns what it hands back, the new buffer and the reads left; `none` when
it waits for bytes that never arrive. -/
def record_stream_get_next (maxRecordLen : Nat) :
    List Nat → List (List Nat) → Option (GetNext × List Nat × List (List Nat))
  | buffer, [] =>
      match bufferedRecord maxRecordLen buffer with
      | some (r, rest) => some (r, rest, [])
      | none => none
  | buffer, chunk :: reads =>
      match bufferedRecord maxRecordLen buffer with
      | some (r, rest) => some (r, rest, chunk :: reads)
      | none =>
          if chunk = [] then some (⟨0, none, 0⟩, buffer, reads)
          else record_stream_get_next maxRecordLen (buffer ++ chunk) reads

/-- `NfcIpcSocket::WriteToIncomingQueue(aData, aDataLen)`: the calls of
`sMsgHandler->ProcessRequest(aData, aDataLen)` it makes, each with the bytes
handed over. -/
def WriteToIncomingQueue (aData : Option (List Nat)) (aDataLen : Nat) : List (List Nat) :=
  match aData with
  | some data => if aDataLen > 0 then [data.take aDataLen] else []
  | none => []

/-- How the loop over one connection ends: the connection is closed, or
`poll` never reports the socket readable again. -/
inductive LoopEnd where
  | closed
  | waiting
deriving DecidableEq, Repr

/-- The loop `while(connected)` of `NfcIpcSocket::Loop` for one connection,
with the record stream made for `MAX_COMMAND_BYTES`: `poll`, then
`record_stream_get_next`; `ret == 0 && data == NULL` and `ret < 0` break out of
the loop, anything else goes to `WriteToIncomingQueue`. Returns the calls of
`ProcessRequest` made and how the loop ended; `none` when `fuel` rounds were
not enough. -/
def Loop_connected : Nat → List Nat → List (List Nat) → Option (List (List Nat) × LoopEnd)
  | 0, _, _ => none
  | fuel + 1, buffer, reads =>
      if reads = [] then
        some ([], LoopEnd.waiting)
      else
        match record_stream_get_next MAX_COMMAND_BYTES buffer reads with
        | none => some ([], LoopEnd.waiting)
        | some (r, buffer1, reads1) =>
            if r.ret == 0 && r.data.isNone then
              some ([], LoopEnd.closed)
            else if r.ret < 0 then
              some ([], LoopEnd.closed)
            else
              match Loop_connected fuel buffer1 reads1 with
              | some (delivered, e) => some (WriteToIncomingQueue r.data r.dataLen ++ delivered, e)
              | none => none

/-! ## LlcpServiceSocket.cpp -/

/-- The members of `LlcpServiceSocket`. -/
structure LlcpServiceSocket where
  mHandle : Nat
  mLocalLinearBufferLength : Int
  mLocalMiu : Int
  mLocalRw : Int
deriving DecidableEq, Repr

/-- An `LlcpSocket` as `accept` makes it, `new LlcpSocket(connHandle,
mLocalMiu, mLocalRw)`: the arguments of the constructor (the class is not in
src/). -/
structure LlcpSocket where
  handle : Nat
  localMiu : Int
  localRw : Int
deriving DecidableEq, Repr

/-- The two functions of `PeerToPeer` (not in src/) that `accept` calls, over
a state `σ` of their own: `getNewHandle()` and
`accept(serverHandle, connHandle, maxInfoUnit, recvWindow)`. -/
structure PeerToPeer (σ : Type) where
  getNewHandle : σ → Nat × σ
  accept : Nat → Nat → Int → Int → σ → Bool × σ

/-- `LlcpServiceSocket::accept()`: the socket returned (`none` for `NULL`),
the service socket after the call and the state of `PeerToPeer`. -/
def LlcpServiceSocket.accept {σ : Type} (self : LlcpServiceSocket) (p2p : PeerToPeer σ) (s : σ) :
    Option LlcpSocket × LlcpServiceSocket × σ :=
  let serverHandle := self.mHandle
  let (connHandle, s1) := p2p.getNewHandle s
  let (stat, s2) := p2p.accept serverHandle connHandle self.mLocalMiu self.mLocalRw s1
  if !stat then
    (none, self, s2)
  else
    (some ⟨connHandle, self.mLocalMiu, self.mLocalRw⟩, self, s2)

/-- What an observer of the trace knows about the owner of the RF field:
`p2p` and `se` are `sP2pActive` and `sSeRfActive` as the trace shows them;
`clash` says that the radio interface has delivered an activation of the other
kind while a flag was set. -/
structure FieldView where
  p2p : Bool
  se : Bool
  clash : Bool
deriving DecidableEq, Repr

/-- How one effect changes the observer's view.
* An `NFA_ACTIVATED_EVT` delivered for NFC-DEP while `se` is set, or for
  another protocol in a listen mode while `p2p` is set, is a clash.
* `NFA_SetConfig(RF_FIELD_INFO, [0])` is issued where `sP2pActive` is set, and
  `NotifyListenModeState(true)` where `sSeRfActive` is set.
* An `NFA_DEACTIVATED_EVT` to IDLE or DISCOVERY clears `se` if it is set, and
  `p2p` otherwise. -/
def fieldStep (v : FieldView) : Effect → FieldView
  | .callback (.conn (.ACTIVATED protocol mode)) =>
      if IsPeerToPeer protocol then { v with clash := v.clash || v.se }
      else if IsListenMode mode then { v with clash := v.clash || v.p2p }
      else v
  | .callback (.conn (.DEACTIVATED type)) =>
      if (type == DeactType.IDLE) || (type == DeactType.DISCOVERY) then
        if v.se then { v with se := false } else { v with p2p := false }
      else v
  | .nfa (.NFA_SetConfig .RF_FIELD_INFO value) _ =>
      if value = [0x00] then { v with p2p := true } else v
  | .SE_NotifyListenModeState true => { v with se := true }
  | _ => v

/-- The observer's view after a trace that started at daemon start. -/
def fieldView (tr : List Effect) : FieldView :=
  tr.foldl fieldStep { p2p := false, se := false, clash := false }

/-- The effect is one the observer of the field owner looks at. -/
def Effect.isFieldMark : Effect → Bool
  | .callback (.conn (.ACTIVATED _ _)) => true
  | .callback (.conn (.DEACTIVATED _)) => true
  | .nfa (.NFA_SetConfig .RF_FIELD_INFO _) _ => true
  | .SE_NotifyListenModeState _ => true
  | _ => false

/-- The flags `sP2pActive` and `sSeRfActive` agree with the observer's view of
the trace. -/
def FieldTracked (w : World) : Prop :=
  w.flags.sP2pActive = (fieldView w.trace).p2p ∧ w.flags.sSeRfActive = (fieldView w.trace).se

/-- The flags agree with the observer's view, and they are not both set
unless the view has seen a clash. -/
def FieldSafe (w : World) : Prop :=
  FieldTracked w
    ∧ ((fieldView w.trace).clash = false →
        ¬ (w.flags.sP2pActive = true ∧ w.flags.sSeRfActive = true))

/-! # Properties -/

/-! ## SessionId -/

theorem wrapInt32_of_range (x : Int) (hlo : INT_MIN ≤ x) (hhi : x ≤ INT_MAX) :
    wrapInt32 x = x := by
  unfold wrapInt32
  unfold INT_MIN at hlo
  unfold INT_MAX at hhi
  rw [Int.emod_eq_of_lt (by omega) (by omega)]
  omega

theorem generateNewId_of_lt (s : SessionId) (hlo : INT_MIN ≤ s.mId) (hhi : s.mId < INT_MAX) :
    s.generateNewId = (s.mId + 1, ⟨s.mId + 1⟩) := by
  have h := wrapInt32_of_range (s.mId + 1) (by omega) (by omega)
  simp [SessionId.generateNewId, h]

theorem generateMany_of_le (n : Nat) :
    ∀ s : SessionId, INT_MIN ≤ s.mId → s.mId + n ≤ INT_MAX →
      s.generateMany n
        = ((List.range n).map (fun k => s.mId + ((k : Nat) : Int) + 1), ⟨s.mId + n⟩) := by
  induction n with
  | zero => intro s _ _; simp [SessionId.generateMany]
  | succ n ih =>
      intro s hlo hhi
      have hstep := generateNewId_of_lt s hlo (by omega)
      have hrec := ih ⟨s.mId + 1⟩ (by simp; omega) (by simp; omega)
      simp only [SessionId.generateMany, hstep, hrec]
      refine Prod.ext ?_ ?_
      · simp only [List.range_succ_eq_map, List.map_cons, List.map_map]
        refine congrArg₂ _ (by simp) ?_
        apply List.map_congr_left
        intro k _
        simp only [Function.comp, Nat.cast_succ]
        omega
      · simp only [Nat.cast_succ]
        congr 1
        omega

/-- Claim C1, as the code has it: while the counter has not reached the
largest `int`, `generateNewId` returns the previous current id plus one and
makes it current (`getCurrentId` equals it, `isValid` accepts it); over a run
of calls that stays below the largest `int`, the ids returned are the
successive integers after the starting id, each later one larger than every
earlier one, and after one more call every id returned earlier is invalid. -/
theorem C1_generateNewId_fresh (s : SessionId) (n : Nat)
    (hlo : INT_MIN ≤ s.mId) (hhi : s.mId + n < INT_MAX) :
    let earlier := (s.generateMany n).1
    let t := (s.generateMany n).2
    let r := t.generateNewId
    r.1 = t.getCurrentId + 1
      ∧ r.2.getCurrentId = r.1
      ∧ r.2.isValid r.1 = true
      ∧ earlier = (List.range n).map (fun k => s.mId + ((k : Nat) : Int) + 1)
      ∧ List.Pairwise (fun a b => a < b) earlier
      ∧ ∀ u ∈ earlier, u < r.1 ∧ r.2.isValid u = false := by
  intro earlier t r
  have hmany := generateMany_of_le n s hlo (by omega)
  have ht : t = ⟨s.mId + n⟩ := by simp [t, hmany]
  have he : earlier = (List.range n).map (fun k => s.mId + ((k : Nat) : Int) + 1) := by
    simp [earlier, hmany]
  have hr : r = (s.mId + n + 1, ⟨s.mId + n + 1⟩) := by
    have := generateNewId_of_lt t (by rw [ht]; simp; omega) (by rw [ht]; simp; omega)
    simp [r, this, ht]
  refine ⟨by simp [hr, ht, SessionId.getCurrentId], by simp [hr, SessionId.getCurrentId],
    by simp [hr, SessionId.isValid], he, ?_, ?_⟩
  · rw [he, List.pairwise_map]
    refine List.Pairwise.imp ?_ (List.pairwise_lt_range n)
    intro a b hab
    omega
  · intro u hu
    rw [he, List.mem_map] at hu
    obtain ⟨k, hk, rfl⟩ := hu
    have hk := List.mem_range.mp hk
    refine ⟨by simp [hr]; omega, ?_⟩
    simp only [hr, SessionId.isValid, decide_eq_false_iff_not]
    omega

/-- Witness for C1: three calls from the initial counter, then a fourth. -/
theorem C1_generateNewId_fresh_witness :
    (SessionId.init.generateMany 3).1 = [1, 2, 3]
      ∧ ((SessionId.init.generateMany 3).2.generateNewId).1 = 4
      ∧ ∀ u ∈ (SessionId.init.generateMany 3).1,
          u < ((SessionId.init.generateMany 3).2.generateNewId).1
            ∧ ((SessionId.init.generateMany 3).2.generateNewId).2.isValid u = false :=
  ⟨by decide, by decide,
    (C1_generateNewId_fresh SessionId.init 3 (by decide) (by decide)).2.2.2.2.2⟩

/-- Claim C1 as stated fails at the largest `int`: the id returned is not the
previous id plus one, and it is smaller than the previous id. -/
theorem C1_counterexample_at_INT_MAX :
    ((SessionId.mk INT_MAX).generateNewId).1 ≠ (SessionId.mk INT_MAX).getCurrentId + 1
      ∧ ((SessionId.mk INT_MAX).generateNewId).1 < (SessionId.mk INT_MAX).getCurrentId := by
  decide

/-! ## The monad of operations -/

theorem Op_pure_apply {α : Type} (a : α) (w : World) :
    (pure a : Op α) w = Outcome.ret a w := rfl

theorem Op_bind_apply {α β : Type} (m : Op α) (f : α → Op β) (w : World) :
    (m >>= f) w = match m w with
      | Outcome.ret a w1 => f a w1
      | Outcome.blocked w1 => Outcome.blocked w1 := rfl

theorem Steps_pure {α : Type} {R B : World → World → Prop} (hrefl : ∀ w, R w w) (a : α) :
    Op.Steps R B (pure a : Op α) := fun w => hrefl w

theorem Steps_bind {α β : Type} {R B : World → World → Prop}
    (htrans : ∀ a b c, R a b → R b c → R a c) (hcomp : ∀ a b c, R a b → B b c → B a c)
    {m : Op α} {f : α → Op β}
    (hm : Op.Steps R B m) (hf : ∀ a, Op.Steps R B (f a)) : Op.Steps R B (m >>= f) := by
  intro w
  have h1 := hm w
  rw [Op_bind_apply]
  cases hmw : m w with
  | ret a w1 =>
      rw [hmw] at h1
      have h2 := hf a w1
      simp only
      cases hfw : f a w1 with
      | ret b w2 =>
          rw [hfw] at h2
          exact htrans _ _ _ h1 h2
      | blocked w2 =>
          rw [hfw] at h2
          exact hcomp _ _ _ h1 h2
  | blocked w1 =>
      rw [hmw] at h1
      exact h1

theorem Steps_ite {α : Type} {R B : World → World → Prop} {c : Prop} [Decidable c]
    {a b : Op α} (ha : Op.Steps R B a) (hb : Op.Steps R B b) :
    Op.Steps R B (if c then a else b) := by
  split
  · exact ha
  · exact hb

theorem Steps_world {α : Type} {R : World → World → Prop} {m : Op α}
    (h : Op.Steps R R m) (w : World) : R w (m w).world := by
  have h1 := h w
  cases hmw : m w with
  | ret a w1 => rw [hmw] at h1; exact h1
  | blocked w1 => rw [hmw] at h1; exact h1

theorem Total_pure {α : Type} (a : α) : Op.Total (pure a : Op α) :=
  fun w => ⟨a, w, rfl⟩

theorem Total_bind {α β : Type} {m : Op α} {f : α → Op β}
    (hm : Op.Total m) (hf : ∀ a, Op.Total (f a)) : Op.Total (m >>= f) := by
  intro w
  obtain ⟨a, w1, h1⟩ := hm w
  obtain ⟨b, w2, h2⟩ := hf a w1
  exact ⟨b, w2, by rw [Op_bind_apply, h1]; exact h2⟩

theorem Total_ite {α : Type} {c : Prop} [Decidable c] {a b : Op α}
    (ha : Op.Total a) (hb : Op.Total b) : Op.Total (if c then a else b) := by
  split
  · exact ha
  · exact hb

theorem Total_prim {α : Type} (g : World → α) (h : World → World) :
    Op.Total (fun w => Outcome.ret (g w) (h w)) :=
  fun w => ⟨g w, h w, rfl⟩

theorem NfaDeviceManagementCallback_total (e : DmEvt) :
    Op.Total (NfaDeviceManagementCallback e) := by
  cases e <;> unfold NfaDeviceManagementCallback <;>
    repeat' first
      | exact Total_pure _
      | exact Total_prim _ _
      | (apply Total_bind; swap; intro _)
      | apply Total_ite

theorem NfaConnectionCallback_total (e : ConnEvt) :
    Op.Total (NfaConnectionCallback e) := by
  cases e <;> unfold NfaConnectionCallback HandleRfDiscoveryEvent <;>
    repeat' first
      | exact Total_pure _
      | exact Total_prim _ _
      | (apply Total_bind; swap; intro _)
      | apply Total_ite

theorem dispatch_total (c : Callback) : Op.Total (dispatch c) := by
  intro w
  cases c with
  | dm e => exact NfaDeviceManagementCallback_total e _
  | conn e => exact NfaConnectionCallback_total e _

/-! ## What the callbacks leave alone, and what they emit -/

/-- The part of the world no callback touches: the pending callbacks, the
answers of the environment and `sRfEnabled`. -/
theorem NfaDeviceManagementCallback_keeps (e : DmEvt) :
    Op.Steps (fun w w1 => w1.pending = w.pending ∧ w1.flags.sRfEnabled = w.flags.sRfEnabled)
      (fun w w1 => w1.pending = w.pending ∧ w1.flags.sRfEnabled = w.flags.sRfEnabled)
      (NfaDeviceManagementCallback e) := by
  have hrefl : ∀ w : World, w.pending = w.pending ∧ w.flags.sRfEnabled = w.flags.sRfEnabled :=
    fun _ => ⟨rfl, rfl⟩
  have htrans : ∀ a b c : World,
      (b.pending = a.pending ∧ b.flags.sRfEnabled = a.flags.sRfEnabled) →
      (c.pending = b.pending ∧ c.flags.sRfEnabled = b.flags.sRfEnabled) →
      (c.pending = a.pending ∧ c.flags.sRfEnabled = a.flags.sRfEnabled) :=
    fun _ _ _ h1 h2 => ⟨h2.1.trans h1.1, h2.2.trans h1.2⟩
  cases e <;> unfold NfaDeviceManagementCallback <;>
    repeat' first
      | exact Steps_pure hrefl _
      | exact fun _ => ⟨rfl, rfl⟩
      | (apply Steps_bind htrans htrans; swap; intro _)
      | apply Steps_ite

theorem NfaConnectionCallback_keeps (e : ConnEvt) :
    Op.Steps (fun w w1 => w1.pending = w.pending ∧ w1.flags.sRfEnabled = w.flags.sRfEnabled)
      (fun w w1 => w1.pending = w.pending ∧ w1.flags.sRfEnabled = w.flags.sRfEnabled)
      (NfaConnectionCallback e) := by
  have hrefl : ∀ w : World, w.pending = w.pending ∧ w.flags.sRfEnabled = w.flags.sRfEnabled :=
    fun _ => ⟨rfl, rfl⟩
  have htrans : ∀ a b c : World,
      (b.pending = a.pending ∧ b.flags.sRfEnabled = a.flags.sRfEnabled) →
      (c.pending = b.pending ∧ c.flags.sRfEnabled = b.flags.sRfEnabled) →
      (c.pending = a.pending ∧ c.flags.sRfEnabled = a.flags.sRfEnabled) :=
    fun _ _ _ h1 h2 => ⟨h2.1.trans h1.1, h2.2.trans h1.2⟩
  cases e <;> unfold NfaConnectionCallback HandleRfDiscoveryEvent <;>
    repeat' first
      | exact Steps_pure hrefl _
      | exact fun _ => ⟨rfl, rfl⟩
      | (apply Steps_bind htrans htrans; swap; intro _)
      | apply Steps_ite

theorem dispatch_keeps (c : Callback) (w : World) :
    (dispatch c w).world.pending = w.pending
      ∧ (dispatch c w).world.flags.sRfEnabled = w.flags.sRfEnabled := by
  cases c with
  | dm e => exact Steps_world (NfaDeviceManagementCallback_keeps e) _
  | conn e => exact Steps_world (NfaConnectionCallback_keeps e) _

theorem EmitsSignals_refl (w : World) : EmitsSignals w w :=
  ⟨[], by simp, by simp, by simp⟩

theorem EmitsSignals_trans (a b c : World)
    (h1 : EmitsSignals a b) (h2 : EmitsSignals b c) : EmitsSignals a c := by
  obtain ⟨n1, e1, s1, p1⟩ := h1
  obtain ⟨n2, e2, s2, p2⟩ := h2
  refine ⟨n1 ++ n2, by rw [e2, e1, List.append_assoc],
    by rw [s2, s1, List.filterMap_append, List.append_assoc], ?_⟩
  intro e he
  rcases List.mem_append.mp he with h | h
  · exact p1 e h
  · exact p2 e h

theorem EmitsSignals_same {w w1 : World} (h : w1.trace = w.trace)
    (hs : w1.signals = w.signals) : EmitsSignals w w1 :=
  ⟨[], by simp [h], by simp [hs], by simp⟩

theorem EmitsSignals_one {w w1 : World} (e : Effect)
    (h : w1.trace = w.trace ++ [e]) (hs : w1.signals = w.signals)
    (hn : e.notified = none) (he : e.byCallback = true) : EmitsSignals w w1 :=
  ⟨[e], h, by simp [hs, List.filterMap_cons, hn], by simpa using he⟩

theorem EmitsSignals_notify {w w1 : World} (ev : SyncEv)
    (h : w1.trace = w.trace ++ [Effect.NotifyOne ev]) (hs : w1.signals = w.signals ++ [ev]) :
    EmitsSignals w w1 :=
  ⟨[Effect.NotifyOne ev], h, by simp [hs, List.filterMap_cons, Effect.notified],
    by simp [Effect.byCallback]⟩

/-- The effects of the callbacks are never commands that start or stop RF
discovery or enable or disable polling, never waits, and never a reset of the
RF field status; the signals are the sync events notified. -/
theorem NfaDeviceManagementCallback_emits (e : DmEvt) :
    Op.Steps EmitsSignals EmitsSignals (NfaDeviceManagementCallback e) := by
  cases e <;> unfold NfaDeviceManagementCallback <;>
    repeat' first
      | exact Steps_pure EmitsSignals_refl _
      | exact fun _ => EmitsSignals_same rfl rfl
      | exact fun _ => EmitsSignals_one _ rfl rfl rfl rfl
      | exact fun _ => EmitsSignals_notify _ rfl rfl
      | (apply Steps_bind EmitsSignals_trans EmitsSignals_trans; swap; intro _)
      | apply Steps_ite

theorem NfaConnectionCallback_emits (e : ConnEvt) :
    Op.Steps EmitsSignals EmitsSignals (NfaConnectionCallback e) := by
  cases e <;> unfold NfaConnectionCallback HandleRfDiscoveryEvent <;>
    repeat' first
      | exact Steps_pure EmitsSignals_refl _
      | exact fun _ => EmitsSignals_same rfl rfl
      | exact fun _ => EmitsSignals_one _ rfl rfl rfl rfl
      | exact fun _ => EmitsSignals_notify _ rfl rfl
      | (apply Steps_bind EmitsSignals_trans EmitsSignals_trans; swap; intro _)
      | apply Steps_ite

/-- A delivered callback: it always returns, keeps the pending callbacks and
`sRfEnabled`, and adds to the trace its own record and then effects a
callback may have; its signals are the sync events notified among them. -/
theorem dispatch_spec (c : Callback) (w : World) :
    ∃ w1 new, dispatch c w = Outcome.ret () w1
      ∧ w1.pending = w.pending
      ∧ w1.flags.sRfEnabled = w.flags.sRfEnabled
      ∧ w1.trace = w.trace ++ Effect.callback c :: new
      ∧ w1.signals = new.filterMap Effect.notified
      ∧ ∀ e ∈ new, e.byCallback = true := by
  obtain ⟨a, w1, h1⟩ := dispatch_total c w
  have hk := dispatch_keeps c w
  rw [h1] at hk
  have he : EmitsSignals { w with signals := [], trace := w.trace ++ [Effect.callback c] } w1 := by
    cases c with
    | dm e =>
        have := Steps_world (NfaDeviceManagementCallback_emits e)
          { w with signals := [], trace := w.trace ++ [Effect.callback (Callback.dm e)] }
        have h2 : dispatch (Callback.dm e) w = NfaDeviceManagementCallback e
          { w with signals := [], trace := w.trace ++ [Effect.callback (Callback.dm e)] } := rfl
        rw [← h2, h1] at this
        exact this
    | conn e =>
        have := Steps_world (NfaConnectionCallback_emits e)
          { w with signals := [], trace := w.trace ++ [Effect.callback (Callback.conn e)] }
        have h2 : dispatch (Callback.conn e) w = NfaConnectionCallback e
          { w with signals := [], trace := w.trace ++ [Effect.callback (Callback.conn e)] } := rfl
        rw [← h2, h1] at this
        exact this
  obtain ⟨new, ht, hs, hp⟩ := he
  refine ⟨w1, new, h1, hk.1, hk.2, ?_, ?_, hp⟩
  · simpa using ht
  · simpa using hs

/-! ## Waits and deliveries follow a frame -/

theorem World.pending_nil_eta (w : World) (h : w.pending = []) :
    { w with pending := [] } = w := by
  cases w
  simp only at h
  simp [h]

theorem waitLoop_steps {R B : World → World → Prop} (F : Frame R B) (ev : SyncEv) :
    ∀ (l : List Callback) (w : World), w.pending = l →
      match waitLoop ev l w with
      | Outcome.ret _ w1 => R w w1
      | Outcome.blocked w1 => B w w1 := by
  intro l
  induction l with
  | nil =>
      intro w hw
      simp only [waitLoop]
      rw [World.pending_nil_eta w hw]
      exact F.stuck w
  | cons c rest ih =>
      intro w hw
      obtain ⟨w1, new, hd, hp, -, -, -, -⟩ := dispatch_spec c { w with pending := rest }
      have hstep := F.deliver c rest w w1 hw hd
      by_cases hs : w1.signals.contains ev = true
      · simp only [waitLoop, hd, hs, if_true]
        exact hstep
      · have h2 := ih w1 hp
        simp only [waitLoop, hd, hs, if_false, Bool.false_eq_true]
        cases hl : waitLoop ev rest w1 with
        | ret a w2 =>
            rw [hl] at h2
            exact F.trans _ _ _ hstep h2
        | blocked w2 =>
            rw [hl] at h2
            exact F.comp _ _ _ hstep h2

theorem Wait_steps {R B : World → World → Prop} (F : Frame R B) (ev : SyncEv) :
    Op.Steps R B (Wait ev) := by
  intro w
  have h1 := F.wait ev w
  have h2 := waitLoop_steps F ev w.pending { w with trace := w.trace ++ [Effect.Wait ev] } rfl
  unfold Wait
  cases hl : waitLoop ev w.pending { w with trace := w.trace ++ [Effect.Wait ev] } with
  | ret a w2 =>
      rw [hl] at h2
      exact F.trans _ _ _ h1 h2
  | blocked w2 =>
      rw [hl] at h2
      exact F.comp _ _ _ h1 h2

theorem deliverNext_steps {R B : World → World → Prop} (F : Frame R B) :
    Op.Steps R B deliverNext := by
  intro w
  unfold deliverNext
  cases hp : w.pending with
  | nil => exact F.refl w
  | cons c rest =>
      obtain ⟨w1, new, hd, -⟩ := dispatch_spec c { w with pending := rest }
      simp only [hd]
      exact F.deliver c rest w w1 hp hd

/-! ## Frames of effects -/

theorem Emits_refl (p : Effect → Prop) (w : World) : Emits p w w :=
  ⟨[], by simp, by simp⟩

theorem Emits_trans (p : Effect → Prop) (a b c : World)
    (h1 : Emits p a b) (h2 : Emits p b c) : Emits p a c := by
  obtain ⟨n1, e1, p1⟩ := h1
  obtain ⟨n2, e2, p2⟩ := h2
  refine ⟨n1 ++ n2, by rw [e2, e1, List.append_assoc], ?_⟩
  intro e he
  rcases List.mem_append.mp he with h | h
  · exact p1 e h
  · exact p2 e h

theorem Emits_same {p : Effect → Prop} {w w1 : World} (h : w1.trace = w.trace) :
    Emits p w w1 :=
  ⟨[], by simp [h], by simp⟩

theorem Emits_one {p : Effect → Prop} {w w1 : World} (e : Effect)
    (h : w1.trace = w.trace ++ [e]) (he : p e) : Emits p w w1 :=
  ⟨[e], h, by simpa using he⟩

theorem Emits_frame (p : Effect → Prop) (hw : ∀ ev, p (Effect.Wait ev))
    (hcb : ∀ c, p (Effect.callback c)) (hc : ∀ e, e.byCallback = true → p e) :
    Frame (Emits p) (Emits p) where
  refl := Emits_refl p
  trans := Emits_trans p
  comp := Emits_trans p
  stuck := Emits_refl p
  wait := fun ev _ => Emits_one _ rfl (hw ev)
  deliver := by
    intro c rest w w1 _ hd
    obtain ⟨w2, new, hd2, -, -, ht, -, hp⟩ := dispatch_spec c { w with pending := rest }
    rw [hd] at hd2
    cases hd2
    refine ⟨Effect.callback c :: new, ht, ?_⟩
    intro e he
    rcases List.mem_cons.mp he with h | h
    · rw [h]; exact hcb c
    · exact hc e (hp e h)

theorem since_of_append (w w1 : World) (new : List Effect) (h : w1.trace = w.trace ++ new) :
    w.since w1 = new := by
  simp [World.since, h]

/-- Whatever `StartRfDiscovery` adds to the trace, it is neither a polling
command nor a reset of the RF field status. -/
theorem StartRfDiscovery_emits (p : Effect → Prop) (hw : ∀ ev, p (Effect.Wait ev))
    (hcb : ∀ c, p (Effect.callback c)) (hc : ∀ e, e.byCallback = true → p e)
    (hstart : ∀ st, p (Effect.nfa NfaCmd.NFA_StartRfDiscovery st))
    (hstop : ∀ st, p (Effect.nfa NfaCmd.NFA_StopRfDiscovery st)) (isStart : Bool) :
    Op.Steps (Emits p) (Emits p) (StartRfDiscovery isStart) := by
  have F := Emits_frame p hw hcb hc
  unfold StartRfDiscovery
  repeat' first
    | exact Steps_pure F.refl _
    | exact Wait_steps F _
    | exact fun _ => Emits_same rfl
    | (apply Steps_bind F.trans F.comp; swap; intro _)
    | apply Steps_ite
  intro w
  cases isStart
  · exact Emits_one _ rfl (hstop _)
  · exact Emits_one _ rfl (hstart _)


/-! ## Discovery: what the operations add to the trace -/

theorem Steps_ret {α : Type} {R B : World → World → Prop} {m : Op α} (h : Op.Steps R B m)
    {w : World} {a : α} {w1 : World} (hm : m w = Outcome.ret a w1) : R w w1 := by
  have h1 := h w
  rw [hm] at h1
  exact h1

theorem byWait_of_byCallback (e : Effect) (h : e.byCallback = true) : e.byWait = true := by
  unfold Effect.byWait
  split <;> simp_all [Effect.byCallback]

theorem byWait_frame :
    Frame (Emits fun e => e.byWait = true) (Emits fun e => e.byWait = true) :=
  Emits_frame (fun e => e.byWait = true) (fun _ => rfl) (fun _ => rfl) byWait_of_byCallback

theorem StartRfDiscovery_byWait (isStart : Bool) :
    Op.Steps (Emits fun e => e.byWait = true) (Emits fun e => e.byWait = true)
      (StartRfDiscovery isStart) :=
  StartRfDiscovery_emits (fun e => e.byWait = true) (fun _ => rfl) (fun _ => rfl)
    byWait_of_byCallback (fun _ => rfl) (fun _ => rfl) isStart

theorem count_reset_byWait (l : List Effect) (h : ∀ e ∈ l, e.byWait = true) :
    l.count (Effect.call Collab.SE_ResetRfFieldStatus) = 0 := by
  rw [List.count_eq_zero]
  intro hm
  have := h _ hm
  simp [Effect.byWait] at this

theorem not_refused_byWait (l : List Effect) (h : ∀ e ∈ l, e.byWait = true) :
    ¬ ∃ e ∈ l, e.isRefusedPolling = true := by
  rintro ⟨e, he, hr⟩
  have h1 := h e he
  unfold Effect.isRefusedPolling at hr
  split at hr <;> simp_all [Effect.byWait]

theorem any_refused_byWait (l : List Effect) (h : ∀ e ∈ l, e.byWait = true) :
    l.any Effect.isRefusedPolling = false := by
  rw [Bool.eq_false_iff]
  intro hany
  rw [List.any_eq_true] at hany
  exact not_refused_byWait l h hany

/-- What `DisableDiscovery` does when discovery is enabled: if it returns, it
has reset the RF field status exactly once, and it returns `false` exactly
when the `NFA_DisablePolling` it issued was refused. -/
theorem DisableDiscovery_spec (w : World) (hde : w.flags.sDiscoveryEnabled = true) :
    match DisableDiscovery w with
    | Outcome.ret r w1 =>
        ∃ new, w1.trace = w.trace ++ new
          ∧ new.count (Effect.call Collab.SE_ResetRfFieldStatus) = 1
          ∧ (r = false ↔ ∃ e ∈ new, e.isRefusedPolling = true)
    | Outcome.blocked _ => True := by
  have hS := StartRfDiscovery_byWait false
  have hW := Wait_steps byWait_frame SyncEv.sNfaEnableDisablePollingEvent
  simp only [DisableDiscovery, Op_bind_apply, Op_pure_apply, call, log, getFlags, nfa, setFlags, askBool, hde,
    Bool.not_true, Bool.false_eq_true, if_false, ite_apply]
  cases h1 : StartRfDiscovery false
      { w with trace := w.trace ++ [Effect.call Collab.Pn544InteropAbortNow] } with
  | blocked w1 => trivial
  | ret a w1 =>
      obtain ⟨n1, ht1, hp1⟩ := Steps_ret hS h1
      have hc1 := count_reset_byWait n1 hp1
      have hn1 := any_refused_byWait n1 hp1
      simp only at ht1
      simp only
      by_cases hd1 : w1.flags.sDiscoveryEnabled = true
      · simp only [hd1, if_true, Op_bind_apply, Op_pure_apply, nfa, setFlags, log, askBool, ite_apply]
        by_cases hst : w1.status w1.issued = NFA_STATUS_OK
        · simp only [hst, beq_self_eq_true, if_true, Op_bind_apply, Op_pure_apply, setFlags]
          cases h2 : Wait SyncEv.sNfaEnableDisablePollingEvent
              { w1 with issued := w1.issued + 1,
                        trace := w1.trace ++ [Effect.nfa NfaCmd.NFA_DisablePolling NFA_STATUS_OK],
                        flags := { w1.flags with sDiscoveryEnabled := false } } with
          | blocked w2 => trivial
          | ret a2 w2 =>
              obtain ⟨n2, ht2, hp2⟩ := Steps_ret hW h2
              have hc2 := count_reset_byWait n2 hp2
              have hn2 := any_refused_byWait n2 hp2
              simp only at ht2
              simp only [Op_bind_apply, Op_pure_apply, log, askBool, ite_apply]
              split_ifs <;>
              · simp only [Op_bind_apply, Op_pure_apply, log]
                refine ⟨_, by rw [ht2, ht1]; simp only [List.append_assoc]; rfl, ?_, ?_⟩
                · simp [List.count_cons, hc1, hc2, List.count_append]
                · rw [← List.any_eq_true]
                  simp [hn1, hn2, Effect.isRefusedPolling]
        · have hst2 : (w1.status w1.issued == NFA_STATUS_OK) = false := by simpa using hst
          simp only [hst2, Bool.false_eq_true, if_false, Op_bind_apply, Op_pure_apply, log, askBool,
            ite_apply]
          split_ifs <;>
          · simp only [Op_bind_apply, Op_pure_apply, log]
            refine ⟨_, by rw [ht1]; simp only [List.append_assoc]; rfl, ?_, ?_⟩
            · simp [List.count_cons, hc1, List.count_append]
            · rw [← List.any_eq_true]
              simp [hn1, Effect.isRefusedPolling, hst2, hst]
      · simp only [hd1, Bool.false_eq_true, if_false, Op_bind_apply, Op_pure_apply, nfa, setFlags, log,
          askBool, ite_apply]
        split_ifs <;>
        · simp only [Op_bind_apply, Op_pure_apply, log]
          refine ⟨_, by rw [ht1]; simp only [List.append_assoc]; rfl, ?_, ?_⟩
          · simp [List.count_cons, hc1, List.count_append]
          · rw [← List.any_eq_true]
            simp [hn1, Effect.isRefusedPolling]

theorem Yields_pure {α : Type} {R : World → World → Prop} (hrefl : ∀ w, R w w) (v : α) :
    Op.Yields R v (pure v : Op α) := fun w => ⟨hrefl w, rfl⟩

theorem Yields_bind {α β : Type} {R B : World → World → Prop}
    (htrans : ∀ a b c, R a b → R b c → R a c) {v : β} {m : Op α} {f : α → Op β}
    (hm : Op.Steps R B m) (hf : ∀ a, Op.Yields R v (f a)) : Op.Yields R v (m >>= f) := by
  intro w
  rw [Op_bind_apply]
  cases hmw : m w with
  | blocked w1 => trivial
  | ret a w1 =>
      have h1 := Steps_ret hm hmw
      have h2 := hf a w1
      simp only
      cases hfw : f a w1 with
      | blocked w2 => trivial
      | ret b w2 =>
          rw [hfw] at h2
          exact ⟨htrans _ _ _ h1 h2.1, h2.2⟩

theorem Yields_ite {α : Type} {R : World → World → Prop} {v : α} {c : Prop} [Decidable c]
    {a b : Op α} (ha : Op.Yields R v a) (hb : Op.Yields R v b) :
    Op.Yields R v (if c then a else b) := by
  split
  · exact ha
  · exact hb

theorem Reports_prefix {α : Type} {m : Op α} {f : α → Op Bool}
    (hm : Op.Steps (Emits fun e => e.byWait = true) (Emits fun e => e.byWait = true) m)
    (hf : ∀ a, Op.Reports (f a)) : Op.Reports (m >>= f) := by
  intro w
  rw [Op_bind_apply]
  cases hmw : m w with
  | blocked w1 => trivial
  | ret a w1 =>
      obtain ⟨n1, ht1, hp1⟩ := Steps_ret hm hmw
      have h2 := hf a w1
      simp only
      cases hfw : f a w1 with
      | blocked w2 => trivial
      | ret r w2 =>
          rw [hfw] at h2
          obtain ⟨n2, ht2, hr⟩ := h2
          refine ⟨n1 ++ n2, by rw [ht2, ht1, List.append_assoc], ?_⟩
          rw [hr]
          constructor
          · rintro ⟨e, he, hq⟩
            exact ⟨e, List.mem_append.mpr (Or.inr he), hq⟩
          · rintro ⟨e, he, hq⟩
            rcases List.mem_append.mp he with h | h
            · exact absurd ⟨e, h, hq⟩ (not_refused_byWait n1 hp1)
            · exact ⟨e, h, hq⟩

theorem Reports_nfa (cmd : NfaCmd) (post : Nat → Op Bool)
    (hcmd : ∀ st, (Effect.nfa cmd st).isRefusedPolling = (st != NFA_STATUS_OK))
    (hpost : ∀ st, Op.Yields (Emits fun e => e.byWait = true) (st == NFA_STATUS_OK) (post st)) :
    Op.Reports (nfa cmd >>= post) := by
  intro w
  simp only [Op_bind_apply, nfa]
  have h2 := hpost (w.status w.issued)
    { w with issued := w.issued + 1,
             trace := w.trace ++ [Effect.nfa cmd (w.status w.issued)] }
  cases hfw : post (w.status w.issued)
      { w with issued := w.issued + 1,
               trace := w.trace ++ [Effect.nfa cmd (w.status w.issued)] } with
  | blocked w2 => trivial
  | ret r w2 =>
      rw [hfw] at h2
      obtain ⟨⟨n2, ht2, hp2⟩, hr⟩ := h2
      simp only at ht2
      refine ⟨Effect.nfa cmd (w.status w.issued) :: n2, by rw [ht2]; simp, ?_⟩
      rw [hr]
      constructor
      · intro h
        refine ⟨_, List.mem_cons_self _ _, ?_⟩
        rw [hcmd]
        simpa using h
      · rintro ⟨e, he, hq⟩
        rcases List.mem_cons.mp he with h | h
        · rw [h, hcmd] at hq
          simpa using hq
        · exact absurd ⟨e, h, hq⟩ (not_refused_byWait n2 hp2)

theorem Reports_true : Op.Reports (pure true) :=
  fun _ => ⟨[], by simp, by simp⟩

theorem Reports_ite {c : Prop} [Decidable c] {a b : Op Bool}
    (ha : Op.Reports a) (hb : Op.Reports b) : Op.Reports (if c then a else b) := by
  split
  · exact ha
  · exact hb

/-- `EnableDiscovery` reports a refused `NFA_EnablePolling`, and nothing else,
as `false`. -/
theorem EnableDiscovery_reports : Op.Reports EnableDiscovery := by
  have F := byWait_frame
  unfold EnableDiscovery
  repeat' first
    | exact Reports_true
    | (refine Reports_nfa _ _ (fun _ => rfl) ?_; intro _)
    | (apply Reports_prefix; swap; intro _)
    | apply Reports_ite
    | exact Yields_pure F.refl _
    | (apply Yields_bind F.trans (B := Emits fun e => e.byWait = true); swap; intro _)
    | apply Yields_ite
    | exact Steps_pure F.refl _
    | exact Wait_steps F _
    | exact StartRfDiscovery_byWait _
    | exact fun _ => Emits_same rfl
    | exact fun _ => Emits_one _ rfl rfl

/-- `DisableDiscovery` reports a refused `NFA_DisablePolling`, and nothing
else, as `false`. -/
theorem DisableDiscovery_reports : Op.Reports DisableDiscovery := by
  intro w
  by_cases hde : w.flags.sDiscoveryEnabled = true
  · have h := DisableDiscovery_spec w hde
    cases hd : DisableDiscovery w with
    | blocked w1 => trivial
    | ret r w1 =>
        rw [hd] at h
        obtain ⟨new, ht, -, hr⟩ := h
        exact ⟨new, ht, hr⟩
  · have hde2 : w.flags.sDiscoveryEnabled = false := by simpa using hde
    simp only [DisableDiscovery, Op_bind_apply, Op_pure_apply, call, log, getFlags, hde2,
      Bool.not_false, if_true]
    exact ⟨[Effect.call Collab.Pn544InteropAbortNow], rfl, by simp [Effect.isRefusedPolling]⟩


/-! ## Claims C3 to C8 -/

/-- Claim C3: `DoSelectSecureElement` called while a secure element is
already selected returns `true` and changes nothing at all; `DisableDiscovery`
called while discovery is already disabled returns `true`, leaves every
session flag unchanged and does nothing but abort the interop timer: no
command to the radio interface, no routing change, no change of P2P
listening. -/
theorem C3_idempotent_reissue (w : World) :
    (w.flags.sIsSecElemSelected = true →
      DoSelectSecureElement w = Outcome.ret true w)
    ∧ (w.flags.sDiscoveryEnabled = false →
      ∃ w1, DisableDiscovery w = Outcome.ret true w1
        ∧ w1.flags = w.flags
        ∧ w.since w1 = [Effect.call Collab.Pn544InteropAbortNow]
        ∧ ∀ e ∈ w.since w1, e.isRadioCommand = false ∧ e.isRoutingChange = false) := by
  constructor
  · intro h
    simp [DoSelectSecureElement, Op_bind_apply, Op_pure_apply, getFlags, h]
  · intro h
    refine ⟨{ w with trace := w.trace ++ [Effect.call Collab.Pn544InteropAbortNow] }, ?_, rfl, ?_, ?_⟩
    · simp [DisableDiscovery, Op_bind_apply, Op_pure_apply, getFlags, call, log, h]
    · simp [World.since]
    · simp [World.since, Effect.isRadioCommand, Effect.isRoutingChange]

/-- Witness for C3: a session with a secure element selected and discovery
disabled. -/
theorem C3_idempotent_reissue_witness :
    DoSelectSecureElement
        { World.idle with flags := { Session.enabled with sIsSecElemSelected := true } }
      = Outcome.ret true
        { World.idle with flags := { Session.enabled with sIsSecElemSelected := true } }
    ∧ ∃ w1, DisableDiscovery World.idle = Outcome.ret true w1
        ∧ w1.flags = World.idle.flags
        ∧ World.idle.since w1 = [Effect.call Collab.Pn544InteropAbortNow]
        ∧ ∀ e ∈ World.idle.since w1, e.isRadioCommand = false ∧ e.isRoutingChange = false :=
  ⟨(C3_idempotent_reissue
      { World.idle with flags := { Session.enabled with sIsSecElemSelected := true } }).1 rfl,
    (C3_idempotent_reissue World.idle).2 rfl⟩

/-- Claim C4: from a session with discovery disabled and RF discovery not
active, when the radio interface accepts the polling and the start command
and delivers `NFA_POLL_ENABLED_EVT` and then `NFA_RF_DISCOVERY_STARTED_EVT`,
`EnableDiscovery` returns `true`, has issued exactly one RF-discovery start,
and ends with `sDiscoveryEnabled` and `sRfEnabled` both true. -/
theorem C4_enableDiscovery_scenario (w : World) (rest : List Callback)
    (hd : w.flags.sDiscoveryEnabled = false) (hrf : w.flags.sRfEnabled = false)
    (h0 : w.status w.issued = NFA_STATUS_OK) (h1 : w.status (w.issued + 1) = NFA_STATUS_OK)
    (hp : w.pending
      = Callback.conn ConnEvt.POLL_ENABLED :: Callback.conn ConnEvt.RF_DISCOVERY_STARTED :: rest) :
    ∃ w1, EnableDiscovery w = Outcome.ret true w1
      ∧ w1.flags.sDiscoveryEnabled = true
      ∧ w1.flags.sRfEnabled = true
      ∧ (w.since w1).countP Effect.isRfStart = 1
      ∧ w1.pending = rest := by
  cases hsel : w.flags.sIsSecElemSelected <;>
    simp [EnableDiscovery, StartRfDiscovery, Op_bind_apply, Op_pure_apply, getFlags, getTechMask8,
      call, log, nfa, setFlags, Wait, waitLoop, dispatch, NfaConnectionCallback, NotifyOne,
      hd, hrf, h0, h1, hp, hsel, World.since, List.countP_cons, Effect.isRfStart]

/-- Witness for C4: the enabled session at rest, with exactly the two
callbacks pending. -/
theorem C4_enableDiscovery_scenario_witness :
    ∃ w1, EnableDiscovery
        { World.idle with
          flags := Session.enabled,
          pending := [Callback.conn ConnEvt.POLL_ENABLED,
                      Callback.conn ConnEvt.RF_DISCOVERY_STARTED] }
        = Outcome.ret true w1
      ∧ w1.flags.sDiscoveryEnabled = true
      ∧ w1.flags.sRfEnabled = true
      ∧ (World.since { World.idle with
          flags := Session.enabled,
          pending := [Callback.conn ConnEvt.POLL_ENABLED,
                      Callback.conn ConnEvt.RF_DISCOVERY_STARTED] } w1).countP Effect.isRfStart = 1
      ∧ w1.pending = [] :=
  C4_enableDiscovery_scenario _ [] rfl rfl rfl rfl rfl

/-- What the handler of a transport error or command timeout does, in full. -/
theorem transport_error_spec (w : World) (e : DmEvt)
    (he : e = DmEvt.NFCC_TRANSPORT_ERR ∨ e = DmEvt.NFCC_TIMEOUT) :
    ∃ w1, NfaDeviceManagementCallback e w = Outcome.ret () w1
      ∧ w1.trace = w.trace
          ++ [Effect.call Collab.TagManager_DoAbortWaits, Effect.call Collab.NfcTag_Abort,
              Effect.NotifyOne SyncEv.sNfaEnableDisablePollingEvent,
              Effect.NotifyOne SyncEv.sNfaEnableEvent,
              Effect.NotifyOne SyncEv.sNfaDisableEvent,
              Effect.call Collab.PowerSwitch_Abort]
          ++ (if w.flags.sIsNfaEnabled = true ∧ w.flags.sIsDisabling = false
              then [Effect.nfa (NfaCmd.NFA_Disable false) (w.status w.issued)] else [])
          ++ [Effect.PowerSwitch_Initialize PowerLevel.UNKNOWN_LEVEL]
      ∧ w1.flags.sDiscoveryEnabled = false
      ∧ w1.flags.sAbortConnlessWait = true
      ∧ (if w.flags.sIsNfaEnabled = true ∧ w.flags.sIsDisabling = false
          then w1.flags.sIsNfaEnabled = true ∧ w1.flags.sIsDisabling = true
          else w1.flags.sIsNfaEnabled = false ∧ w1.flags.sIsDisabling = false) := by
  rcases he with rfl | rfl <;>
    cases hen : w.flags.sIsNfaEnabled <;> cases hdis : w.flags.sIsDisabling <;>
    simp [NfaDeviceManagementCallback, Op_bind_apply, Op_pure_apply, getFlags, call, log, nfa,
      setFlags, NotifyOne, hen, hdis]

/-- Claim C5, as the code has it: a transport error or command timeout handled
while the session is enabled and not disabling issues `NFA_Disable` exactly
once and sets `sIsDisabling`; `sIsNfaEnabled` is still true when the handler
returns, and becomes false when the `NFA_DM_DISABLE_EVT` that completes the
disable is handled. -/
theorem C5_transport_error_starts_disable (w : World) (e : DmEvt)
    (he : e = DmEvt.NFCC_TRANSPORT_ERR ∨ e = DmEvt.NFCC_TIMEOUT)
    (hen : w.flags.sIsNfaEnabled = true) (hdis : w.flags.sIsDisabling = false) :
    ∃ w1, NfaDeviceManagementCallback e w = Outcome.ret () w1
      ∧ w1.flags.sIsDisabling = true
      ∧ w1.flags.sIsNfaEnabled = true
      ∧ (w.since w1).countP Effect.isNfaDisable = 1
      ∧ ∃ w2, NfaDeviceManagementCallback DmEvt.DISABLE w1 = Outcome.ret () w2
          ∧ w2.flags.sIsNfaEnabled = false ∧ w2.flags.sIsDisabling = false := by
  obtain ⟨w1, h1, ht, -, -, hf⟩ := transport_error_spec w e he
  simp only [hen, hdis, and_self, if_true] at ht hf
  refine ⟨w1, h1, hf.2, hf.1, ?_, ?_⟩
  · rw [since_of_append w w1 _ (by rw [ht, List.append_assoc, List.append_assoc])]
    simp [List.countP_cons, Effect.isNfaDisable]
  · simp [NfaDeviceManagementCallback, Op_bind_apply, setFlags, NotifyOne]

/-- Witness for C5: the enabled session at rest receives a transport error. -/
theorem C5_transport_error_starts_disable_witness :
    ∃ w1, NfaDeviceManagementCallback DmEvt.NFCC_TRANSPORT_ERR
        { World.idle with flags := Session.enabled } = Outcome.ret () w1
      ∧ w1.flags.sIsDisabling = true
      ∧ w1.flags.sIsNfaEnabled = true
      ∧ (World.since { World.idle with flags := Session.enabled } w1).countP
          Effect.isNfaDisable = 1
      ∧ ∃ w2, NfaDeviceManagementCallback DmEvt.DISABLE w1 = Outcome.ret () w2
          ∧ w2.flags.sIsNfaEnabled = false ∧ w2.flags.sIsDisabling = false :=
  C5_transport_error_starts_disable { World.idle with flags := Session.enabled }
    DmEvt.NFCC_TRANSPORT_ERR (Or.inl rfl) rfl rfl

/-- Claim C5 as stated fails: after a transport error handled in the enabled
session at rest the handler has returned and `sIsNfaEnabled` is still true. -/
theorem C5_counterexample_still_enabled :
    (NfaDeviceManagementCallback DmEvt.NFCC_TRANSPORT_ERR
        { World.idle with flags := Session.enabled }).value = some ()
      ∧ (NfaDeviceManagementCallback DmEvt.NFCC_TRANSPORT_ERR
        { World.idle with flags := Session.enabled }).world.flags.sIsNfaEnabled ≠ false := by
  decide

theorem dispatch_dm_eq (e : DmEvt) (w : World) :
    dispatch (Callback.dm e) w = NfaDeviceManagementCallback e
      { w with signals := [], trace := w.trace ++ [Effect.callback (Callback.dm e)] } := rfl

/-- Over a run of transport errors and timeouts `NFA_Disable` is issued at
most once, and not at all unless the session is enabled and not disabling. -/
theorem deliverAll_errors (es : List Callback) :
    ∀ w : World, (∀ c ∈ es, c = Callback.dm DmEvt.NFCC_TRANSPORT_ERR
        ∨ c = Callback.dm DmEvt.NFCC_TIMEOUT) →
      ∃ w1 new, deliverAll es w = Outcome.ret () w1 ∧ w1.trace = w.trace ++ new
        ∧ new.countP Effect.isNfaDisable
            ≤ (if w.flags.sIsNfaEnabled = true ∧ w.flags.sIsDisabling = false then 1 else 0) := by
  induction es with
  | nil =>
      intro w _
      exact ⟨w, [], rfl, by simp, by simp⟩
  | cons c rest ih =>
      intro w hall
      have hc : ∃ e, c = Callback.dm e ∧ (e = DmEvt.NFCC_TRANSPORT_ERR ∨ e = DmEvt.NFCC_TIMEOUT) := by
        rcases hall c (List.mem_cons_self _ _) with h | h
        · exact ⟨_, h, Or.inl rfl⟩
        · exact ⟨_, h, Or.inr rfl⟩
      obtain ⟨e, rfl, he⟩ := hc
      obtain ⟨w1, h1, ht, -, -, hf⟩ := transport_error_spec
        { w with signals := [], trace := w.trace ++ [Effect.callback (Callback.dm e)] } e he
      obtain ⟨w2, new, h2, ht2, hcount⟩ := ih w1 (fun c hc => hall c (List.mem_cons_of_mem _ hc))
      have hoff : ¬ (w1.flags.sIsNfaEnabled = true ∧ w1.flags.sIsDisabling = false) := by
        intro hcon
        split at hf
        · rw [hf.2] at hcon
          exact absurd hcon.2 (by simp)
        · rw [hf.1] at hcon
          exact absurd hcon.1 (by simp)
      rw [if_neg hoff] at hcount
      refine ⟨w2, _, ?_, by rw [ht2, ht]; simp only [List.append_assoc]; rfl, ?_⟩
      · simp only [deliverAll, dispatch_dm_eq, h1]
        exact h2
      · have hz : new.countP Effect.isNfaDisable = 0 := Nat.le_zero.mp hcount
        by_cases hcase : w.flags.sIsNfaEnabled = true ∧ w.flags.sIsDisabling = false <;>
          simp [hcase, List.countP_cons, List.countP_append, Effect.isNfaDisable, hz]

/-- Claim C6: on a transport error or command timeout, from every session
state, pending tag waits are aborted, the polling, enable and disable sync
events are each notified, and `sDiscoveryEnabled` becomes false; `NFA_Disable`
is issued exactly when the session was enabled and not disabling, and then
`sIsDisabling` becomes true; otherwise `sIsNfaEnabled` and `sIsDisabling`
both become false. Over any run of consecutive such events `NFA_Disable` is
issued at most once. -/
theorem C6_transport_error_handling (w : World) :
    (∀ e, e = DmEvt.NFCC_TRANSPORT_ERR ∨ e = DmEvt.NFCC_TIMEOUT →
      ∃ w1, NfaDeviceManagementCallback e w = Outcome.ret () w1
        ∧ (∀ x ∈ [Effect.call Collab.TagManager_DoAbortWaits, Effect.call Collab.NfcTag_Abort,
              Effect.NotifyOne SyncEv.sNfaEnableDisablePollingEvent,
              Effect.NotifyOne SyncEv.sNfaEnableEvent,
              Effect.NotifyOne SyncEv.sNfaDisableEvent], x ∈ w.since w1)
        ∧ w1.flags.sDiscoveryEnabled = false
        ∧ (w.since w1).countP Effect.isNfaDisable
            = (if w.flags.sIsNfaEnabled = true ∧ w.flags.sIsDisabling = false then 1 else 0)
        ∧ (if w.flags.sIsNfaEnabled = true ∧ w.flags.sIsDisabling = false
            then w1.flags.sIsDisabling = true
            else w1.flags.sIsNfaEnabled = false ∧ w1.flags.sIsDisabling = false))
    ∧ (∀ es : List Callback,
        (∀ c ∈ es, c = Callback.dm DmEvt.NFCC_TRANSPORT_ERR ∨ c = Callback.dm DmEvt.NFCC_TIMEOUT) →
        ∃ w1, deliverAll es w = Outcome.ret () w1
          ∧ (w.since w1).countP Effect.isNfaDisable ≤ 1) := by
  constructor
  · intro e he
    obtain ⟨w1, h1, ht, hd, -, hf⟩ := transport_error_spec w e he
    have hs := since_of_append w w1 _ (by rw [ht, List.append_assoc, List.append_assoc])
    refine ⟨w1, h1, ?_, hd, ?_, ?_⟩
    · rw [hs]
      simp
    · rw [hs]
      split <;> simp [List.countP_cons, Effect.isNfaDisable]
    · split
      · rename_i h
        rw [if_pos h] at hf
        exact hf.2
      · rename_i h
        rw [if_neg h] at hf
        exact hf
  · intro es hall
    obtain ⟨w1, new, h1, ht, hc⟩ := deliverAll_errors es w hall
    refine ⟨w1, h1, ?_⟩
    rw [since_of_append w w1 new ht]
    refine le_trans hc ?_
    split <;> simp

/-- Witness for C6: a transport error and then a timeout reach the enabled
session at rest. -/
theorem C6_transport_error_handling_witness :
    (∃ w1, NfaDeviceManagementCallback DmEvt.NFCC_TIMEOUT
        { World.idle with flags := Session.enabled } = Outcome.ret () w1
      ∧ w1.flags.sDiscoveryEnabled = false)
    ∧ ∃ w1, deliverAll [Callback.dm DmEvt.NFCC_TRANSPORT_ERR, Callback.dm DmEvt.NFCC_TIMEOUT]
        { World.idle with flags := Session.enabled } = Outcome.ret () w1
      ∧ (World.since { World.idle with flags := Session.enabled } w1).countP
          Effect.isNfaDisable ≤ 1 :=
  ⟨by
      obtain ⟨w1, h1, -, h3, -⟩ :=
        (C6_transport_error_handling { World.idle with flags := Session.enabled }).1
          DmEvt.NFCC_TIMEOUT (Or.inr rfl)
      exact ⟨w1, h1, h3⟩,
    (C6_transport_error_handling { World.idle with flags := Session.enabled }).2
      [Callback.dm DmEvt.NFCC_TRANSPORT_ERR, Callback.dm DmEvt.NFCC_TIMEOUT]
      (by simp)⟩


/-- Claim C7, as the code has it: `EnableDiscovery` and `DisableDiscovery`,
when they return, return `false` exactly when the polling command they issued
(`NFA_EnablePolling`, `NFA_DisablePolling`) was refused; the status of the
commands that start or stop RF discovery does not reach the result. When the
radio interface refuses every command, both return, and return `false`. -/
theorem C7_refused_polling_reported (w : World) :
    PollingReported w (EnableDiscovery w)
    ∧ PollingReported w (DisableDiscovery w)
    ∧ ((∀ k, w.status k ≠ NFA_STATUS_OK) → w.flags.sDiscoveryEnabled = false →
        (EnableDiscovery w).value = some false)
    ∧ ((∀ k, w.status k ≠ NFA_STATUS_OK) → w.flags.sDiscoveryEnabled = true →
        (DisableDiscovery w).value = some false) := by
  refine ⟨EnableDiscovery_reports w, DisableDiscovery_reports w, ?_, ?_⟩
  · intro hall hd
    have h0 := hall w.issued
    have h1 := hall (w.issued + 1)
    have h2 := hall (w.issued + 1 + 1)
    cases hrf : w.flags.sRfEnabled <;> cases hsel : w.flags.sIsSecElemSelected <;>
      by_cases hm : w.tech_mask % 256 = 0 <;>
      simp [EnableDiscovery, StartRfDiscovery, Op_bind_apply, Op_pure_apply, getFlags,
        getTechMask8, call, log, nfa, setFlags, hd, hrf, hsel, hm, h0, h1, h2, Outcome.value]
  · intro hall hd
    have h0 := hall w.issued
    have h1 := hall (w.issued + 1)
    by_cases hq : w.answer Query.PowerSwitch_SetModeOff (w.asked Query.PowerSwitch_SetModeOff) = 0 <;>
      simp [DisableDiscovery, StartRfDiscovery, Op_bind_apply, Op_pure_apply, getFlags,
        call, log, nfa, setFlags, askBool, hd, h0, h1, hq, Outcome.value]

/-- Witness for C7: a radio interface that refuses every command. -/
theorem C7_refused_polling_reported_witness :
    (EnableDiscovery { World.idle with flags := Session.enabled,
                                       status := fun _ => NFA_STATUS_FAILED }).value = some false
    ∧ (DisableDiscovery
        { World.idle with flags := { Session.enabled with sDiscoveryEnabled := true },
                          status := fun _ => NFA_STATUS_FAILED }).value = some false :=
  ⟨(C7_refused_polling_reported
      { World.idle with flags := Session.enabled, status := fun _ => NFA_STATUS_FAILED }).2.2.1
      (fun _ => (by decide : NFA_STATUS_FAILED ≠ NFA_STATUS_OK)) rfl,
    (C7_refused_polling_reported
      { World.idle with flags := { Session.enabled with sDiscoveryEnabled := true },
                        status := fun _ => NFA_STATUS_FAILED }).2.2.2
      (fun _ => (by decide : NFA_STATUS_FAILED ≠ NFA_STATUS_OK)) rfl⟩

/-- Claim C7 as stated fails: the radio interface accepts `NFA_EnablePolling`
and refuses `NFA_StartRfDiscovery`, and `EnableDiscovery` returns `true`. -/
theorem C7_counterexample_start_refused :
    (EnableDiscovery
        { World.idle with
          flags := Session.enabled,
          status := fun k => if k = 1 then NFA_STATUS_FAILED else NFA_STATUS_OK,
          pending := [Callback.conn ConnEvt.POLL_ENABLED] }).value = some true
    ∧ Effect.nfa NfaCmd.NFA_StartRfDiscovery NFA_STATUS_FAILED ∈
        (EnableDiscovery
          { World.idle with
            flags := Session.enabled,
            status := fun k => if k = 1 then NFA_STATUS_FAILED else NFA_STATUS_OK,
            pending := [Callback.conn ConnEvt.POLL_ENABLED] }).world.trace := by
  decide

/-- Claim C8, as the code has it: a call of `DisableDiscovery` made while
discovery is enabled resets the RF field status exactly once before it
returns, whatever the radio interface answers; a call made while discovery is
already disabled returns at once without resetting it. -/
theorem C8_reset_when_enabled (w : World) :
    (w.flags.sDiscoveryEnabled = true →
      match DisableDiscovery w with
      | Outcome.ret _ w1 => (w.since w1).count (Effect.call Collab.SE_ResetRfFieldStatus) = 1
      | Outcome.blocked _ => True)
    ∧ (w.flags.sDiscoveryEnabled = false →
      ∃ w1, DisableDiscovery w = Outcome.ret true w1
        ∧ Effect.call Collab.SE_ResetRfFieldStatus ∉ w.since w1) := by
  constructor
  · intro hde
    have h := DisableDiscovery_spec w hde
    cases hd : DisableDiscovery w with
    | blocked w1 => trivial
    | ret r w1 =>
        rw [hd] at h
        obtain ⟨new, ht, hc, -⟩ := h
        simp only
        rw [since_of_append w w1 new ht]
        exact hc
  · intro hde
    refine ⟨{ w with trace := w.trace ++ [Effect.call Collab.Pn544InteropAbortNow] }, ?_, ?_⟩
    · simp [DisableDiscovery, Op_bind_apply, Op_pure_apply, getFlags, call, log, hde]
    · simp [World.since]

/-- Witness for C8: discovery enabled and RF discovery active, the radio
interface accepts both commands and delivers both completions. -/
theorem C8_reset_when_enabled_witness :
    (DisableDiscovery
        { World.idle with
          flags := { Session.enabled with sDiscoveryEnabled := true, sRfEnabled := true },
          pending := [Callback.conn ConnEvt.RF_DISCOVERY_STOPPED,
                      Callback.conn ConnEvt.POLL_DISABLED] }).value = some true
    ∧ (World.since
        { World.idle with
          flags := { Session.enabled with sDiscoveryEnabled := true, sRfEnabled := true },
          pending := [Callback.conn ConnEvt.RF_DISCOVERY_STOPPED,
                      Callback.conn ConnEvt.POLL_DISABLED] }
        (DisableDiscovery
          { World.idle with
            flags := { Session.enabled with sDiscoveryEnabled := true, sRfEnabled := true },
            pending := [Callback.conn ConnEvt.RF_DISCOVERY_STOPPED,
                        Callback.conn ConnEvt.POLL_DISABLED] }).world).count
          (Effect.call Collab.SE_ResetRfFieldStatus) = 1 :=
  ⟨by decide,
    (C8_reset_when_enabled
      { World.idle with
        flags := { Session.enabled with sDiscoveryEnabled := true, sRfEnabled := true },
        pending := [Callback.conn ConnEvt.RF_DISCOVERY_STOPPED,
                    Callback.conn ConnEvt.POLL_DISABLED] }).1 rfl⟩

/-- Claim C8 as stated fails: called while discovery is already disabled,
`DisableDiscovery` returns without resetting the RF field status. -/
theorem C8_counterexample_already_disabled :
    (DisableDiscovery World.idle).value = some true
    ∧ Effect.call Collab.SE_ResetRfFieldStatus ∉ (DisableDiscovery World.idle).world.trace := by
  decide


/-! ## RF discovery: the flag follows the completed commands -/

theorem rfView_append (tr l : List Effect) :
    rfView (tr ++ l) = l.foldl rfStep (rfView tr) := by
  simp [rfView, List.foldl_append]

theorem rfStep_settled (v : RfView) (e : Effect) (hv : v.armed = none)
    (he : e.isRfCommand = false) : rfStep v e = v := by
  unfold rfStep
  split <;> simp_all [Effect.isRfCommand]

theorem foldl_rfStep_settled (l : List Effect) :
    ∀ v : RfView, v.armed = none → (∀ e ∈ l, e.isRfCommand = false) → l.foldl rfStep v = v := by
  induction l with
  | nil => intro v _ _; rfl
  | cons e rest ih =>
      intro v hv hl
      rw [List.foldl_cons, rfStep_settled v e hv (hl e (List.mem_cons_self _ _))]
      exact ih v hv (fun x hx => hl x (List.mem_cons_of_mem _ hx))

theorem isRfCommand_of_byCallback (e : Effect) (h : e.byCallback = true) :
    e.isRfCommand = false := by
  unfold Effect.isRfCommand
  split <;> simp_all [Effect.byCallback]

/-- While a start/stop command is armed, effects of callbacks that notify
the polling event complete it; those that do not leave the view as it is. -/
theorem foldl_rfStep_armed (l : List Effect) :
    ∀ (v : RfView) (b : Bool), v.armed = some b → (∀ e ∈ l, e.byCallback = true) →
      l.foldl rfStep v
        = if Effect.NotifyOne SyncEv.sNfaEnableDisablePollingEvent ∈ l
          then { rf := b, armed := none } else v := by
  induction l with
  | nil => intro v b _ _; simp
  | cons e rest ih =>
      intro v b hv hl
      have hrest : ∀ x ∈ rest, x.byCallback = true := fun x hx => hl x (List.mem_cons_of_mem _ hx)
      rw [List.foldl_cons]
      by_cases he : e = Effect.NotifyOne SyncEv.sNfaEnableDisablePollingEvent
      · subst he
        have h1 : rfStep v (Effect.NotifyOne SyncEv.sNfaEnableDisablePollingEvent)
            = { rf := b, armed := none } := by
          simp [rfStep, hv]
        rw [h1, foldl_rfStep_settled rest _ rfl
          (fun x hx => isRfCommand_of_byCallback x (hrest x hx))]
        simp
      · have h1 : rfStep v e = v := by
          have hrf := isRfCommand_of_byCallback e (hl e (List.mem_cons_self _ _))
          unfold rfStep
          split <;> simp_all [Effect.isRfCommand]
        rw [h1, ih v b hv hrest]
        have : (Effect.NotifyOne SyncEv.sNfaEnableDisablePollingEvent ∈ e :: rest)
            ↔ (Effect.NotifyOne SyncEv.sNfaEnableDisablePollingEvent ∈ rest) := by
          simp [List.mem_cons, Ne.symm he]
        simp only [this]

theorem mem_filterMap_notified (l : List Effect) (ev : SyncEv) :
    ev ∈ l.filterMap Effect.notified ↔ Effect.NotifyOne ev ∈ l := by
  rw [List.mem_filterMap]
  constructor
  · rintro ⟨e, he, hn⟩
    unfold Effect.notified at hn
    split at hn
    · cases hn; exact he
    · cases hn
  · intro h
    exact ⟨_, h, rfl⟩

theorem RfSettled_log {w w1 : World} (e : Effect) (ht : w1.trace = w.trace ++ [e])
    (hf : w1.flags.sRfEnabled = w.flags.sRfEnabled) (he : e.isRfCommand = false)
    (h : RfSettled w) : RfSettled w1 := by
  obtain ⟨h1, h2⟩ := h
  have hv : rfView w1.trace = rfView w.trace := by
    rw [ht, rfView_append]
    exact foldl_rfStep_settled [e] _ h2 (by simpa using he)
  exact ⟨by unfold RfTracked; rw [hf, hv]; exact h1, by rw [hv]; exact h2⟩

/-- The frame of RF tracking: a settled world stays settled through waits
and callbacks; a wait that never ends leaves the flag as the observer sees
it. -/
theorem rf_frame :
    Frame (fun w w1 => RfSettled w → RfSettled w1) (fun w w1 => RfSettled w → RfTracked w1) where
  refl := fun _ h => h
  trans := fun _ _ _ h1 h2 h => h2 (h1 h)
  comp := fun _ _ _ h1 h2 h => h2 (h1 h)
  stuck := fun _ h => h.1
  wait := fun ev w h => RfSettled_log (w := w) (Effect.Wait ev) rfl rfl rfl h
  deliver := by
    intro c rest w w1 _ hd h
    obtain ⟨w2, new, hd2, -, hf, ht, -, hp⟩ := dispatch_spec c { w with pending := rest }
    rw [hd] at hd2
    cases hd2
    obtain ⟨h1, h2⟩ := h
    have hv : rfView w1.trace = rfView w.trace := by
      rw [ht, rfView_append]
      refine foldl_rfStep_settled _ _ h2 ?_
      intro e he
      rcases List.mem_cons.mp he with h | h
      · rw [h]; rfl
      · exact isRfCommand_of_byCallback e (hp e h)
    exact ⟨by unfold RfTracked; rw [hf, hv]; exact h1, by rw [hv]; exact h2⟩

/-- The wait of an armed start/stop command: when it ends, the observer has
seen the command complete; while it lasts, the flag has not moved. -/
theorem waitLoop_armed (b : Bool) :
    ∀ (l : List Callback) (w : World), w.pending = l → (rfView w.trace).armed = some b →
      match waitLoop SyncEv.sNfaEnableDisablePollingEvent l w with
      | Outcome.ret _ w1 =>
          rfView w1.trace = { rf := b, armed := none }
            ∧ w1.flags.sRfEnabled = w.flags.sRfEnabled
      | Outcome.blocked w1 =>
          rfView w1.trace = rfView w.trace ∧ w1.flags.sRfEnabled = w.flags.sRfEnabled := by
  intro l
  induction l with
  | nil =>
      intro w _ _
      simp only [waitLoop]
      exact ⟨trivial, trivial⟩
  | cons c rest ih =>
      intro w hw harm
      obtain ⟨w1, new, hd, hp, hf, ht, hs, hb⟩ := dispatch_spec c { w with pending := rest }
      simp only at hp hf ht
      have hfold := foldl_rfStep_armed new (rfView w.trace) b harm hb
      have hv : rfView w1.trace = new.foldl rfStep (rfView w.trace) := by
        rw [ht, rfView_append, List.foldl_cons]
        congr 1
      by_cases hsig : w1.signals.contains SyncEv.sNfaEnableDisablePollingEvent = true
      · simp only [waitLoop, hd, hsig, if_true]
        have hmem : Effect.NotifyOne SyncEv.sNfaEnableDisablePollingEvent ∈ new := by
          rw [← mem_filterMap_notified, ← hs]
          simpa using hsig
        rw [if_pos hmem] at hfold
        exact ⟨by rw [hv, hfold], hf⟩
      · simp only [waitLoop, hd, hsig, if_false, Bool.false_eq_true]
        have hmem : Effect.NotifyOne SyncEv.sNfaEnableDisablePollingEvent ∉ new := by
          rw [← mem_filterMap_notified, ← hs]
          simpa using hsig
        rw [if_neg hmem] at hfold
        have hv1 : rfView w1.trace = rfView w.trace := by rw [hv, hfold]
        have h2 := ih w1 hp (by rw [hv1]; exact harm)
        cases hl : waitLoop SyncEv.sNfaEnableDisablePollingEvent rest w1 with
        | ret a w2 =>
            rw [hl] at h2
            exact ⟨h2.1, h2.2.trans hf⟩
        | blocked w2 =>
            rw [hl] at h2
            exact ⟨h2.1.trans hv1, h2.2.trans hf⟩

theorem Wait_armed (b : Bool) (w : World) (harm : (rfView w.trace).armed = some b) :
    match Wait SyncEv.sNfaEnableDisablePollingEvent w with
    | Outcome.ret _ w1 =>
        rfView w1.trace = { rf := b, armed := none }
          ∧ w1.flags.sRfEnabled = w.flags.sRfEnabled
    | Outcome.blocked w1 =>
        rfView w1.trace = rfView w.trace ∧ w1.flags.sRfEnabled = w.flags.sRfEnabled := by
  have hv : rfView (w.trace ++ [Effect.Wait SyncEv.sNfaEnableDisablePollingEvent])
      = rfView w.trace := by
    rw [rfView_append]
    rfl
  have h := waitLoop_armed b w.pending
    { w with trace := w.trace ++ [Effect.Wait SyncEv.sNfaEnableDisablePollingEvent] } rfl
    (by simp only; rw [hv]; exact harm)
  unfold Wait
  cases hl : waitLoop SyncEv.sNfaEnableDisablePollingEvent w.pending
      { w with trace := w.trace ++ [Effect.Wait SyncEv.sNfaEnableDisablePollingEvent] } with
  | ret a w1 =>
      rw [hl] at h
      exact h
  | blocked w1 =>
      rw [hl] at h
      exact ⟨h.1.trans hv, h.2⟩

/-- `StartRfDiscovery` keeps the flag in step with the observer's view. -/
theorem StartRfDiscovery_tracks (isStart : Bool) :
    Op.Steps (fun w w1 => RfSettled w → RfSettled w1) (fun w w1 => RfSettled w → RfTracked w1)
      (StartRfDiscovery isStart) := by
  intro w
  simp only [StartRfDiscovery, Op_bind_apply, nfa]
  by_cases hst : w.status w.issued = NFA_STATUS_OK
  · have hv : rfView (w.trace ++ [Effect.nfa
        (if isStart = true then NfaCmd.NFA_StartRfDiscovery else NfaCmd.NFA_StopRfDiscovery)
        NFA_STATUS_OK]) = { rfView w.trace with armed := some isStart } := by
      rw [rfView_append]
      cases isStart <;> simp [rfStep]
    have h := Wait_armed isStart
      { w with issued := w.issued + 1,
               trace := w.trace ++ [Effect.nfa
                 (if isStart = true then NfaCmd.NFA_StartRfDiscovery
                  else NfaCmd.NFA_StopRfDiscovery) NFA_STATUS_OK] }
      (by simp only; rw [hv])
    simp only [hst, beq_self_eq_true, if_true, Op_bind_apply, setFlags]
    cases hl : Wait SyncEv.sNfaEnableDisablePollingEvent
      { w with issued := w.issued + 1,
               trace := w.trace ++ [Effect.nfa
                 (if isStart = true then NfaCmd.NFA_StartRfDiscovery
                  else NfaCmd.NFA_StopRfDiscovery) NFA_STATUS_OK] } with
    | ret a w1 =>
        rw [hl] at h
        intro _
        exact ⟨by unfold RfTracked; simp only; rw [h.1], by simp only; rw [h.1]⟩
    | blocked w1 =>
        rw [hl] at h
        intro hset
        simp only at h
        unfold RfTracked
        rw [h.1, h.2, hv]
        exact hset.1
  · have hst2 : (w.status w.issued == NFA_STATUS_OK) = false := by simpa using hst
    simp only [hst2, Bool.false_eq_true, if_false, Op_pure_apply]
    intro hset
    have hv : rfView (w.trace ++ [Effect.nfa
        (if isStart = true then NfaCmd.NFA_StartRfDiscovery else NfaCmd.NFA_StopRfDiscovery)
        (w.status w.issued)]) = rfView w.trace := by
      rw [rfView_append]
      cases isStart <;> simp [rfStep, hst]
    exact ⟨by unfold RfTracked; simp only; rw [hv]; exact hset.1, by simp only; rw [hv]; exact hset.2⟩

/-! ## Primitive steps follow a relation -/

theorem Steps_log {R B : World → World → Prop} {p : Effect → Prop}
    {q : (Session → Session) → Prop} (P : Prims R p q) (e : Effect) (he : p e) :
    Op.Steps R B (log e) :=
  fun w => P.emit e w _ he rfl rfl rfl

theorem Steps_call {R B : World → World → Prop} {p : Effect → Prop}
    {q : (Session → Session) → Prop} (P : Prims R p q) (c : Collab) (he : p (Effect.call c)) :
    Op.Steps R B (call c) :=
  fun w => P.emit _ w _ he rfl rfl rfl

theorem Steps_nfa {R B : World → World → Prop} {p : Effect → Prop}
    {q : (Session → Session) → Prop} (P : Prims R p q) (c : NfaCmd)
    (he : ∀ st, p (Effect.nfa c st)) : Op.Steps R B (nfa c) :=
  fun w => P.emit _ w _ (he _) rfl rfl rfl

theorem Steps_NotifyOne {R B : World → World → Prop} {p : Effect → Prop}
    {q : (Session → Session) → Prop} (P : Prims R p q) (ev : SyncEv)
    (he : p (Effect.NotifyOne ev)) : Op.Steps R B (NotifyOne ev) :=
  fun w => P.emit _ w _ he rfl rfl rfl

theorem Steps_ask {R B : World → World → Prop} {p : Effect → Prop}
    {q : (Session → Session) → Prop} (P : Prims R p q) (x : Query) :
    Op.Steps R B (ask x) :=
  fun w => P.keep w _ rfl rfl rfl

theorem Steps_askBool {R B : World → World → Prop} {p : Effect → Prop}
    {q : (Session → Session) → Prop} (P : Prims R p q) (x : Query) :
    Op.Steps R B (askBool x) :=
  fun w => P.keep w _ rfl rfl rfl

theorem Steps_getFlags {R B : World → World → Prop} {p : Effect → Prop}
    {q : (Session → Session) → Prop} (P : Prims R p q) : Op.Steps R B getFlags :=
  fun w => P.keep w _ rfl rfl rfl

theorem Steps_getTechMask {R B : World → World → Prop} {p : Effect → Prop}
    {q : (Session → Session) → Prop} (P : Prims R p q) : Op.Steps R B getTechMask :=
  fun w => P.keep w _ rfl rfl rfl

theorem Steps_getTechMask8 {R B : World → World → Prop} {p : Effect → Prop}
    {q : (Session → Session) → Prop} (P : Prims R p q) : Op.Steps R B getTechMask8 :=
  fun w => P.keep w _ rfl rfl rfl

theorem Steps_setTechMask {R B : World → World → Prop} {p : Effect → Prop}
    {q : (Session → Session) → Prop} (P : Prims R p q) (m : Nat) :
    Op.Steps R B (setTechMask m) :=
  fun w => P.keep w _ rfl rfl rfl

theorem Steps_setFlags {R B : World → World → Prop} {p : Effect → Prop}
    {q : (Session → Session) → Prop} (P : Prims R p q) (f : Session → Session) (hf : q f) :
    Op.Steps R B (setFlags f) :=
  fun w => P.update f w _ hf rfl rfl rfl

theorem rf_prims :
    Prims (fun w w1 => RfSettled w → RfSettled w1) (fun e => e.isRfCommand = false)
      (fun f => ∀ s, (f s).sRfEnabled = s.sRfEnabled) where
  keep := by
    intro w w1 hf ht _ h
    unfold RfSettled RfTracked at *
    rw [hf, ht]
    exact h
  emit := fun e _ _ he hf ht _ h => RfSettled_log e ht (by rw [hf]) he h
  update := by
    intro f w w1 hq hf ht _ h
    unfold RfSettled RfTracked at *
    rw [hf, ht, hq]
    exact h

/-! ## Host commands and runs follow a frame -/

theorem HostCmd_steps {R B : World → World → Prop} {p : Effect → Prop}
    {q : (Session → Session) → Prop} (F : Frame R B) (P : Prims R p q)
    (hS : ∀ b, Op.Steps R B (StartRfDiscovery b))
    (hp : ∀ e : Effect, e.isRfCommand = false → p e)
    (hq : ∀ f : Session → Session,
      (∀ s, (f s).sRfEnabled = s.sRfEnabled ∧ (f s).sP2pActive = s.sP2pActive
        ∧ (f s).sSeRfActive = s.sSeRfActive) → q f)
    (c : HostCmd) : Op.Steps R B c.exec := by
  cases c <;>
    simp only [HostCmd.exec, Initialize, Deinitialize, EnableDiscovery, DisableDiscovery,
      EnablePolling, DisablePolling, StartStopPolling, EnableP2pListening, DisableP2pListening,
      CheckLlcp, ActivateLlcp, SetP2pInitiatorModes, SetP2pTargetModes, DoSelectSecureElement,
      DoDeselectSecureElement, DoStartupConfig] <;>
    repeat' first
      | with_reducible exact Wait_steps F _
      | with_reducible exact hS _
      | ((with_reducible apply Steps_bind F.trans F.comp); swap; intro _)
      | with_reducible apply Steps_ite
      | with_reducible exact Steps_pure F.refl _
      | with_reducible exact Steps_getFlags P
      | with_reducible exact Steps_getTechMask P
      | with_reducible exact Steps_getTechMask8 P
      | with_reducible exact Steps_setTechMask P _
      | with_reducible exact Steps_ask P _
      | with_reducible exact Steps_askBool P _
      | ((with_reducible refine Steps_log P _ ?_); exact hp _ rfl)
      | ((with_reducible refine Steps_call P _ ?_); exact hp _ rfl)
      | ((with_reducible refine Steps_nfa P _ ?_); exact fun _ => hp _ rfl)
      | ((with_reducible refine Steps_NotifyOne P _ ?_); exact hp _ rfl)
      | ((with_reducible refine Steps_setFlags P _ ?_); exact hq _ (fun _ => ⟨rfl, rfl, rfl⟩))

theorem run_steps {R B : World → World → Prop} (F : Frame R B)
    (hc : ∀ c : HostCmd, Op.Steps R B c.exec) (steps : List Step) :
    Op.Steps R B (run steps) := by
  induction steps with
  | nil => exact fun w => F.refl w
  | cons st rest ih =>
      have hst : Op.Steps R B st.exec := by
        cases st with
        | host c => exact hc c
        | deliver => exact deliverNext_steps F
      intro w
      have h1 := hst w
      simp only [run]
      cases he : st.exec w with
      | blocked w1 =>
          rw [he] at h1
          exact h1
      | ret a w1 =>
          rw [he] at h1
          have h2 := ih w1
          simp only
          cases hr : run rest w1 with
          | ret b w2 =>
              rw [hr] at h2
              exact F.trans _ _ _ h1 h2
          | blocked w2 =>
              rw [hr] at h2
              exact F.comp _ _ _ h1 h2

theorem run_tracks (steps : List Step) :
    Op.Steps (fun w w1 => RfSettled w → RfSettled w1) (fun w w1 => RfSettled w → RfTracked w1)
      (run steps) :=
  run_steps rf_frame
    (HostCmd_steps rf_frame rf_prims StartRfDiscovery_tracks (fun _ h => h)
      (fun _ h s => (h s).1))
    steps

/-- Claim C2, as the code has it: over every sequence of host commands and
radio-interface callbacks from daemon start, `sRfEnabled` is what an observer
of the trace computes: it changes only at the completion of a start/stop
command, that is when `NFA_StartRfDiscovery`/`NFA_StopRfDiscovery` returned OK
and the wait that follows was woken by a notification of
`sNfaEnableDisablePollingEvent`, whichever callback notified it. No callback
writes the flag, a refused command leaves all flags unchanged, and a wait
that is never woken leaves the flag unchanged. -/
theorem C2_rf_flag_follows_completed_commands :
    (∀ (c : Callback) (w : World),
      (dispatch c w).world.flags.sRfEnabled = w.flags.sRfEnabled)
    ∧ (∀ (isStart : Bool) (w : World), w.status w.issued ≠ NFA_STATUS_OK →
      ∃ w1, StartRfDiscovery isStart w = Outcome.ret () w1 ∧ w1.flags = w.flags)
    ∧ (∀ (status : Nat → Nat) (answer : Query → Nat → Nat) (pending : List Callback)
        (steps : List Step),
      RfTracked (run steps (World.start status answer pending)).world) := by
  refine ⟨fun c w => (dispatch_keeps c w).2, ?_, ?_⟩
  · intro isStart w hst
    simp [StartRfDiscovery, Op_bind_apply, Op_pure_apply, nfa, hst]
  · intro status answer pending steps
    have h := run_tracks steps (World.start status answer pending)
    have h0 : RfSettled (World.start status answer pending) := ⟨rfl, rfl⟩
    cases hr : run steps (World.start status answer pending) with
    | ret a w1 =>
        rw [hr] at h
        exact (h h0).1
    | blocked w1 =>
        rw [hr] at h
        exact h h0

/-- Witness for C2: a refused start command at daemon start. -/
theorem C2_rf_flag_follows_completed_commands_witness :
    ∃ w1, StartRfDiscovery true { World.idle with status := fun _ => NFA_STATUS_FAILED }
        = Outcome.ret () w1
      ∧ w1.flags = World.idle.flags :=
  C2_rf_flag_follows_completed_commands.2.1 true
    { World.idle with status := fun _ => NFA_STATUS_FAILED }
    (by decide : NFA_STATUS_FAILED ≠ NFA_STATUS_OK)

/-- Claim C2 as stated fails: `EnableDiscovery` in the enabled session, the
radio interface accepts every command, delivers `NFA_POLL_ENABLED_EVT` and
then a transport error. The error wakes the wait of the start command and
`sRfEnabled` becomes true although no `NFA_RF_DISCOVERY_STARTED_EVT` was ever
delivered. -/
theorem C2_counterexample_woken_by_error :
    { World.idle with flags := Session.enabled }.flags.sRfEnabled = false
    ∧ (EnableDiscovery
        { World.idle with
          flags := Session.enabled,
          pending := [Callback.conn ConnEvt.POLL_ENABLED,
                      Callback.dm DmEvt.NFCC_TRANSPORT_ERR] }).world.flags.sRfEnabled = true
    ∧ Effect.callback (Callback.conn ConnEvt.RF_DISCOVERY_STARTED) ∉
        (EnableDiscovery
          { World.idle with
            flags := Session.enabled,
            pending := [Callback.conn ConnEvt.POLL_ENABLED,
                        Callback.dm DmEvt.NFCC_TRANSPORT_ERR] }).world.trace := by
  decide


/-! ## Field ownership: `sP2pActive` and `sSeRfActive` -/

theorem Steps_setCurrentConfigLen {R B : World → World → Prop} {p : Effect → Prop}
    {q : (Session → Session) → Prop} (P : Prims R p q) (n : Nat) :
    Op.Steps R B (setCurrentConfigLen n) :=
  fun w => P.keep w _ rfl rfl rfl

theorem Steps_memcpy_sConfig {R B : World → World → Prop} {p : Effect → Prop}
    {q : (Session → Session) → Prop} (P : Prims R p q) (src : List Nat) (n : Nat)
    (he : p (Effect.memcpy_sConfig n)) : Op.Steps R B (memcpy_sConfig src n) :=
  fun w => P.emit _ w _ he rfl rfl rfl

theorem field_kept_prims :
    Prims (fun w w1 => w1.flags.sP2pActive = w.flags.sP2pActive
        ∧ w1.flags.sSeRfActive = w.flags.sSeRfActive)
      (fun _ => True)
      (fun f => ∀ s, (f s).sP2pActive = s.sP2pActive ∧ (f s).sSeRfActive = s.sSeRfActive) where
  keep := fun _ _ hf _ _ => by rw [hf]; exact ⟨rfl, rfl⟩
  emit := fun _ _ _ _ hf _ _ => by rw [hf]; exact ⟨rfl, rfl⟩
  update := fun f w _ hq hf _ _ => by rw [hf]; exact hq w.flags

theorem NfaDeviceManagementCallback_field (e : DmEvt) :
    Op.Steps (fun w w1 => w1.flags.sP2pActive = w.flags.sP2pActive
        ∧ w1.flags.sSeRfActive = w.flags.sSeRfActive)
      (fun w w1 => w1.flags.sP2pActive = w.flags.sP2pActive
        ∧ w1.flags.sSeRfActive = w.flags.sSeRfActive)
      (NfaDeviceManagementCallback e) := by
  have P := field_kept_prims
  have hrefl : ∀ w : World, w.flags.sP2pActive = w.flags.sP2pActive
      ∧ w.flags.sSeRfActive = w.flags.sSeRfActive := fun _ => ⟨rfl, rfl⟩
  have htrans : ∀ a b c : World,
      (b.flags.sP2pActive = a.flags.sP2pActive ∧ b.flags.sSeRfActive = a.flags.sSeRfActive) →
      (c.flags.sP2pActive = b.flags.sP2pActive ∧ c.flags.sSeRfActive = b.flags.sSeRfActive) →
      (c.flags.sP2pActive = a.flags.sP2pActive ∧ c.flags.sSeRfActive = a.flags.sSeRfActive) :=
    fun _ _ _ h1 h2 => ⟨h2.1.trans h1.1, h2.2.trans h1.2⟩
  cases e <;> unfold NfaDeviceManagementCallback <;>
    repeat' first
      | ((with_reducible apply Steps_bind htrans htrans); swap; intro _)
      | with_reducible apply Steps_ite
      | with_reducible exact Steps_pure hrefl _
      | with_reducible exact Steps_getFlags P
      | with_reducible exact Steps_askBool P _
      | with_reducible exact Steps_setCurrentConfigLen P _
      | ((with_reducible refine Steps_memcpy_sConfig P _ _ ?_); exact trivial)
      | ((with_reducible refine Steps_log P _ ?_); exact trivial)
      | ((with_reducible refine Steps_call P _ ?_); exact trivial)
      | ((with_reducible refine Steps_nfa P _ ?_); exact fun _ => trivial)
      | ((with_reducible refine Steps_NotifyOne P _ ?_); exact trivial)
      | ((with_reducible refine Steps_setFlags P _ ?_); exact fun _ => ⟨rfl, rfl⟩)

/-- What an activation does to the two flags: it sets at most one of them. -/
theorem activated_field (protocol : Protocol) (mode : RfMode) (w : World) :
    ((NfaConnectionCallback (ConnEvt.ACTIVATED protocol mode) w).world.flags.sP2pActive
          = w.flags.sP2pActive
        ∧ (NfaConnectionCallback (ConnEvt.ACTIVATED protocol mode) w).world.flags.sSeRfActive
          = w.flags.sSeRfActive)
    ∨ ((NfaConnectionCallback (ConnEvt.ACTIVATED protocol mode) w).world.flags.sP2pActive = true
        ∧ (NfaConnectionCallback (ConnEvt.ACTIVATED protocol mode) w).world.flags.sSeRfActive
          = w.flags.sSeRfActive)
    ∨ ((NfaConnectionCallback (ConnEvt.ACTIVATED protocol mode) w).world.flags.sP2pActive
          = w.flags.sP2pActive
        ∧ (NfaConnectionCallback (ConnEvt.ACTIVATED protocol mode) w).world.flags.sSeRfActive
          = true) := by
  cases hdis : w.flags.sIsDisabling <;> cases hen : w.flags.sIsNfaEnabled <;>
    cases hp : IsPeerToPeer protocol <;> cases hl : IsListenMode mode <;>
    by_cases hsel : w.answer Query.gIsSelectingRfInterface
        (w.asked Query.gIsSelectingRfInterface) = 0 <;>
    by_cases hbusy : w.answer Query.Pn544InteropIsBusy (w.asked Query.Pn544InteropIsBusy) = 0 <;>
    simp [NfaConnectionCallback, Op_bind_apply, Op_pure_apply, getFlags, call, log, askBool,
      setFlags, nfa, Outcome.world, hdis, hen, hp, hl, hsel, hbusy]

/-- What a deactivation to IDLE or DISCOVERY does to the two flags: it clears
`sSeRfActive` if it is set, and otherwise `sP2pActive`. -/
theorem released_field (type : DeactType)
    (ht : type = DeactType.IDLE ∨ type = DeactType.DISCOVERY) (w : World) :
    (NfaConnectionCallback (ConnEvt.DEACTIVATED type) w).world.flags.sSeRfActive = false
    ∧ (NfaConnectionCallback (ConnEvt.DEACTIVATED type) w).world.flags.sP2pActive
        = (w.flags.sSeRfActive && w.flags.sP2pActive) := by
  rcases ht with rfl | rfl <;>
    cases hse : w.flags.sSeRfActive <;> cases hp : w.flags.sP2pActive <;>
    cases hdis : w.flags.sIsDisabling <;> cases hen : w.flags.sIsNfaEnabled <;>
    simp [NfaConnectionCallback, Op_bind_apply, Op_pure_apply, getFlags, call, log, askBool,
      setFlags, nfa, Outcome.world, hse, hp, hdis, hen]

theorem NfaConnectionCallback_field (e : ConnEvt)
    (h1 : (Callback.conn e).isActivation = false) (h2 : (Callback.conn e).isRelease = false) :
    Op.Steps (fun w w1 => w1.flags.sP2pActive = w.flags.sP2pActive
        ∧ w1.flags.sSeRfActive = w.flags.sSeRfActive)
      (fun w w1 => w1.flags.sP2pActive = w.flags.sP2pActive
        ∧ w1.flags.sSeRfActive = w.flags.sSeRfActive)
      (NfaConnectionCallback e) := by
  have P := field_kept_prims
  have hrefl : ∀ w : World, w.flags.sP2pActive = w.flags.sP2pActive
      ∧ w.flags.sSeRfActive = w.flags.sSeRfActive := fun _ => ⟨rfl, rfl⟩
  have htrans : ∀ a b c : World,
      (b.flags.sP2pActive = a.flags.sP2pActive ∧ b.flags.sSeRfActive = a.flags.sSeRfActive) →
      (c.flags.sP2pActive = b.flags.sP2pActive ∧ c.flags.sSeRfActive = b.flags.sSeRfActive) →
      (c.flags.sP2pActive = a.flags.sP2pActive ∧ c.flags.sSeRfActive = a.flags.sSeRfActive) :=
    fun _ _ _ h1 h2 => ⟨h2.1.trans h1.1, h2.2.trans h1.2⟩
  cases e with
  | ACTIVATED p m => simp [Callback.isActivation] at h1
  | DEACTIVATED t =>
      have hcond : ((t == DeactType.IDLE) || (t == DeactType.DISCOVERY)) = false := by
        cases t <;> simp_all [Callback.isRelease]
      simp only [NfaConnectionCallback, hcond, Bool.false_eq_true, if_false]
      repeat' first
        | ((with_reducible apply Steps_bind htrans htrans); swap; intro _)
        | with_reducible apply Steps_ite
        | with_reducible exact Steps_pure hrefl _
        | with_reducible exact Steps_getFlags P
        | with_reducible exact Steps_askBool P _
        | ((with_reducible refine Steps_log P _ ?_); exact trivial)
        | ((with_reducible refine Steps_call P _ ?_); exact trivial)
  | _ =>
      unfold NfaConnectionCallback HandleRfDiscoveryEvent
      repeat' first
        | ((with_reducible apply Steps_bind htrans htrans); swap; intro _)
        | with_reducible apply Steps_ite
        | with_reducible exact Steps_pure hrefl _
        | with_reducible exact Steps_getFlags P
        | with_reducible exact Steps_askBool P _
        | ((with_reducible refine Steps_log P _ ?_); exact trivial)
        | ((with_reducible refine Steps_call P _ ?_); exact trivial)
        | ((with_reducible refine Steps_NotifyOne P _ ?_); exact trivial)

/-- A callback that is neither an activation nor a deactivation to IDLE or
DISCOVERY leaves `sP2pActive` and `sSeRfActive` as they are. -/
theorem dispatch_field_other (c : Callback) (h1 : c.isActivation = false)
    (h2 : c.isRelease = false) (w : World) :
    (dispatch c w).world.flags.sP2pActive = w.flags.sP2pActive
      ∧ (dispatch c w).world.flags.sSeRfActive = w.flags.sSeRfActive := by
  cases c with
  | dm e => exact Steps_world (NfaDeviceManagementCallback_field e) _
  | conn e => exact Steps_world (NfaConnectionCallback_field e h1 h2) _

/-- Claim C9 as stated fails: `Initialize` enables the session, a listen-mode
activation is followed by a deactivation to SLEEP, which clears no flag, and
then by a peer-to-peer activation; both flags are true. -/
theorem C9_counterexample_both_active :
    (run [Step.host HostCmd.Initialize, Step.deliver, Step.deliver, Step.deliver]
        (World.start (fun _ => NFA_STATUS_OK) (fun _ _ => 0)
          [Callback.dm (DmEvt.ENABLE NFA_STATUS_OK),
           Callback.dm DmEvt.SET_CONFIG,
           Callback.conn (ConnEvt.ACTIVATED (Protocol.other 4) RfMode.LISTEN_A),
           Callback.conn (ConnEvt.DEACTIVATED DeactType.SLEEP),
           Callback.conn (ConnEvt.ACTIVATED Protocol.NFC_DEP (RfMode.other 0))])).world.flags.sP2pActive
        = true
    ∧ (run [Step.host HostCmd.Initialize, Step.deliver, Step.deliver, Step.deliver]
        (World.start (fun _ => NFA_STATUS_OK) (fun _ _ => 0)
          [Callback.dm (DmEvt.ENABLE NFA_STATUS_OK),
           Callback.dm DmEvt.SET_CONFIG,
           Callback.conn (ConnEvt.ACTIVATED (Protocol.other 4) RfMode.LISTEN_A),
           Callback.conn (ConnEvt.DEACTIVATED DeactType.SLEEP),
           Callback.conn (ConnEvt.ACTIVATED Protocol.NFC_DEP (RfMode.other 0))])).world.flags.sSeRfActive
        = true :=
  ⟨rfl, rfl⟩

/-! ## Deinitialize -/

theorem rfKept_frame :
    Frame (fun w w1 => w1.flags.sRfEnabled = w.flags.sRfEnabled)
      (fun w w1 => w1.flags.sRfEnabled = w.flags.sRfEnabled) where
  refl := fun _ => rfl
  trans := fun _ _ _ h1 h2 => h2.trans h1
  comp := fun _ _ _ h1 h2 => h2.trans h1
  stuck := fun _ => rfl
  wait := fun _ _ => rfl
  deliver := by
    intro c rest w w1 _ hd
    obtain ⟨w2, new, hd2, -, hf, -⟩ := dispatch_spec c { w with pending := rest }
    rw [hd] at hd2
    cases hd2
    exact hf

theorem Ends_bind {α β : Type} {Q : β → World → Prop} {m : Op α} {f : α → Op β}
    (hf : ∀ a, Op.Ends Q (f a)) : Op.Ends Q (m >>= f) := by
  intro w
  rw [Op_bind_apply]
  cases hm : m w with
  | blocked w1 => trivial
  | ret a w1 => exact hf a w1

theorem Ends_ite {α : Type} {Q : α → World → Prop} {c : Prop} [Decidable c] {a b : Op α}
    (ha : Op.Ends Q a) (hb : Op.Ends Q b) : Op.Ends Q (if c then a else b) := by
  split
  · exact ha
  · exact hb

/-- The end of `Deinitialize`, from the abort of the tag waits on: it returns
`true` with the four flags cleared. -/
theorem Deinitialize_tail :
    Op.Ends (fun r w1 => r = true ∧ w1.flags.sIsNfaEnabled = false
        ∧ w1.flags.sDiscoveryEnabled = false ∧ w1.flags.sIsDisabling = false
        ∧ w1.flags.sIsSecElemSelected = false)
      (do
        call .TagManager_DoAbortWaits
        call .NfcTag_Abort
        setFlags fun s => { s with sAbortConnlessWait := true }
        setFlags fun s => { s with sIsNfaEnabled := false }
        setFlags fun s => { s with sDiscoveryEnabled := false }
        setFlags fun s => { s with sIsDisabling := false }
        setFlags fun s => { s with sIsSecElemSelected := false }
        NotifyOne .sNfaEnableDisablePollingEvent
        call .NfcAdaptation_Finalize
        pure true) := by
  intro w
  simp [Op_bind_apply, Op_pure_apply, call, log, setFlags, NotifyOne]

theorem Deinitialize_ends :
    Op.Ends (fun r w1 => r = true ∧ w1.flags.sIsNfaEnabled = false
        ∧ w1.flags.sDiscoveryEnabled = false ∧ w1.flags.sIsDisabling = false
        ∧ w1.flags.sIsSecElemSelected = false) Deinitialize := by
  unfold Deinitialize
  repeat' first
    | exact Deinitialize_tail
    | with_reducible apply Ends_ite
    | ((with_reducible apply Ends_bind); intro _)

theorem Deinitialize_keeps_rf :
    Op.Steps (fun w w1 => w1.flags.sRfEnabled = w.flags.sRfEnabled)
      (fun w w1 => w1.flags.sRfEnabled = w.flags.sRfEnabled) Deinitialize := by
  have F := rfKept_frame
  unfold Deinitialize
  repeat' first
    | with_reducible exact Wait_steps F _
    | ((with_reducible apply Steps_bind F.trans F.comp); swap; intro _)
    | with_reducible apply Steps_ite
    | with_reducible exact Steps_pure F.refl _
    | exact fun _ => rfl

/-- Claim C10, as the code has it: when `Deinitialize` returns, from every
prior session state and whatever the radio interface answered, it returns
`true` with `sIsNfaEnabled`, `sDiscoveryEnabled`, `sIsDisabling` and
`sIsSecElemSelected` all false, and `sRfEnabled` as it was before the call.
`sP2pActive` and `sSeRfActive` are not written by it: they are as before when
the session was not enabled or `NFA_Disable` was refused (it then returns
without waiting), and when the wait is ended at once by `NFA_DM_DISABLE_EVT`. -/
theorem C10_deinitialize_flags (w : World) :
    (match Deinitialize w with
      | Outcome.ret r w1 =>
          r = true ∧ w1.flags.sIsNfaEnabled = false ∧ w1.flags.sDiscoveryEnabled = false
            ∧ w1.flags.sIsDisabling = false ∧ w1.flags.sIsSecElemSelected = false
            ∧ w1.flags.sRfEnabled = w.flags.sRfEnabled
      | Outcome.blocked _ => True)
    ∧ ((w.flags.sIsNfaEnabled = false ∨ w.status w.issued ≠ NFA_STATUS_OK) →
        ∃ w1, Deinitialize w = Outcome.ret true w1
          ∧ w1.flags.sP2pActive = w.flags.sP2pActive
          ∧ w1.flags.sSeRfActive = w.flags.sSeRfActive)
    ∧ (∀ rest, w.flags.sIsNfaEnabled = true → w.status w.issued = NFA_STATUS_OK →
        w.pending = Callback.dm DmEvt.DISABLE :: rest →
        ∃ w1, Deinitialize w = Outcome.ret true w1
          ∧ w1.flags.sP2pActive = w.flags.sP2pActive
          ∧ w1.flags.sSeRfActive = w.flags.sSeRfActive
          ∧ w1.pending = rest) := by
  refine ⟨?_, ?_, ?_⟩
  · have h1 := Deinitialize_ends w
    have h2 := Deinitialize_keeps_rf w
    cases hd : Deinitialize w with
    | blocked w1 => trivial
    | ret r w1 =>
        rw [hd] at h1 h2
        exact ⟨h1.1, h1.2.1, h1.2.2.1, h1.2.2.2.1, h1.2.2.2.2, h2⟩
  · intro h
    rcases h with hen | hst
    · simp [ Deinitialize, Op_bind_apply, Op_pure_apply, call, log, getFlags, nfa, setFlags,
        NotifyOne, hen]
    · cases hen : w.flags.sIsNfaEnabled <;>
        simp [ Deinitialize, Op_bind_apply, Op_pure_apply, call, log, getFlags, nfa, setFlags,
          NotifyOne, hen, hst]
  · intro rest hen hst hp
    simp [ Deinitialize, Op_bind_apply, Op_pure_apply, call, log, getFlags, nfa, setFlags,
      NotifyOne, Wait, waitLoop, dispatch, NfaDeviceManagementCallback, hen, hst, hp]

/-- Witness for C10: a session that is not enabled, and an enabled session
whose disable is completed by `NFA_DM_DISABLE_EVT`. -/
theorem C10_deinitialize_flags_witness :
    (∃ w1, Deinitialize World.idle = Outcome.ret true w1
        ∧ w1.flags.sP2pActive = World.idle.flags.sP2pActive
        ∧ w1.flags.sSeRfActive = World.idle.flags.sSeRfActive)
    ∧ ∃ w1, Deinitialize
          { World.idle with flags := Session.enabled,
                            pending := [Callback.dm DmEvt.DISABLE] } = Outcome.ret true w1
        ∧ w1.flags.sP2pActive = false
        ∧ w1.flags.sSeRfActive = false
        ∧ w1.pending = [] :=
  ⟨(C10_deinitialize_flags World.idle).2.1 (Or.inl rfl),
    (C10_deinitialize_flags
      { World.idle with flags := Session.enabled,
                        pending := [Callback.dm DmEvt.DISABLE] }).2.2 [] rfl rfl rfl⟩

/-- Claim C10 as stated fails: `Deinitialize` called with RF discovery active
and a peer-to-peer link up returns with `sRfEnabled` and `sP2pActive` still
true. -/
theorem C10_counterexample_flags_left :
    ( Deinitialize
        { World.idle with
          flags := { Session.enabled with sDiscoveryEnabled := true, sRfEnabled := true,
                                          sP2pActive := true },
          pending := [Callback.dm DmEvt.DISABLE] }).value = some true
    ∧ ( Deinitialize
        { World.idle with
          flags := { Session.enabled with sDiscoveryEnabled := true, sRfEnabled := true,
                                          sP2pActive := true },
          pending := [Callback.dm DmEvt.DISABLE] }).world.flags.sRfEnabled = true
    ∧ ( Deinitialize
        { World.idle with
          flags := { Session.enabled with sDiscoveryEnabled := true, sRfEnabled := true,
                                          sP2pActive := true },
          pending := [Callback.dm DmEvt.DISABLE] }).world.flags.sP2pActive = true :=
  ⟨rfl, rfl, rfl⟩

/-! ## Secure-element deselection -/

/-- Claim C11, as the code has it: `DoDeselectSecureElement` called while a
secure element is selected and the power level read is `LOW_POWER` always
returns, and returns `false` (`result` keeps its initial value); it clears
`sIsSecElemSelected` and leaves every other flag alone, issues no command to
the radio interface (so no RF-discovery stop or start), does not call
`RouteToDefault`, waits for nothing, and does exactly this: `GetLevel`,
`SetModeOff(SE_ROUTING)` and, when that answers `false`,
`SetLevel(LOW_POWER)`. -/
theorem C11_deselect_at_low_power (w : World)
    (hsel : w.flags.sIsSecElemSelected = true)
    (hlow : w.answer Query.PowerSwitch_GetLevel (w.asked Query.PowerSwitch_GetLevel)
      = PowerLevel.LOW_POWER.code) :
    ∃ w1, DoDeselectSecureElement w = Outcome.ret false w1
      ∧ w1.flags = { w.flags with sIsSecElemSelected := false }
      ∧ w1.issued = w.issued ∧ w1.pending = w.pending
      ∧ w1.trace = w.trace ++
          ([Effect.call Collab.PowerSwitch_GetLevel,
            Effect.PowerSwitch_SetModeOff PowerActivity.SE_ROUTING] ++
           (if w.answer Query.PowerSwitch_SetModeOff (w.asked Query.PowerSwitch_SetModeOff) = 0
            then [Effect.PowerSwitch_SetLevel PowerLevel.LOW_POWER] else []))
      ∧ (∀ e ∈ w.since w1, e.isRoutingChange = false ∧ e.isRadioCommand = false) := by
  have hd : ∀ b, (w.answer Query.PowerSwitch_SetModeOff (w.asked Query.PowerSwitch_SetModeOff)
        != 0) = b →
      DoDeselectSecureElement w = Outcome.ret false
        { w with
          flags := { w.flags with sIsSecElemSelected := false },
          asked := fun q1 =>
            if q1 = Query.PowerSwitch_SetModeOff then
              (if q1 = Query.PowerSwitch_GetLevel then w.asked q1 + 1 else w.asked q1) + 1
            else (if q1 = Query.PowerSwitch_GetLevel then w.asked q1 + 1 else w.asked q1),
          trace := w.trace ++
            ([Effect.call Collab.PowerSwitch_GetLevel,
              Effect.PowerSwitch_SetModeOff PowerActivity.SE_ROUTING] ++
             (if b = false then [Effect.PowerSwitch_SetLevel PowerLevel.LOW_POWER] else [])) } := by
    intro b hb
    cases b <;>
      simp [DoDeselectSecureElement, Op_bind_apply, Op_pure_apply, getFlags, setFlags, call,
        log, ask, askBool, hsel, hlow, hb]
  refine ⟨_, hd _ rfl, rfl, rfl, rfl, ?_, ?_⟩
  · by_cases hoff : w.answer Query.PowerSwitch_SetModeOff (w.asked Query.PowerSwitch_SetModeOff) = 0
      <;> simp [hoff]
  · intro e he
    simp only [World.since, List.drop_left] at he
    by_cases hoff : w.answer Query.PowerSwitch_SetModeOff (w.asked Query.PowerSwitch_SetModeOff) = 0
    · simp [hoff] at he
      rcases he with rfl | rfl | rfl <;> exact ⟨rfl, rfl⟩
    · simp [hoff] at he
      rcases he with rfl | rfl <;> exact ⟨rfl, rfl⟩

/-- Witness for C11: a selected secure element, power level `LOW_POWER`,
`SetModeOff` answering `false`. -/
theorem C11_deselect_at_low_power_witness :
    ∃ w1, DoDeselectSecureElement
        { World.idle with
          flags := { Session.init with sIsSecElemSelected := true },
          answer := fun q _ => if q = Query.PowerSwitch_GetLevel then 2 else 0 }
        = Outcome.ret false w1
      ∧ w1.flags.sIsSecElemSelected = false
      ∧ w1.trace = [Effect.call Collab.PowerSwitch_GetLevel,
          Effect.PowerSwitch_SetModeOff PowerActivity.SE_ROUTING,
          Effect.PowerSwitch_SetLevel PowerLevel.LOW_POWER] := by
  obtain ⟨w1, h, hf, _, _, ht, _⟩ := C11_deselect_at_low_power
    { World.idle with
      flags := { Session.init with sIsSecElemSelected := true },
      answer := fun q _ => if q = Query.PowerSwitch_GetLevel then 2 else 0 } rfl rfl
  exact ⟨w1, h, by rw [hf], ht⟩

/-- Counterexample to C11 as stated: with a secure element selected and the
power level `LOW_POWER`, `DoDeselectSecureElement` returns `false`, not
success. -/
theorem C11_counterexample_returns_false :
    ({ World.idle with
        flags := { Session.init with sIsSecElemSelected := true },
        answer := fun q _ => if q = Query.PowerSwitch_GetLevel then 2 else 0 } : World).flags.sIsSecElemSelected
      = true
    ∧ PowerLevel.LOW_POWER.code = 2
    ∧ (DoDeselectSecureElement
        { World.idle with
          flags := { Session.init with sIsSecElemSelected := true },
          answer := fun q _ => if q = Query.PowerSwitch_GetLevel then 2 else 0 }).value
      = some false :=
  ⟨rfl, rfl, rfl⟩

/-! ## The phases of EnableDiscovery -/

theorem Op_bind_assoc {α β γ : Type} (m : Op α) (f : α → Op β) (g : β → Op γ) :
    (m >>= f) >>= g = m >>= fun a => f a >>= g := by
  funext w
  simp only [Op_bind_apply]
  cases m w <;> rfl

theorem Op_pure_bind {α β : Type} (a : α) (f : α → Op β) : (pure a >>= f) = f a := rfl

theorem Op_ite_bind {α β : Type} (c : Prop) [Decidable c] (a b : Op α) (f : α → Op β) :
    (if c then a else b) >>= f = if c then a >>= f else b >>= f := by
  split <;> rfl

/-- `EnableDiscovery`, when discovery is not enabled yet, is the polling
phase, the listening phase, the start of RF discovery and `SetModeOn`. -/
theorem EnableDiscovery_phases (w : World) (h : w.flags.sDiscoveryEnabled = false) :
    EnableDiscovery w = (do
      let stat ← EnableDiscovery_polling (w.tech_mask % 256) w.flags
      EnableDiscovery_listening (w.tech_mask % 256)
      StartRfDiscovery true
      log (.PowerSwitch_SetModeOn .DISCOVERY)
      pure (stat == NFA_STATUS_OK)) w := by
  simp only [EnableDiscovery, EnableDiscovery_polling, EnableDiscovery_listening, Op_bind_assoc,
    Op_pure_bind, Op_ite_bind]
  simp only [Op_bind_apply, getTechMask8, getFlags, h, Bool.false_eq_true, if_false]

theorem Hoare_bind {α β : Type} {P : World → Prop} {Q : α → World → Prop}
    {S : β → World → Prop} {B : World → Prop} {m : Op α} {f : α → Op β}
    (hm : Op.Hoare P m Q B) (hf : ∀ a, Op.Hoare (Q a) (f a) S B) :
    Op.Hoare P (m >>= f) S B := by
  intro w hw
  have h1 := hm w hw
  rw [Op_bind_apply]
  cases hmw : m w with
  | ret a w1 => rw [hmw] at h1; exact hf a w1 h1
  | blocked w1 => rw [hmw] at h1; exact h1

theorem Hoare_steps {α : Type} {R K : World → World → Prop} {P : World → Prop}
    {Q : α → World → Prop} {B : World → Prop} {m : Op α} (h : Op.Steps R K m)
    (hQ : ∀ w w1 a, P w → R w w1 → Q a w1) (hB : ∀ w w1, P w → K w w1 → B w1) :
    Op.Hoare P m Q B := by
  intro w hw
  have h1 := h w
  cases hmw : m w with
  | ret a w1 => rw [hmw] at h1; exact hQ w w1 a hw h1
  | blocked w1 => rw [hmw] at h1; exact hB w w1 hw h1

theorem Hoare_world {α : Type} {P : World → Prop} {B : World → Prop} {m : Op α}
    (h : Op.Hoare P m (fun _ => B) B) {w : World} (hw : P w) : B (m w).world := by
  have h1 := h w hw
  cases hmw : m w with
  | ret a w1 => rw [hmw] at h1; exact h1
  | blocked w1 => rw [hmw] at h1; exact h1

theorem Hoare_ret {α : Type} {P : World → Prop} {Q : α → World → Prop} {B : World → Prop}
    {m : Op α} (h : Op.Hoare P m Q B) {w : World} (hw : P w) {a : α} {w1 : World}
    (hm : m w = Outcome.ret a w1) : Q a w1 := by
  have h1 := h w hw
  rw [hm] at h1
  exact h1

theorem Emits_prims (p : Effect → Prop) : Prims (Emits p) p (fun _ => True) where
  keep := fun _ _ _ ht _ => Emits_same ht
  emit := fun e _ _ he _ ht _ => Emits_one e ht he
  update := fun _ _ _ _ _ ht _ => Emits_same ht

theorem rfKept_prims :
    Prims (fun w w1 => w1.flags.sRfEnabled = w.flags.sRfEnabled) (fun _ => True)
      (fun f => ∀ s, (f s).sRfEnabled = s.sRfEnabled) where
  keep := fun _ _ hf _ _ => by rw [hf]
  emit := fun _ _ _ _ hf _ _ => by rw [hf]
  update := fun f _ _ hq hf _ _ => by rw [hf, hq]

/-- `StartRfDiscovery(isStart)`, when it returns, has set `sRfEnabled` to
`isStart` if the command was accepted and has left it alone otherwise. -/
theorem StartRfDiscovery_flag (isStart : Bool) (w : World) :
    match StartRfDiscovery isStart w with
    | Outcome.ret _ w1 =>
        w1.flags.sRfEnabled
          = if w.status w.issued = NFA_STATUS_OK then isStart else w.flags.sRfEnabled
    | Outcome.blocked _ => True := by
  simp only [StartRfDiscovery, Op_bind_apply, nfa]
  by_cases hst : w.status w.issued = NFA_STATUS_OK
  · simp only [hst, beq_self_eq_true, if_true, Op_bind_apply, setFlags]
    cases Wait SyncEv.sNfaEnableDisablePollingEvent _ with
    | ret a w1 => rfl
    | blocked w1 => trivial
  · have hst2 : (w.status w.issued == NFA_STATUS_OK) = false := by simpa using hst
    simp only [hst2, Bool.false_eq_true, if_false, Op_pure_apply, hst]

/-- The polling phase entered with RF discovery active: what it adds to the
trace starts with `SetLevel(FULL_POWER)` and `NFA_StopRfDiscovery`, and
nothing after them starts or stops RF discovery. -/
theorem EnableDiscovery_polling_trace (mask : Nat) (w : World)
    (hrf : w.flags.sRfEnabled = true) :
    ∃ more, (EnableDiscovery_polling mask w.flags w).world.trace
        = w.trace ++ Effect.PowerSwitch_SetLevel PowerLevel.FULL_POWER
            :: Effect.nfa NfaCmd.NFA_StopRfDiscovery (w.status w.issued) :: more
      ∧ ∀ e ∈ more, e.isRfCommand = false := by
  have F := Emits_frame (fun e => e.isRfCommand = false) (fun _ => rfl) (fun _ => rfl)
    isRfCommand_of_byCallback
  have P := Emits_prims (fun e => e.isRfCommand = false)
  refine Hoare_world (P := fun w0 => w0 = w)
    (B := fun w1 => ∃ more, w1.trace
        = w.trace ++ Effect.PowerSwitch_SetLevel PowerLevel.FULL_POWER
            :: Effect.nfa NfaCmd.NFA_StopRfDiscovery (w.status w.issued) :: more
      ∧ ∀ e ∈ more, e.isRfCommand = false)
    (m := EnableDiscovery_polling mask w.flags) ?_ rfl
  simp only [EnableDiscovery_polling, hrf, if_true, StartRfDiscovery, Bool.false_eq_true,
    if_false, Op_bind_assoc]
  refine Hoare_bind
    (Q := fun _ w1 => w1.trace = w.trace ++ [Effect.PowerSwitch_SetLevel PowerLevel.FULL_POWER]
      ∧ w1.status w1.issued = w.status w.issued) ?_ (fun _ => ?_)
  · intro w0 h0
    subst h0
    exact ⟨rfl, rfl⟩
  refine Hoare_bind
    (Q := fun _ w1 => w1.trace = w.trace ++ [Effect.PowerSwitch_SetLevel PowerLevel.FULL_POWER,
      Effect.nfa NfaCmd.NFA_StopRfDiscovery (w.status w.issued)]) ?_ (fun _ => ?_)
  · intro w0 h0
    simp only [nfa, h0.1, h0.2, List.append_assoc, List.singleton_append]
  refine Hoare_steps (R := Emits fun e => e.isRfCommand = false)
    (K := Emits fun e => e.isRfCommand = false) ?_ ?_ ?_
  · repeat' first
      | with_reducible exact Wait_steps F _
      | ((with_reducible apply Steps_bind F.trans F.comp); swap; intro _)
      | with_reducible apply Steps_ite
      | with_reducible exact Steps_pure F.refl _
      | ((with_reducible refine Steps_nfa P _ ?_); exact fun _ => rfl)
      | ((with_reducible refine Steps_setFlags P _ ?_); exact trivial)
  · intro w0 w1 _ h0 ⟨new, ht, hp⟩
    exact ⟨new, by rw [ht, h0]; simp, hp⟩
  · intro w0 w1 h0 ⟨new, ht, hp⟩
    exact ⟨new, by rw [ht, h0]; simp, hp⟩

/-- The polling phase entered with RF discovery active, when it returns,
leaves `sRfEnabled` false if the stop was accepted and true if it was
refused. -/
theorem EnableDiscovery_polling_flag (mask : Nat) (w : World)
    (hrf : w.flags.sRfEnabled = true) (stat : Nat) (w1 : World)
    (h : EnableDiscovery_polling mask w.flags w = Outcome.ret stat w1) :
    w1.flags.sRfEnabled = (w.status w.issued != NFA_STATUS_OK) := by
  have F := rfKept_frame
  have P := rfKept_prims
  refine Hoare_ret (P := fun w0 => w0 = w)
    (Q := fun _ w1 => w1.flags.sRfEnabled = (w.status w.issued != NFA_STATUS_OK))
    (B := fun _ => True) ?_ rfl h
  simp only [EnableDiscovery_polling, hrf, if_true]
  refine Hoare_bind
    (Q := fun _ w1 => w1.status w1.issued = w.status w.issued ∧ w1.flags.sRfEnabled = true)
    ?_ (fun _ => ?_)
  · intro w0 h0
    subst h0
    exact ⟨rfl, hrf⟩
  refine Hoare_bind
    (Q := fun _ w1 => w1.flags.sRfEnabled = (w.status w.issued != NFA_STATUS_OK))
    ?_ (fun _ => ?_)
  · intro w0 h0
    have h1 := StartRfDiscovery_flag false w0
    cases hs : StartRfDiscovery false w0 with
    | blocked w2 => trivial
    | ret a w2 =>
        rw [hs] at h1
        simp only at h1 ⊢
        rw [h1, h0.1, h0.2]
        by_cases hst : w.status w.issued = NFA_STATUS_OK <;> simp [hst]
  refine Hoare_steps (R := fun w w1 => w1.flags.sRfEnabled = w.flags.sRfEnabled)
    (K := fun w w1 => w1.flags.sRfEnabled = w.flags.sRfEnabled) ?_ ?_ ?_
  · repeat' first
      | with_reducible exact Wait_steps F _
      | ((with_reducible apply Steps_bind F.trans F.comp); swap; intro _)
      | with_reducible apply Steps_ite
      | with_reducible exact Steps_pure F.refl _
      | ((with_reducible refine Steps_nfa P _ ?_); exact fun _ => trivial)
      | ((with_reducible refine Steps_setFlags P _ ?_); exact fun _ => rfl)
  · intro w0 w1 _ h0 hk
    rw [hk, h0]
  · intro _ _ _ _
    trivial

/-- The listening phase: it always returns, writes no flag, and adds to the
trace `EnableP2pListening(true)` when `sDiscoveryEnabled` is set or the mask
is 0, followed by `RouteToDefault` when no secure element is selected. -/
theorem EnableDiscovery_listening_eq (mask : Nat) (w : World) :
    EnableDiscovery_listening mask w = Outcome.ret ()
      { w with trace := w.trace ++
          (if w.flags.sDiscoveryEnabled = true ∨ mask = 0 then
            Effect.P2P_EnableP2pListening true ::
              (if w.flags.sIsSecElemSelected = true then []
               else [Effect.call Collab.SE_RouteToDefault])
           else []) } := by
  cases hd : w.flags.sDiscoveryEnabled <;> cases hs : w.flags.sIsSecElemSelected <;>
    by_cases hm : mask = 0 <;>
    simp [EnableDiscovery_listening, Op_bind_apply, Op_pure_apply, getFlags, log, call, hd, hs, hm]

/-- `StartRfDiscovery(true)` issues `NFA_StartRfDiscovery` at once, and
nothing it adds to the trace after it starts or stops RF discovery. -/
theorem StartRfDiscovery_true_trace (w : World) :
    ∃ more, (StartRfDiscovery true w).world.trace
        = w.trace ++ Effect.nfa NfaCmd.NFA_StartRfDiscovery (w.status w.issued) :: more
      ∧ ∀ e ∈ more, e.isRfCommand = false := by
  have F := Emits_frame (fun e => e.isRfCommand = false) (fun _ => rfl) (fun _ => rfl)
    isRfCommand_of_byCallback
  have P := Emits_prims (fun e => e.isRfCommand = false)
  refine Hoare_world (P := fun w0 => w0 = w)
    (B := fun w1 => ∃ more, w1.trace
        = w.trace ++ Effect.nfa NfaCmd.NFA_StartRfDiscovery (w.status w.issued) :: more
      ∧ ∀ e ∈ more, e.isRfCommand = false)
    (m := StartRfDiscovery true) ?_ rfl
  simp only [StartRfDiscovery, if_true]
  refine Hoare_bind
    (Q := fun _ w1 => w1.trace
      = w.trace ++ [Effect.nfa NfaCmd.NFA_StartRfDiscovery (w.status w.issued)])
    ?_ (fun _ => ?_)
  · intro w0 h0
    subst h0
    rfl
  refine Hoare_steps (R := Emits fun e => e.isRfCommand = false)
    (K := Emits fun e => e.isRfCommand = false) ?_ ?_ ?_
  · repeat' first
      | with_reducible exact Wait_steps F _
      | ((with_reducible apply Steps_bind F.trans F.comp); swap; intro _)
      | with_reducible apply Steps_ite
      | with_reducible exact Steps_pure F.refl _
      | ((with_reducible refine Steps_setFlags P _ ?_); exact trivial)
  · intro w0 w1 _ h0 ⟨new, ht, hp⟩
    exact ⟨new, by rw [ht, h0]; simp, hp⟩
  · intro w0 w1 h0 ⟨new, ht, hp⟩
    exact ⟨new, by rw [ht, h0]; simp, hp⟩

/-- Claim C12, as the code has it. An execution of `EnableDiscovery` that
starts with `sRfEnabled` true and discovery not yet enabled is the polling
phase, the listening phase, `StartRfDiscovery(true)` and `SetModeOn`.
* The polling phase issues `NFA_StopRfDiscovery` first, right after
  `SetLevel(FULL_POWER)` and so before `NFA_EnablePolling`, and issues no
  other start or stop of RF discovery.
* When the polling phase returns, `sRfEnabled` is false if the stop was
  accepted, and still true if the stop was refused.
* The listening phase always returns, with the flags as they were and no
  command issued to the radio interface.
* `StartRfDiscovery(true)` issues `NFA_StartRfDiscovery` at once, in the world
  the listening phase ended in, and no other start or stop after it. -/
theorem C12_stop_before_polling (w : World) (hrf : w.flags.sRfEnabled = true)
    (hdis : w.flags.sDiscoveryEnabled = false) :
    EnableDiscovery w = (do
      let stat ← EnableDiscovery_polling (w.tech_mask % 256) w.flags
      EnableDiscovery_listening (w.tech_mask % 256)
      StartRfDiscovery true
      log (.PowerSwitch_SetModeOn .DISCOVERY)
      pure (stat == NFA_STATUS_OK)) w
    ∧ (∃ more, (EnableDiscovery_polling (w.tech_mask % 256) w.flags w).world.trace
          = w.trace ++ Effect.PowerSwitch_SetLevel PowerLevel.FULL_POWER
              :: Effect.nfa NfaCmd.NFA_StopRfDiscovery (w.status w.issued) :: more
        ∧ ∀ e ∈ more, e.isRfCommand = false)
    ∧ (∀ stat w1, EnableDiscovery_polling (w.tech_mask % 256) w.flags w = Outcome.ret stat w1 →
        w1.flags.sRfEnabled = (w.status w.issued != NFA_STATUS_OK))
    ∧ (∀ w1, ∃ w2, EnableDiscovery_listening (w.tech_mask % 256) w1 = Outcome.ret () w2
        ∧ w2.flags = w1.flags ∧ w2.issued = w1.issued
        ∧ ∀ e ∈ w1.since w2, e.isRadioCommand = false)
    ∧ (∀ w2, ∃ more, (StartRfDiscovery true w2).world.trace
          = w2.trace ++ Effect.nfa NfaCmd.NFA_StartRfDiscovery (w2.status w2.issued) :: more
        ∧ ∀ e ∈ more, e.isRfCommand = false) := by
  refine ⟨EnableDiscovery_phases w hdis, EnableDiscovery_polling_trace _ w hrf,
    fun stat w1 h => EnableDiscovery_polling_flag _ w hrf stat w1 h, ?_,
    StartRfDiscovery_true_trace⟩
  intro w1
  refine ⟨_, EnableDiscovery_listening_eq _ w1, rfl, rfl, ?_⟩
  intro e he
  simp only [World.since, List.drop_left] at he
  split_ifs at he
  · rcases List.mem_cons.mp he with h | h
    · rw [h]; rfl
    · simp at h
  · rcases List.mem_cons.mp he with h | h
    · rw [h]; rfl
    · rw [List.mem_singleton.mp h]; rfl
  · simp at he

/-- Witness for C12: RF discovery active, every command accepted, the three
completions delivered. -/
theorem C12_stop_before_polling_witness :
    ∃ more, (EnableDiscovery_polling 0 { Session.enabled with sRfEnabled := true }
        { World.idle with
          flags := { Session.enabled with sRfEnabled := true },
          pending := [Callback.conn ConnEvt.RF_DISCOVERY_STOPPED,
            Callback.conn ConnEvt.POLL_ENABLED,
            Callback.conn ConnEvt.RF_DISCOVERY_STARTED] }).world.trace
        = [] ++ Effect.PowerSwitch_SetLevel PowerLevel.FULL_POWER
            :: Effect.nfa NfaCmd.NFA_StopRfDiscovery NFA_STATUS_OK :: more
      ∧ ∀ e ∈ more, e.isRfCommand = false :=
  (C12_stop_before_polling
    { World.idle with
      flags := { Session.enabled with sRfEnabled := true },
      pending := [Callback.conn ConnEvt.RF_DISCOVERY_STOPPED,
        Callback.conn ConnEvt.POLL_ENABLED,
        Callback.conn ConnEvt.RF_DISCOVERY_STARTED] } rfl rfl).2.1

/-- Counterexample to C12 as stated: the radio interface refuses the stop
(status 3) and accepts the rest. `sRfEnabled` is still true when the polling
phase ends, and `NFA_StartRfDiscovery` is issued all the same. -/
theorem C12_counterexample_stop_refused :
    (EnableDiscovery_polling 0 { Session.enabled with sRfEnabled := true }
        { World.idle with
          flags := { Session.enabled with sRfEnabled := true },
          status := fun k => if k = 0 then NFA_STATUS_FAILED else NFA_STATUS_OK,
          pending := [Callback.conn ConnEvt.POLL_ENABLED,
            Callback.conn ConnEvt.RF_DISCOVERY_STARTED] }).world.flags.sRfEnabled = true
    ∧ (EnableDiscovery
        { World.idle with
          flags := { Session.enabled with sRfEnabled := true },
          status := fun k => if k = 0 then NFA_STATUS_FAILED else NFA_STATUS_OK,
          pending := [Callback.conn ConnEvt.POLL_ENABLED,
            Callback.conn ConnEvt.RF_DISCOVERY_STARTED] }).world.trace
      = [Effect.PowerSwitch_SetLevel PowerLevel.FULL_POWER,
         Effect.nfa NfaCmd.NFA_StopRfDiscovery 3,
         Effect.nfa (NfaCmd.NFA_EnablePolling 0) 0,
         Effect.Wait SyncEv.sNfaEnableDisablePollingEvent,
         Effect.callback (Callback.conn ConnEvt.POLL_ENABLED),
         Effect.NotifyOne SyncEv.sNfaEnableDisablePollingEvent,
         Effect.P2P_EnableP2pListening true,
         Effect.call Collab.SE_RouteToDefault,
         Effect.nfa NfaCmd.NFA_StartRfDiscovery 0,
         Effect.Wait SyncEv.sNfaEnableDisablePollingEvent,
         Effect.callback (Callback.conn ConnEvt.RF_DISCOVERY_STARTED),
         Effect.NotifyOne SyncEv.sNfaEnableDisablePollingEvent,
         Effect.PowerSwitch_SetModeOn PowerActivity.DISCOVERY] :=
  ⟨rfl, rfl⟩

/-! ## P2P listening and default routes in EnableDiscovery -/

theorem NfaDeviceManagementCallback_noListening (e : DmEvt) :
    Op.Steps (Emits fun e => e.isListeningSetup = false)
      (Emits fun e => e.isListeningSetup = false) (NfaDeviceManagementCallback e) := by
  cases e <;> unfold NfaDeviceManagementCallback <;>
    repeat' first
      | exact Steps_pure (Emits_refl _) _
      | exact fun _ => Emits_same rfl
      | exact fun _ => Emits_one _ rfl rfl
      | (apply Steps_bind (Emits_trans _) (Emits_trans _); swap; intro _)
      | apply Steps_ite

theorem NfaConnectionCallback_noListening (e : ConnEvt) :
    Op.Steps (Emits fun e => e.isListeningSetup = false)
      (Emits fun e => e.isListeningSetup = false) (NfaConnectionCallback e) := by
  cases e <;> unfold NfaConnectionCallback HandleRfDiscoveryEvent <;>
    repeat' first
      | exact Steps_pure (Emits_refl _) _
      | exact fun _ => Emits_same rfl
      | exact fun _ => Emits_one _ rfl rfl
      | (apply Steps_bind (Emits_trans _) (Emits_trans _); swap; intro _)
      | apply Steps_ite

/-- No callback enables P2P listening or applies the default routes. -/
theorem noListening_frame :
    Frame (Emits fun e => e.isListeningSetup = false)
      (Emits fun e => e.isListeningSetup = false) where
  refl := Emits_refl _
  trans := Emits_trans _
  comp := Emits_trans _
  stuck := Emits_refl _
  wait := fun ev _ => Emits_one _ rfl rfl
  deliver := by
    intro c rest w w1 _ hd
    have h0 : Emits (fun e => e.isListeningSetup = false) w
        { w with pending := rest, signals := [], trace := w.trace ++ [Effect.callback c] } :=
      Emits_one _ rfl rfl
    refine Emits_trans _ _ _ _ h0 ?_
    cases c with
    | dm e =>
        have h := NfaDeviceManagementCallback_noListening e
          { w with pending := rest, signals := [],
                   trace := w.trace ++ [Effect.callback (Callback.dm e)] }
        have h2 : dispatch (Callback.dm e) { w with pending := rest }
            = NfaDeviceManagementCallback e
              { w with pending := rest, signals := [],
                       trace := w.trace ++ [Effect.callback (Callback.dm e)] } := rfl
        rw [← h2, hd] at h
        exact h
    | conn e =>
        have h := NfaConnectionCallback_noListening e
          { w with pending := rest, signals := [],
                   trace := w.trace ++ [Effect.callback (Callback.conn e)] }
        have h2 : dispatch (Callback.conn e) { w with pending := rest }
            = NfaConnectionCallback e
              { w with pending := rest, signals := [],
                       trace := w.trace ++ [Effect.callback (Callback.conn e)] } := rfl
        rw [← h2, hd] at h
        exact h

theorem StartRfDiscovery_noListening (isStart : Bool) :
    Op.Steps (Emits fun e => e.isListeningSetup = false)
      (Emits fun e => e.isListeningSetup = false) (StartRfDiscovery isStart) := by
  have F := noListening_frame
  have P := Emits_prims (fun e => e.isListeningSetup = false)
  unfold StartRfDiscovery
  repeat' first
    | with_reducible exact Wait_steps F _
    | ((with_reducible apply Steps_bind F.trans F.comp); swap; intro _)
    | with_reducible apply Steps_ite
    | with_reducible exact Steps_pure F.refl _
    | ((with_reducible refine Steps_nfa P _ ?_); exact fun _ => by cases isStart <;> rfl)
    | ((with_reducible refine Steps_setFlags P _ ?_); exact trivial)

theorem EnableDiscovery_polling_noListening (mask : Nat) (s : Session) :
    Op.Steps (Emits fun e => e.isListeningSetup = false)
      (Emits fun e => e.isListeningSetup = false) (EnableDiscovery_polling mask s) := by
  have F := noListening_frame
  have P := Emits_prims (fun e => e.isListeningSetup = false)
  unfold EnableDiscovery_polling
  repeat' first
    | with_reducible exact Wait_steps F _
    | with_reducible exact StartRfDiscovery_noListening _
    | ((with_reducible apply Steps_bind F.trans F.comp); swap; intro _)
    | with_reducible apply Steps_ite
    | with_reducible exact Steps_pure F.refl _
    | ((with_reducible refine Steps_log P _ ?_); exact rfl)
    | ((with_reducible refine Steps_nfa P _ ?_); exact fun _ => rfl)
    | ((with_reducible refine Steps_setFlags P _ ?_); exact trivial)

/-- Claim C13. An execution of `EnableDiscovery` made while discovery is not
enabled is the polling phase, the listening phase, `StartRfDiscovery(true)`
and `SetModeOn`. In the listening phase, entered in the world the polling
request left, `EnableP2pListening(true)` is called if and only if
`sDiscoveryEnabled` is true or the technology mask handed to
`NFA_EnablePolling` is 0, and `RouteToDefault` is called if and only if that
condition holds and `sIsSecElemSelected` is false. Neither is called in the
polling phase or in `StartRfDiscovery(true)`. -/
theorem C13_listening_condition (w : World) (hdis : w.flags.sDiscoveryEnabled = false) :
    EnableDiscovery w = (do
      let stat ← EnableDiscovery_polling (w.tech_mask % 256) w.flags
      EnableDiscovery_listening (w.tech_mask % 256)
      StartRfDiscovery true
      log (.PowerSwitch_SetModeOn .DISCOVERY)
      pure (stat == NFA_STATUS_OK)) w
    ∧ (∀ e ∈ w.since (EnableDiscovery_polling (w.tech_mask % 256) w.flags w).world,
        e.isListeningSetup = false)
    ∧ (∀ w1, ∃ w2, EnableDiscovery_listening (w.tech_mask % 256) w1 = Outcome.ret () w2
        ∧ (Effect.P2P_EnableP2pListening true ∈ w1.since w2
            ↔ (w1.flags.sDiscoveryEnabled = true ∨ w.tech_mask % 256 = 0))
        ∧ (Effect.call Collab.SE_RouteToDefault ∈ w1.since w2
            ↔ ((w1.flags.sDiscoveryEnabled = true ∨ w.tech_mask % 256 = 0)
                ∧ w1.flags.sIsSecElemSelected = false)))
    ∧ (∀ w2 : World, ∀ e ∈ w2.since (StartRfDiscovery true w2).world,
        e.isListeningSetup = false) := by
  refine ⟨EnableDiscovery_phases w hdis, ?_, ?_, ?_⟩
  · obtain ⟨new, ht, hp⟩ := Steps_world (EnableDiscovery_polling_noListening _ _) w
    rw [since_of_append _ _ new ht]
    exact hp
  · intro w1
    refine ⟨_, EnableDiscovery_listening_eq _ w1, ?_, ?_⟩
    · simp only [World.since, List.drop_left]
      by_cases hc : w1.flags.sDiscoveryEnabled = true ∨ w.tech_mask % 256 = 0
      · simp [hc]
      · simp [hc]
    · simp only [World.since, List.drop_left]
      by_cases hc : w1.flags.sDiscoveryEnabled = true ∨ w.tech_mask % 256 = 0
      · cases hs : w1.flags.sIsSecElemSelected <;> simp [hc, hs]
      · simp [hc]
  · intro w2
    obtain ⟨new, ht, hp⟩ := Steps_world (StartRfDiscovery_noListening true) w2
    rw [since_of_append _ _ new ht]
    exact hp

/-- Witness for C13: a fresh enabled session with mask 0; the listening phase
entered with nothing set. -/
theorem C13_listening_condition_witness :
    ∃ w2, EnableDiscovery_listening 0 { World.idle with flags := Session.enabled }
        = Outcome.ret () w2
      ∧ (Effect.P2P_EnableP2pListening true
            ∈ World.since { World.idle with flags := Session.enabled } w2
          ↔ (Session.enabled.sDiscoveryEnabled = true ∨ 0 % 256 = 0))
      ∧ (Effect.call Collab.SE_RouteToDefault
            ∈ World.since { World.idle with flags := Session.enabled } w2
          ↔ ((Session.enabled.sDiscoveryEnabled = true ∨ 0 % 256 = 0)
              ∧ Session.enabled.sIsSecElemSelected = false)) :=
  (C13_listening_condition { World.idle with flags := Session.enabled } rfl).2.2.1
    { World.idle with flags := Session.enabled }

/-! ## NfcIpcSocket.cpp: WriteToOutgoingQueue -/

/-- The inner loop, when it ends, has made calls that were all interrupted
but the last; what follows the last call continues the log. -/
theorem writeRetry_log (write : Nat → Nat → WriteResult) (len off : Nat) (hoff : off < len)
    (fuel : Nat) : ∀ (k : Nat) (r : WriteResult) (cs : List WriteCall),
    writeRetry write off (len - off) fuel k = some (r, cs) →
    r = write (k + cs.length - 1) (len - off) ∧ r ≠ WriteResult.EINTR ∧ cs ≠ []
    ∧ ∀ (tail : List WriteCall) (last : Nat),
      (match r with
        | .written n => WriteLog write len (k + cs.length) (off + n) tail last
        | .EINTR => False
        | .error _ => tail = [] ∧ last = off) →
      WriteLog write len k off (cs ++ tail) last := by
  induction fuel with
  | zero => intro k r cs h; simp [writeRetry] at h
  | succ fuel ih =>
      intro k r cs h
      rw [writeRetry] at h
      cases hw : write k (len - off) with
      | EINTR =>
          rw [hw] at h
          simp only at h
          cases hr : writeRetry write off (len - off) fuel (k + 1) with
          | none => rw [hr] at h; simp at h
          | some p =>
              obtain ⟨r1, cs1⟩ := p
              rw [hr] at h
              simp only [Option.some.injEq, Prod.mk.injEq] at h
              obtain ⟨h1, h2⟩ := h
              subst h1 h2
              obtain ⟨e1, e2, e3, e4⟩ := ih (k + 1) r1 cs1 hr
              have hlen : 0 < cs1.length := List.length_pos.mpr e3
              refine ⟨?_, e2, by simp, ?_⟩
              · rw [e1]
                congr 1
                simp only [List.length_cons]
                omega
              · intro tail last ht
                have h5 : k + 1 + cs1.length = k + (cs1.length + 1) := by omega
                simp only [List.length_cons] at ht
                rw [← h5] at ht
                exact WriteLog.retried hoff hw (e4 tail last ht)
      | written n =>
          rw [hw] at h
          simp only [Option.some.injEq, Prod.mk.injEq] at h
          obtain ⟨h1, h2⟩ := h
          subst h1 h2
          refine ⟨by simp [hw], by simp, by simp, ?_⟩
          intro tail last ht
          exact WriteLog.advanced hoff hw ht
      | error e =>
          rw [hw] at h
          simp only [Option.some.injEq, Prod.mk.injEq] at h
          obtain ⟨h1, h2⟩ := h
          subst h1 h2
          refine ⟨by simp [hw], by simp, by simp, ?_⟩
          intro tail last ht
          obtain ⟨t1, t2⟩ := ht
          subst t1 t2
          exact WriteLog.failed hoff hw

/-- The outer loop, when it ends, has made the calls of a log. -/
theorem writeLoop_log (write : Nat → Nat → WriteResult) (len : Nat) (fuel : Nat) :
    ∀ (off k last : Nat) (cs : List WriteCall),
    writeLoop write len fuel off k = some (last, cs) → WriteLog write len k off cs last := by
  induction fuel with
  | zero => intro off k last cs h; simp [writeLoop] at h
  | succ fuel ih =>
      intro off k last cs h
      rw [writeLoop] at h
      by_cases hoff : off < len
      · simp only [hoff, if_true] at h
        cases hr : writeRetry write off (len - off) (fuel + 1) k with
        | none => rw [hr] at h; simp at h
        | some p =>
            obtain ⟨r, cs1⟩ := p
            obtain ⟨-, e2, -, e4⟩ := writeRetry_log write len off hoff (fuel + 1) k r cs1 hr
            rw [hr] at h
            cases r with
            | EINTR => exact absurd rfl e2
            | written n =>
                simp only at h
                cases hl : writeLoop write len fuel (off + n) (k + cs1.length) with
                | none => rw [hl] at h; simp at h
                | some q =>
                    obtain ⟨last1, rest⟩ := q
                    rw [hl] at h
                    simp only [Option.some.injEq, Prod.mk.injEq] at h
                    obtain ⟨h1, h2⟩ := h
                    subst h1 h2
                    exact e4 rest last1 (ih _ _ _ _ hl)
            | error e =>
                simp only [Option.some.injEq, Prod.mk.injEq] at h
                obtain ⟨h1, h2⟩ := h
                subst h1 h2
                have := e4 [] off ⟨rfl, rfl⟩
                simpa using this
      · simp only [hoff, if_false, Option.some.injEq, Prod.mk.injEq] at h
        obtain ⟨h1, h2⟩ := h
        subst h1 h2
        exact WriteLog.done (Nat.le_of_not_lt hoff)

/-- A log never takes the offset back, and ends at `len` or beyond, or with
a failed call. When no call writes more than it was asked to, the offset never
goes beyond `len`, and the bytes sent are those of `data` between the first
and the last offset. -/
theorem WriteLog_sent (write : Nat → Nat → WriteResult) (len : Nat) (data : List Nat)
    (hw : ∀ k c n, write k c = WriteResult.written n → n ≤ c)
    {k off last : Nat} {cs : List WriteCall} (h : WriteLog write len k off cs last) :
    off ≤ last ∧ (off ≤ len → last ≤ len)
      ∧ (cs.map (WriteCall.sent data)).flatten = (data.take last).drop off := by
  induction h with
  | done hle => simp
  | @retried k off cs last hoff hk _ ih =>
      refine ⟨ih.1, ih.2.1, ?_⟩
      simp only [List.map_cons, List.flatten_cons, WriteCall.sent, WriteResult.bytes,
        List.take_zero, List.nil_append]
      exact ih.2.2
  | @advanced k off n cs last hoff hk _ ih =>
      have hn := hw _ _ _ hk
      refine ⟨by omega, fun _ => ih.2.1 (by omega), ?_⟩
      simp only [List.map_cons, List.flatten_cons, WriteCall.sent, WriteResult.bytes]
      rw [ih.2.2]
      have hM : List.take n (List.drop off data)
          = List.take n (List.drop off (List.take last data)) := by
        rw [List.drop_take, List.take_take, Nat.min_eq_left (by omega)]
      have hD : List.drop (off + n) (List.take last data)
          = List.drop n (List.drop off (List.take last data)) := by
        rw [List.drop_drop, Nat.add_comm]
      rw [hM, hD, List.take_append_drop]
  | @failed k off e hoff hk =>
      simp [WriteCall.sent, WriteResult.bytes]

/-- A log ends at `len` or beyond without a failed call, or below `len` with
a failed call that is its last call and its only failed one. -/
theorem WriteLog_end (write : Nat → Nat → WriteResult) (len : Nat)
    {k off last : Nat} {cs : List WriteCall} (h : WriteLog write len k off cs last) :
    (len ≤ last ∧ ∀ c ∈ cs, ∀ e, c.result ≠ WriteResult.error e)
    ∨ (last < len ∧ ∃ init c e, cs = init ++ [c] ∧ c.result = WriteResult.error e
        ∧ ∀ c1 ∈ init, ∀ e1, c1.result ≠ WriteResult.error e1) := by
  induction h with
  | done hle => exact Or.inl ⟨hle, by simp⟩
  | @retried k off cs last hoff hk _ ih =>
      rcases ih with ⟨h1, h2⟩ | ⟨h1, init, c, e, h2, h3, h4⟩
      · refine Or.inl ⟨h1, ?_⟩
        intro c hc e
        rcases List.mem_cons.mp hc with h | h
        · rw [h]; simp
        · exact h2 c h e
      · refine Or.inr ⟨h1, _ :: init, c, e, by rw [h2]; rfl, h3, ?_⟩
        intro c1 hc e1
        rcases List.mem_cons.mp hc with h | h
        · rw [h]; simp
        · exact h4 c1 h e1
  | @advanced k off n cs last hoff hk _ ih =>
      rcases ih with ⟨h1, h2⟩ | ⟨h1, init, c, e, h2, h3, h4⟩
      · refine Or.inl ⟨h1, ?_⟩
        intro c hc e
        rcases List.mem_cons.mp hc with h | h
        · rw [h]; simp
        · exact h2 c h e
      · refine Or.inr ⟨h1, _ :: init, c, e, by rw [h2]; rfl, h3, ?_⟩
        intro c1 hc e1
        rcases List.mem_cons.mp hc with h | h
        · rw [h]; simp
        · exact h4 c1 h e1
  | @failed k off e hoff hk =>
      exact Or.inr ⟨hoff, [], _, e, rfl, rfl, by simp⟩

theorem writeRetry_mono (write : Nat → Nat → WriteResult) (off count : Nat) (fuel : Nat) :
    ∀ (k : Nat) (x : WriteResult × List WriteCall) (fuel1 : Nat),
    writeRetry write off count fuel k = some x → fuel ≤ fuel1 →
    writeRetry write off count fuel1 k = some x := by
  induction fuel with
  | zero => intro k x fuel1 h; simp [writeRetry] at h
  | succ fuel ih =>
      intro k x fuel1 h hle
      obtain ⟨f, rfl⟩ : ∃ f, fuel1 = f + 1 := ⟨fuel1 - 1, by omega⟩
      rw [writeRetry] at h ⊢
      cases hw : write k count with
      | EINTR =>
          rw [hw] at h
          simp only at h ⊢
          cases hr : writeRetry write off count fuel (k + 1) with
          | none => rw [hr] at h; simp at h
          | some p =>
              rw [hr] at h
              rw [ih (k + 1) p f hr (by omega)]
              exact h
      | written n => rw [hw] at h; exact h
      | error e => rw [hw] at h; exact h

theorem writeLoop_mono (write : Nat → Nat → WriteResult) (len : Nat) (fuel : Nat) :
    ∀ (off k : Nat) (x : Nat × List WriteCall) (fuel1 : Nat),
    writeLoop write len fuel off k = some x → fuel ≤ fuel1 →
    writeLoop write len fuel1 off k = some x := by
  induction fuel with
  | zero => intro off k x fuel1 h; simp [writeLoop] at h
  | succ fuel ih =>
      intro off k x fuel1 h hle
      obtain ⟨f, rfl⟩ : ∃ f, fuel1 = f + 1 := ⟨fuel1 - 1, by omega⟩
      rw [writeLoop] at h ⊢
      by_cases hoff : off < len
      · simp only [hoff, if_true] at h ⊢
        cases hr : writeRetry write off (len - off) (fuel + 1) k with
        | none => rw [hr] at h; simp at h
        | some p =>
            rw [hr] at h
            rw [writeRetry_mono write off (len - off) (fuel + 1) k p (f + 1) hr (by omega)]
            obtain ⟨r, cs1⟩ := p
            cases r with
            | EINTR => exact h
            | error e => exact h
            | written n =>
                simp only at h ⊢
                cases hl : writeLoop write len fuel (off + n) (k + cs1.length) with
                | none => rw [hl] at h; simp at h
                | some q =>
                    rw [hl] at h
                    rw [ih _ _ q f hl (by omega)]
                    exact h
      · simp only [hoff, if_false] at h ⊢
        exact h

/-- The inner loop ends once a call is not interrupted. -/
theorem writeRetry_ends (write : Nat → Nat → WriteResult) (off count : Nat) (j : Nat) :
    ∀ k, write (k + j) count ≠ WriteResult.EINTR →
    ∃ fuel x, writeRetry write off count fuel k = some x := by
  induction j with
  | zero =>
      intro k h
      refine ⟨1, (write k count, [⟨off, count, write k count⟩]), ?_⟩
      rw [writeRetry]
      cases hw : write k count with
      | EINTR => exact absurd hw h
      | written n => rfl
      | error e => rfl
  | succ j ih =>
      intro k h
      cases hw : write k count with
      | EINTR =>
          obtain ⟨fuel, x, hx⟩ := ih (k + 1) (by rw [Nat.add_assoc, Nat.add_comm 1 j]; exact h)
          refine ⟨fuel + 1, (x.1, ⟨off, count, WriteResult.EINTR⟩ :: x.2), ?_⟩
          rw [writeRetry, hw]
          simp only [hx]
      | written n =>
          refine ⟨1, (WriteResult.written n, [⟨off, count, WriteResult.written n⟩]), ?_⟩
          rw [writeRetry, hw]
      | error e =>
          refine ⟨1, (WriteResult.error e, [⟨off, count, WriteResult.error e⟩]), ?_⟩
          rw [writeRetry, hw]

/-- The outer loop ends when every successful call writes at least one byte
and no call is followed by interrupted calls for ever. -/
theorem writeLoop_ends (write : Nat → Nat → WriteResult) (len : Nat)
    (hpos : ∀ k c n, write k c = WriteResult.written n → 1 ≤ n)
    (hfin : ∀ k c, ∃ j, write (k + j) c ≠ WriteResult.EINTR) (m : Nat) :
    ∀ off k, len - off ≤ m → ∃ fuel x, writeLoop write len fuel off k = some x := by
  induction m with
  | zero =>
      intro off k h
      refine ⟨1, (off, []), ?_⟩
      rw [writeLoop]
      simp only [show ¬ off < len by omega, if_false]
  | succ m ih =>
      intro off k h
      by_cases hoff : off < len
      · obtain ⟨j, hj⟩ := hfin k (len - off)
        obtain ⟨f1, x, hx⟩ := writeRetry_ends write off (len - off) j k hj
        obtain ⟨r, cs1⟩ := x
        obtain ⟨e1, e2, -, -⟩ := writeRetry_log write len off hoff f1 k r cs1 hx
        cases r with
        | EINTR => exact absurd rfl e2
        | error e =>
            refine ⟨f1 + 1, (off, cs1), ?_⟩
            rw [writeLoop]
            simp only [hoff, if_true]
            rw [writeRetry_mono write off (len - off) f1 k _ (f1 + 1) hx (by omega)]
        | written n =>
            have hn := hpos _ _ _ e1.symm
            obtain ⟨f2, y, hy⟩ := ih (off + n) (k + cs1.length) (by omega)
            refine ⟨max f1 f2 + 1, (y.1, cs1 ++ y.2), ?_⟩
            rw [writeLoop]
            simp only [hoff, if_true]
            rw [writeRetry_mono write off (len - off) f1 k _ (max f1 f2 + 1) hx
              (by have := Nat.le_max_left f1 f2; omega)]
            simp only
            rw [writeLoop_mono write len f2 _ _ y (max f1 f2) hy (Nat.le_max_right f1 f2)]
      · refine ⟨1, (off, []), ?_⟩
        rw [writeLoop]
        simp only [hoff, if_false]

/-- Claim C14, as the code has it. `write k c` is the result of the `k`-th
call of `write`, made with count `c`; it never reports more bytes than `c`.
For non-null `data` and `len > 0`:
* when `WriteToOutgoingQueue` returns, the calls it made are a log from call
  0 and offset 0: every call is at the current offset for the bytes left, an
  interrupted call is repeated at the same offset, a successful call advances
  the offset by the count it returned;
* it then has stopped with the offset equal to `len`, no call failed, and the
  bytes sent, in order, are the first `len` bytes of `data`; or it has stopped
  below `len` on a call that failed otherwise, which is the last call;
* it returns whenever every successful call writes at least one byte and no
  call is followed by interrupted calls for ever.
With null data or `len = 0` it returns at once and makes no call. -/
theorem C14_write_to_outgoing_queue (write : Nat → Nat → WriteResult) (data : List Nat)
    (len : Nat) (hlen : 0 < len)
    (hw : ∀ k c n, write k c = WriteResult.written n → n ≤ c) :
    (∀ fuel last cs, WriteToOutgoingQueue write (some data) len fuel = some (last, cs) →
      WriteLog write len 0 0 cs last
      ∧ ((last = len ∧ (∀ c ∈ cs, ∀ e, c.result ≠ WriteResult.error e)
            ∧ (cs.map (WriteCall.sent data)).flatten = data.take len)
          ∨ (last < len ∧ ∃ init c e, cs = init ++ [c] ∧ c.result = WriteResult.error e
              ∧ ∀ c1 ∈ init, ∀ e1, c1.result ≠ WriteResult.error e1)))
    ∧ ((∀ k c n, write k c = WriteResult.written n → 1 ≤ n) →
        (∀ k c, ∃ j, write (k + j) c ≠ WriteResult.EINTR) →
        ∃ fuel last cs, WriteToOutgoingQueue write (some data) len fuel = some (last, cs))
    ∧ (∀ fuel, WriteToOutgoingQueue write none len fuel = some (0, [])
        ∧ WriteToOutgoingQueue write (some data) 0 fuel = some (0, [])) := by
  have hne : (len == 0) = false := by simpa using Nat.pos_iff_ne_zero.mp hlen
  refine ⟨?_, ?_, ?_⟩
  · intro fuel last cs h
    simp only [WriteToOutgoingQueue, Option.isNone_some, hne, Bool.or_self, Bool.false_eq_true,
      if_false] at h
    have hl := writeLoop_log write len fuel 0 0 last cs h
    refine ⟨hl, ?_⟩
    obtain ⟨-, h2, h3⟩ := WriteLog_sent write len data hw hl
    rcases WriteLog_end write len hl with ⟨h4, h5⟩ | h4
    · have : last = len := Nat.le_antisymm (h2 (Nat.zero_le _)) h4
      refine Or.inl ⟨this, h5, ?_⟩
      rw [h3, this, List.drop_zero]
    · exact Or.inr h4
  · intro hpos hfin
    obtain ⟨fuel, x, hx⟩ := writeLoop_ends write len hpos hfin len 0 0 (by omega)
    refine ⟨fuel, x.1, x.2, ?_⟩
    simp only [WriteToOutgoingQueue, Option.isNone_some, hne, Bool.or_self, Bool.false_eq_true,
      if_false]
    exact hx
  · intro fuel
    exact ⟨rfl, rfl⟩

/-- Witness for C14: three bytes; the first call is interrupted, the second
writes one byte, the third the two bytes left. -/
theorem C14_write_to_outgoing_queue_witness :
    WriteLog (fun k c => if k = 0 then WriteResult.EINTR else if k = 1 then WriteResult.written (min 1 c)
        else WriteResult.written c) 3 0 0
      [⟨0, 3, WriteResult.EINTR⟩, ⟨0, 3, WriteResult.written 1⟩, ⟨1, 2, WriteResult.written 2⟩] 3
    ∧ ((3 = 3
        ∧ (∀ c ∈ ([⟨0, 3, WriteResult.EINTR⟩, ⟨0, 3, WriteResult.written 1⟩,
              ⟨1, 2, WriteResult.written 2⟩] : List WriteCall),
            ∀ e, c.result ≠ WriteResult.error e)
        ∧ (([⟨0, 3, WriteResult.EINTR⟩, ⟨0, 3, WriteResult.written 1⟩,
              ⟨1, 2, WriteResult.written 2⟩] : List WriteCall).map
            (WriteCall.sent [10, 20, 30])).flatten = [10, 20, 30].take 3)
      ∨ (3 < 3 ∧ ∃ init c e,
          ([⟨0, 3, WriteResult.EINTR⟩, ⟨0, 3, WriteResult.written 1⟩,
              ⟨1, 2, WriteResult.written 2⟩] : List WriteCall) = init ++ [c]
          ∧ c.result = WriteResult.error e
          ∧ ∀ c1 ∈ init, ∀ e1, c1.result ≠ WriteResult.error e1)) :=
  (C14_write_to_outgoing_queue
    (fun k c => if k = 0 then WriteResult.EINTR else if k = 1 then WriteResult.written (min 1 c)
      else WriteResult.written c) [10, 20, 30] 3 (by decide)
    (by
      intro k c n h
      by_cases h0 : k = 0
      · simp [h0] at h
      · by_cases h1 : k = 1
        · simp [h1] at h
          omega
        · simp [h0, h1] at h
          omega)).1 5 3 _ rfl

/-- Counterexample to C14 as stated: every call of `write` is interrupted.
Every successful call writes at least one byte (there is none), and
`WriteToOutgoingQueue` never returns. -/
theorem C14_counterexample_always_interrupted :
    (∀ k c n : Nat, (fun _ _ => WriteResult.EINTR : Nat → Nat → WriteResult) k c
        = WriteResult.written n → 1 ≤ n)
    ∧ ∀ fuel, WriteToOutgoingQueue (fun _ _ => WriteResult.EINTR) (some [10]) 1 fuel = none := by
  have hr : ∀ fuel k, writeRetry (fun _ _ => WriteResult.EINTR) 0 1 fuel k = none := by
    intro fuel
    induction fuel with
    | zero => intro k; rfl
    | succ fuel ih =>
        intro k
        rw [writeRetry]
        simp only [ih]
  refine ⟨fun _ _ _ h => by simp at h, ?_⟩
  intro fuel
  cases fuel with
  | zero => rfl
  | succ fuel =>
      simp only [WriteToOutgoingQueue, Option.isNone_some, Bool.or_self, Bool.false_eq_true,
        if_false, Nat.reduceBEq]
      rw [writeLoop]
      simp only [Nat.lt_one_iff, if_true, Nat.sub_zero, hr]

/-! ## NfcIpcSocket.cpp: the read loop -/

theorem frameLength_be32 (n : Nat) (hn : n < 2 ^ 32) (rest : List Nat) :
    frameLength (be32 n ++ rest) = some n := by
  simp only [be32, frameLength, List.cons_append, List.nil_append, Option.some.injEq]
  omega

/-- While a part of the frame is still to come, the buffer hands nothing
back. -/
theorem bufferedRecord_partial (payload buffer more : List Nat)
    (hpos : 0 < payload.length) (hmax : payload.length ≤ MAX_COMMAND_BYTES)
    (h : buffer ++ more = frame payload) (hmore : more ≠ []) :
    bufferedRecord MAX_COMMAND_BYTES buffer = none := by
  have hlt : payload.length < 2 ^ 32 := by
    have : MAX_COMMAND_BYTES = 8192 := rfl
    omega
  have hlen : buffer.length + more.length = 4 + payload.length := by
    have := congrArg List.length h
    simp [frame, be32] at this
    omega
  have hm : 0 < more.length := List.length_pos.mpr hmore
  rcases buffer with _ | ⟨b0, _ | ⟨b1, _ | ⟨b2, _ | ⟨b3, tail⟩⟩⟩⟩
  · rfl
  · rfl
  · rfl
  · rfl
  · have hf : frameLength (b0 :: b1 :: b2 :: b3 :: tail) = some payload.length := by
      have h2 := frameLength_be32 payload.length hlt payload
      have h3 : b0 :: b1 :: b2 :: b3 :: (tail ++ more) = be32 payload.length ++ payload := h
      simp only [be32, List.cons_append, List.nil_append, List.cons.injEq] at h3
      obtain ⟨e0, e1, e2, e3, -⟩ := h3
      simp only [be32, frameLength, List.cons_append, List.nil_append] at h2 ⊢
      rw [e0, e1, e2, e3]
      exact h2
    simp only [bufferedRecord, hf]
    simp only [List.length_cons] at hlen
    have h1 : ¬ payload.length = 0 := by omega
    have h2 : ¬ MAX_COMMAND_BYTES < payload.length := by omega
    have h3 : ¬ 4 + payload.length ≤ (b0 :: b1 :: b2 :: b3 :: tail).length := by
      simp only [List.length_cons]
      omega
    simp only [h1, h2, h3, if_false]

/-- Once the whole frame is buffered, it is handed back. -/
theorem bufferedRecord_frame (payload : List Nat)
    (hpos : 0 < payload.length) (hmax : payload.length ≤ MAX_COMMAND_BYTES) :
    bufferedRecord MAX_COMMAND_BYTES (frame payload)
      = some (⟨0, some payload, payload.length⟩, []) := by
  have hlt : payload.length < 2 ^ 32 := by
    have : MAX_COMMAND_BYTES = 8192 := rfl
    omega
  have hf := frameLength_be32 payload.length hlt payload
  have h1 : ¬ payload.length = 0 := by omega
  have h2 : ¬ MAX_COMMAND_BYTES < payload.length := by omega
  have h3 : 4 + payload.length ≤ (frame payload).length := by
    simp [frame, be32]
    omega
  have h4 : (frame payload).drop 4 = payload := by simp [frame, be32]
  have h5 : (frame payload).drop (4 + payload.length) = [] := by
    rw [← List.drop_drop, h4, List.drop_length]
  simp only [bufferedRecord, frame] at hf ⊢
  rw [hf]
  simp only [frame] at h3 h4 h5
  simp only [h1, h2, h3, if_false, if_true, h4, h5, List.take_length]

/-- Fed the frame in non-empty chunks, `record_stream_get_next` reads all of
them and hands the payload back. -/
theorem record_stream_get_next_frame (payload : List Nat)
    (hpos : 0 < payload.length) (hmax : payload.length ≤ MAX_COMMAND_BYTES)
    (tail : List (List Nat)) :
    ∀ (reads : List (List Nat)) (buffer : List Nat), (∀ c ∈ reads, c ≠ []) →
      buffer ++ reads.flatten = frame payload →
      record_stream_get_next MAX_COMMAND_BYTES buffer (reads ++ tail)
        = some (⟨0, some payload, payload.length⟩, [], tail) := by
  intro reads
  induction reads with
  | nil =>
      intro buffer _ h
      simp only [List.flatten_nil, List.append_nil] at h
      subst h
      cases tail with
      | nil => simp only [List.append_nil, record_stream_get_next,
          bufferedRecord_frame payload hpos hmax]
      | cons c r => simp only [List.nil_append, record_stream_get_next,
          bufferedRecord_frame payload hpos hmax]
  | cons c rest ih =>
      intro buffer hne h
      have hc : c ≠ [] := hne c (List.mem_cons_self _ _)
      have hmore : c ++ rest.flatten ≠ [] := by simp [hc]
      have hb := bufferedRecord_partial payload buffer (c ++ rest.flatten) hpos hmax
        (by simpa using h) hmore
      simp only [List.cons_append, record_stream_get_next, hb, hc, if_false]
      exact ih (buffer ++ c) (fun x hx => hne x (List.mem_cons_of_mem _ hx))
        (by simpa using h)

/-- Claim C15, as the code has it, for the record stream the spec describes.
For every payload of length `L` with `0 < L ≤ MAX_COMMAND_BYTES`, the frame
`[4-byte big-endian L][payload]` fed to the read loop in reads of arbitrary,
non-zero sizes results in exactly one call of `ProcessRequest`, with the
bytes of the payload; the loop then waits for more, and when the peer then
closes (a read that returns 0) the connection is closed without another
call. -/
theorem C15_framing_round_trip (payload : List Nat) (chunks : List (List Nat))
    (hpos : 0 < payload.length) (hmax : payload.length ≤ MAX_COMMAND_BYTES)
    (hne : ∀ c ∈ chunks, c ≠ []) (hfl : chunks.flatten = frame payload) (fuel : Nat) :
    Loop_connected (fuel + 2) [] chunks = some ([payload], LoopEnd.waiting)
    ∧ Loop_connected (fuel + 2) [] (chunks ++ [[]]) = some ([payload], LoopEnd.closed) := by
  have hch : chunks ≠ [] := by
    intro h
    rw [h] at hfl
    simp [frame, be32] at hfl
  have h1 := record_stream_get_next_frame payload hpos hmax [] chunks [] hne (by simpa using hfl)
  have h2 := record_stream_get_next_frame payload hpos hmax [[]] chunks [] hne
    (by simpa using hfl)
  have hw : WriteToIncomingQueue (some payload) payload.length = [payload] := by
    simp [WriteToIncomingQueue, hpos]
  constructor
  · rw [List.append_nil] at h1
    rw [Loop_connected]
    simp only [hch, if_false, h1, Option.isNone_some, Bool.and_false, Bool.false_eq_true,
      Int.lt_irrefl, hw]
    rw [Loop_connected]
    simp
  · rw [Loop_connected]
    have hch2 : chunks ++ [[]] ≠ [] := by simp
    simp only [hch2, if_false, h2, Option.isNone_some, Bool.and_false, Bool.false_eq_true,
      Int.lt_irrefl, hw]
    rw [Loop_connected]
    simp [record_stream_get_next, bufferedRecord, frameLength]

/-- Witness for C15: the payload `[7, 8, 9]` in three reads that cut the
length and the payload. -/
theorem C15_framing_round_trip_witness :
    Loop_connected 2 [] [[0, 0], [0, 3, 7], [8, 9]] = some ([[7, 8, 9]], LoopEnd.waiting)
    ∧ Loop_connected 2 [] ([[0, 0], [0, 3, 7], [8, 9]] ++ [[]])
        = some ([[7, 8, 9]], LoopEnd.closed) :=
  C15_framing_round_trip [7, 8, 9] [[0, 0], [0, 3, 7], [8, 9]] (by decide) (by decide)
    (by decide) (by decide) 0

/-- A frame longer than `MAX_COMMAND_BYTES` closes the connection without a
call of `ProcessRequest`. -/
theorem Loop_connected_overlong (payload : List Nat) (hlong : MAX_COMMAND_BYTES < payload.length)
    (hlt : payload.length < 2 ^ 32) :
    Loop_connected 2 [] [frame payload] = some ([], LoopEnd.closed) := by
  have hf : frameLength (frame payload) = some payload.length :=
    frameLength_be32 payload.length hlt payload
  have h0 : ¬ payload.length = 0 := by omega
  have hb : bufferedRecord MAX_COMMAND_BYTES (frame payload)
      = some (⟨-1, none, 0⟩, frame payload) := by
    simp only [bufferedRecord, hf, h0, hlong, if_false, if_true]
  have hn : frame payload ≠ [] := by
    simp [frame, be32]
  have hg : record_stream_get_next MAX_COMMAND_BYTES [] [frame payload]
      = some (⟨-1, none, 0⟩, frame payload, []) := by
    have he : bufferedRecord MAX_COMMAND_BYTES [] = none := rfl
    simp only [record_stream_get_next, he, hn, if_false, List.nil_append, hb]
  rw [Loop_connected]
  simp only [List.cons_ne_nil, if_false, hg]
  rfl

/-- Counterexample to C15 as stated: the frame of the empty payload
(`L = 0`) results in no call of `ProcessRequest`; nor does the frame of a
payload of `MAX_COMMAND_BYTES + 1` bytes. -/
theorem C15_counterexample_empty_payload :
    Loop_connected 2 [] [frame []] = some ([], LoopEnd.closed)
    ∧ WriteToIncomingQueue (some []) 0 = []
    ∧ Loop_connected 2 [] [frame (List.replicate (MAX_COMMAND_BYTES + 1) 0)]
        = some ([], LoopEnd.closed) :=
  ⟨rfl, rfl, Loop_connected_overlong _ (by rw [List.length_replicate]; exact Nat.lt_succ_self _)
    (by rw [List.length_replicate]; decide)⟩

/-! ## LlcpServiceSocket.cpp -/

/-- Claim C16. `LlcpServiceSocket::accept` takes a new handle from
`PeerToPeer::getNewHandle` and hands it, with its own handle, to
`PeerToPeer::accept`. When that succeeds it returns a client socket made for
the new handle, which differs from the service socket's own handle when the
allocator never returns a handle in use and the own handle is in use; when it
fails it returns null. In both cases the service socket, its handle included,
is as before. -/
theorem C16_accept_new_handle {σ : Type} (p2p : PeerToPeer σ) (inUse : σ → Nat → Bool)
    (self : LlcpServiceSocket) (s : σ)
    (hfresh : ∀ s h, inUse s h = true → (p2p.getNewHandle s).1 ≠ h)
    (hown : inUse s self.mHandle = true) :
    (self.accept p2p s).2.1 = self
    ∧ (self.accept p2p s).2.2
        = (p2p.accept self.mHandle (p2p.getNewHandle s).1 self.mLocalMiu self.mLocalRw
            (p2p.getNewHandle s).2).2
    ∧ ((p2p.accept self.mHandle (p2p.getNewHandle s).1 self.mLocalMiu self.mLocalRw
          (p2p.getNewHandle s).2).1 = true →
        (self.accept p2p s).1
            = some ⟨(p2p.getNewHandle s).1, self.mLocalMiu, self.mLocalRw⟩
          ∧ (p2p.getNewHandle s).1 ≠ self.mHandle)
    ∧ ((p2p.accept self.mHandle (p2p.getNewHandle s).1 self.mLocalMiu self.mLocalRw
          (p2p.getNewHandle s).2).1 = false →
        (self.accept p2p s).1 = none) := by
  cases hst : (p2p.accept self.mHandle (p2p.getNewHandle s).1 self.mLocalMiu self.mLocalRw
      (p2p.getNewHandle s).2).1 <;>
    simp [LlcpServiceSocket.accept, hst, hfresh s self.mHandle hown]

/-- Witness for C16: handles are given out in increasing order, the handles
in use are those given out so far, and the peer-to-peer accept succeeds. -/
theorem C16_accept_new_handle_witness :
    (LlcpServiceSocket.accept ⟨1, 128, 128, 1⟩
        (⟨fun n => (n + 1, n + 1), fun _ _ _ _ n => (true, n)⟩ : PeerToPeer Nat) 1).1
      = some ⟨2, 128, 1⟩
    ∧ (2 : Nat) ≠ 1 :=
  (C16_accept_new_handle (⟨fun n => (n + 1, n + 1), fun _ _ _ _ n => (true, n)⟩ : PeerToPeer Nat)
    (fun n h => decide (h ≤ n)) ⟨1, 128, 128, 1⟩ 1
    (by intro s h hh; simp at hh; simp; omega) (by decide)).2.2.1 rfl

/-! ## The activation and field callbacks -/

/-- Claim C17. `NFA_ACTIVATED_EVT` always returns. Handled while the session
is enabled, not disabling and not selecting an RF interface:
* for protocol NFC-DEP, whatever the mode, it sets `sP2pActive`, leaves every
  other flag alone, and does `SetActivationState`, `DoResetPresenceCheck`,
  `NFA_SetConfig(RF_FIELD_INFO, [0])` and `NotifyRfFieldEvent(true)`;
* for another protocol, when the interop layer is not busy and the mode is one
  of the seven listen modes, it sets `sSeRfActive`, leaves every other flag
  alone, and ends with `NotifyListenModeState(true)`;
* for another protocol, when the interop layer is busy or the mode is no
  listen mode, it writes no flag and notifies the secure element of nothing.
Handled while the session is disabling or not enabled, it does nothing at
all. -/
theorem C17_activation_flags (protocol : Protocol) (mode : RfMode) (w : World) :
    (NfaConnectionCallback (ConnEvt.ACTIVATED protocol mode) w).value = some ()
    ∧ (IsListenMode mode = true ↔
        mode ∈ [RfMode.LISTEN_A, RfMode.LISTEN_B, RfMode.LISTEN_F, RfMode.LISTEN_A_ACTIVE,
          RfMode.LISTEN_F_ACTIVE, RfMode.LISTEN_ISO15693, RfMode.LISTEN_B_PRIME])
    ∧ (w.flags.sIsNfaEnabled = true → w.flags.sIsDisabling = false →
        w.answer Query.gIsSelectingRfInterface (w.asked Query.gIsSelectingRfInterface) = 0 →
        (protocol = Protocol.NFC_DEP →
          (NfaConnectionCallback (ConnEvt.ACTIVATED protocol mode) w).world.flags
              = { w.flags with sP2pActive := true }
            ∧ w.since (NfaConnectionCallback (ConnEvt.ACTIVATED protocol mode) w).world
              = [Effect.call Collab.NfcTag_SetActivationState,
                 Effect.call Collab.TagManager_DoResetPresenceCheck,
                 Effect.nfa (NfaCmd.NFA_SetConfig NciParam.RF_FIELD_INFO [0x00])
                   (w.status w.issued),
                 Effect.SE_NotifyRfFieldEvent true])
        ∧ (protocol ≠ Protocol.NFC_DEP →
            w.answer Query.Pn544InteropIsBusy (w.asked Query.Pn544InteropIsBusy) = 0 →
            IsListenMode mode = true →
            (NfaConnectionCallback (ConnEvt.ACTIVATED protocol mode) w).world.flags
                = { w.flags with sSeRfActive := true }
              ∧ w.since (NfaConnectionCallback (ConnEvt.ACTIVATED protocol mode) w).world
                = [Effect.call Collab.NfcTag_SetActivationState,
                   Effect.call Collab.TagManager_DoResetPresenceCheck,
                   Effect.call Collab.Pn544InteropIsBusy,
                   Effect.call Collab.NfcTag_ConnectionEventHandler,
                   Effect.SE_NotifyListenModeState true])
        ∧ (protocol ≠ Protocol.NFC_DEP →
            (w.answer Query.Pn544InteropIsBusy (w.asked Query.Pn544InteropIsBusy) ≠ 0
              ∨ IsListenMode mode = false) →
            (NfaConnectionCallback (ConnEvt.ACTIVATED protocol mode) w).world.flags = w.flags
              ∧ ∀ e ∈ w.since (NfaConnectionCallback (ConnEvt.ACTIVATED protocol mode) w).world,
                  ∀ b, e ≠ Effect.SE_NotifyListenModeState b ∧ e ≠ Effect.SE_NotifyRfFieldEvent b))
    ∧ ((w.flags.sIsDisabling = true ∨ w.flags.sIsNfaEnabled = false) →
        NfaConnectionCallback (ConnEvt.ACTIVATED protocol mode) w = Outcome.ret () w) := by
  refine ⟨?_, ?_, ?_, ?_⟩
  · obtain ⟨a, w1, h⟩ := NfaConnectionCallback_total (ConnEvt.ACTIVATED protocol mode) w
    rw [h]
    rfl
  · cases mode <;> simp [IsListenMode]
  · intro hen hdis hsel
    refine ⟨?_, ?_, ?_⟩
    · intro hp
      subst hp
      constructor <;>
        simp [NfaConnectionCallback, Op_bind_apply, Op_pure_apply, getFlags, call, log, askBool,
          setFlags, nfa, Outcome.world, World.since, IsPeerToPeer, hdis, hen, hsel]
    · intro hp hbusy hl
      have hp2 : IsPeerToPeer protocol = false := by
        cases protocol <;> simp_all [IsPeerToPeer]
      constructor <;>
        simp [NfaConnectionCallback, Op_bind_apply, Op_pure_apply, getFlags, call, log, askBool,
          setFlags, nfa, Outcome.world, World.since, hdis, hen, hsel, hp2, hbusy, hl]
    · intro hp hor
      have hp2 : IsPeerToPeer protocol = false := by
        cases protocol <;> simp_all [IsPeerToPeer]
      rcases hor with hbusy | hl
      · constructor
        · cases hl : IsListenMode mode <;>
            simp [NfaConnectionCallback, Op_bind_apply, Op_pure_apply, getFlags, call, log,
              askBool, setFlags, nfa, Outcome.world, World.since, hdis, hen, hsel, hp2, hbusy, hl]
        · cases hl : IsListenMode mode <;>
            simp [NfaConnectionCallback, Op_bind_apply, Op_pure_apply, getFlags, call, log,
              askBool, setFlags, nfa, Outcome.world, World.since, hdis, hen, hsel, hp2, hbusy, hl]
      · constructor
        · by_cases hbusy : w.answer Query.Pn544InteropIsBusy
              (w.asked Query.Pn544InteropIsBusy) = 0 <;>
            simp [NfaConnectionCallback, Op_bind_apply, Op_pure_apply, getFlags, call, log,
              askBool, setFlags, nfa, Outcome.world, World.since, hdis, hen, hsel, hp2, hbusy, hl]
        · by_cases hbusy : w.answer Query.Pn544InteropIsBusy
              (w.asked Query.Pn544InteropIsBusy) = 0 <;>
            simp [NfaConnectionCallback, Op_bind_apply, Op_pure_apply, getFlags, call, log,
              askBool, setFlags, nfa, Outcome.world, World.since, hdis, hen, hsel, hp2, hbusy, hl]
  · intro hor
    rcases hor with hdis | hen
    · simp [NfaConnectionCallback, Op_bind_apply, Op_pure_apply, getFlags, hdis]
    · simp [NfaConnectionCallback, Op_bind_apply, Op_pure_apply, getFlags, hen]

/-- Witness for C17: a P2P activation in a fresh enabled session, and a
listen-mode activation in the same. -/
theorem C17_activation_flags_witness :
    ((NfaConnectionCallback (ConnEvt.ACTIVATED Protocol.NFC_DEP RfMode.LISTEN_A)
        { World.idle with flags := Session.enabled }).world.flags
        = { Session.enabled with sP2pActive := true }
      ∧ World.since { World.idle with flags := Session.enabled }
          (NfaConnectionCallback (ConnEvt.ACTIVATED Protocol.NFC_DEP RfMode.LISTEN_A)
            { World.idle with flags := Session.enabled }).world
        = [Effect.call Collab.NfcTag_SetActivationState,
           Effect.call Collab.TagManager_DoResetPresenceCheck,
           Effect.nfa (NfaCmd.NFA_SetConfig NciParam.RF_FIELD_INFO [0x00]) NFA_STATUS_OK,
           Effect.SE_NotifyRfFieldEvent true])
    ∧ ((NfaConnectionCallback (ConnEvt.ACTIVATED (Protocol.other 4) RfMode.LISTEN_A)
        { World.idle with flags := Session.enabled }).world.flags
        = { Session.enabled with sSeRfActive := true }
      ∧ World.since { World.idle with flags := Session.enabled }
          (NfaConnectionCallback (ConnEvt.ACTIVATED (Protocol.other 4) RfMode.LISTEN_A)
            { World.idle with flags := Session.enabled }).world
        = [Effect.call Collab.NfcTag_SetActivationState,
           Effect.call Collab.TagManager_DoResetPresenceCheck,
           Effect.call Collab.Pn544InteropIsBusy,
           Effect.call Collab.NfcTag_ConnectionEventHandler,
           Effect.SE_NotifyListenModeState true]) :=
  ⟨((C17_activation_flags Protocol.NFC_DEP RfMode.LISTEN_A
      { World.idle with flags := Session.enabled }).2.2.1 rfl rfl rfl).1 rfl,
   ((C17_activation_flags (Protocol.other 4) RfMode.LISTEN_A
      { World.idle with flags := Session.enabled }).2.2.1 rfl rfl rfl).2.1
      (by decide) rfl rfl⟩

/-- Claim C18. `NFA_DM_RF_FIELD_EVT` always returns and changes nothing but
the trace: it calls `NotifyRfFieldEvent` if and only if the session is
enabled, not disabling, `sP2pActive` is false and the status of the event is
OK, and the value handed over is true exactly when the field status is ON; it
does nothing else, so no flag changes and nothing is forwarded while
`sP2pActive` is true. -/
theorem C18_rf_field_forwarding (status rf_field_status : Nat) (w : World) :
    NfaDeviceManagementCallback (DmEvt.RF_FIELD status rf_field_status) w
      = Outcome.ret ()
          { w with trace := w.trace ++
              (if w.flags.sIsNfaEnabled = true ∧ w.flags.sIsDisabling = false
                  ∧ w.flags.sP2pActive = false ∧ status = NFA_STATUS_OK then
                [Effect.SE_NotifyRfFieldEvent (rf_field_status == NFA_DM_RF_FIELD_ON)]
               else []) }
    ∧ (∀ b, Effect.SE_NotifyRfFieldEvent b
          ∈ w.since (NfaDeviceManagementCallback (DmEvt.RF_FIELD status rf_field_status) w).world
        ↔ ((w.flags.sIsNfaEnabled = true ∧ w.flags.sIsDisabling = false
              ∧ w.flags.sP2pActive = false ∧ status = NFA_STATUS_OK)
            ∧ (b = true ↔ rf_field_status = NFA_DM_RF_FIELD_ON)))
    ∧ (NfaDeviceManagementCallback (DmEvt.RF_FIELD status rf_field_status) w).world.flags
        = w.flags := by
  have h : NfaDeviceManagementCallback (DmEvt.RF_FIELD status rf_field_status) w
      = Outcome.ret ()
          { w with trace := w.trace ++
              (if w.flags.sIsNfaEnabled = true ∧ w.flags.sIsDisabling = false
                  ∧ w.flags.sP2pActive = false ∧ status = NFA_STATUS_OK then
                [Effect.SE_NotifyRfFieldEvent (rf_field_status == NFA_DM_RF_FIELD_ON)]
               else []) } := by
    cases hdis : w.flags.sIsDisabling <;> cases hen : w.flags.sIsNfaEnabled <;>
      cases hp : w.flags.sP2pActive <;> by_cases hst : status = NFA_STATUS_OK <;>
      simp [NfaDeviceManagementCallback, Op_bind_apply, Op_pure_apply, getFlags, log, hdis, hen,
        hp, hst]
  refine ⟨h, ?_, ?_⟩
  · intro b
    rw [h]
    simp only [Outcome.world, World.since, List.drop_left]
    by_cases hc : w.flags.sIsNfaEnabled = true ∧ w.flags.sIsDisabling = false
        ∧ w.flags.sP2pActive = false ∧ status = NFA_STATUS_OK
    · simp only [hc, and_self, if_true, List.mem_singleton, Effect.SE_NotifyRfFieldEvent.injEq,
        true_and]
      by_cases hon : rf_field_status = NFA_DM_RF_FIELD_ON <;> cases b <;> simp [hon]
    · simp [hc]
  · rw [h]
    rfl

/-! ## The deactivation callback -/

/-- What `NFA_DEACTIVATED_EVT` adds to the trace, in full. -/
theorem deactivated_since (type : DeactType) (w : World) :
    w.since (NfaConnectionCallback (ConnEvt.DEACTIVATED type) w).world
      = Effect.NfcTag_SetDeactivationState type ::
        ((if type = DeactType.SLEEP then
            (if w.answer Query.gIsTagDeactivating (w.asked Query.gIsTagDeactivating) = 0 then []
             else [Effect.TagManager_DoDeactivateStatus 0])
          else
            [Effect.call Collab.TagManager_DoResetPresenceCheck,
             Effect.call Collab.NfcTag_ConnectionEventHandler,
             Effect.call Collab.TagManager_DoAbortWaits,
             Effect.call Collab.NfcTag_Abort])
         ++ (if type = DeactType.IDLE ∨ type = DeactType.DISCOVERY then
              (if w.flags.sSeRfActive = true then
                (if w.flags.sIsDisabling = false ∧ w.flags.sIsNfaEnabled = true then
                  [Effect.SE_NotifyListenModeState false] else [])
               else if w.flags.sP2pActive = true then
                (if w.flags.sIsDisabling = false ∧ w.flags.sIsNfaEnabled = true then
                  [Effect.nfa (NfaCmd.NFA_SetConfig NciParam.RF_FIELD_INFO [0x01])
                     (w.status w.issued),
                   Effect.SE_NotifyRfFieldEvent false] else [])
               else [])
             else [])) := by
  cases type with
  | IDLE =>
      cases hse : w.flags.sSeRfActive <;> cases hp : w.flags.sP2pActive <;>
        cases hdis : w.flags.sIsDisabling <;> cases hen : w.flags.sIsNfaEnabled <;>
        simp [NfaConnectionCallback, Op_bind_apply, Op_pure_apply, getFlags, call, log, askBool,
          setFlags, nfa, Outcome.world, World.since, hse, hp, hdis, hen]
  | DISCOVERY =>
      cases hse : w.flags.sSeRfActive <;> cases hp : w.flags.sP2pActive <;>
        cases hdis : w.flags.sIsDisabling <;> cases hen : w.flags.sIsNfaEnabled <;>
        simp [NfaConnectionCallback, Op_bind_apply, Op_pure_apply, getFlags, call, log, askBool,
          setFlags, nfa, Outcome.world, World.since, hse, hp, hdis, hen]
  | SLEEP =>
      by_cases hq : w.answer Query.gIsTagDeactivating (w.asked Query.gIsTagDeactivating) = 0 <;>
        simp [NfaConnectionCallback, Op_bind_apply, Op_pure_apply, getFlags, call, log, askBool,
          setFlags, nfa, Outcome.world, World.since, hq]
  | SLEEP_AF =>
      simp [NfaConnectionCallback, Op_bind_apply, Op_pure_apply, getFlags, call, log, askBool,
        setFlags, nfa, Outcome.world, World.since]
  | other code =>
      simp [NfaConnectionCallback, Op_bind_apply, Op_pure_apply, getFlags, call, log, askBool,
        setFlags, nfa, Outcome.world, World.since]

/-- What `NFA_DEACTIVATED_EVT` does to the flags, in full. -/
theorem deactivated_flags (type : DeactType) (w : World) :
    (NfaConnectionCallback (ConnEvt.DEACTIVATED type) w).world.flags
      = if type = DeactType.IDLE ∨ type = DeactType.DISCOVERY then
          (if w.flags.sSeRfActive = true then { w.flags with sSeRfActive := false }
           else if w.flags.sP2pActive = true then { w.flags with sP2pActive := false }
           else w.flags)
        else w.flags := by
  cases type with
  | IDLE =>
      cases hse : w.flags.sSeRfActive <;> cases hp : w.flags.sP2pActive <;>
        cases hdis : w.flags.sIsDisabling <;> cases hen : w.flags.sIsNfaEnabled <;>
        simp [NfaConnectionCallback, Op_bind_apply, Op_pure_apply, getFlags, call, log, askBool,
          setFlags, nfa, Outcome.world, hse, hp, hdis, hen]
  | DISCOVERY =>
      cases hse : w.flags.sSeRfActive <;> cases hp : w.flags.sP2pActive <;>
        cases hdis : w.flags.sIsDisabling <;> cases hen : w.flags.sIsNfaEnabled <;>
        simp [NfaConnectionCallback, Op_bind_apply, Op_pure_apply, getFlags, call, log, askBool,
          setFlags, nfa, Outcome.world, hse, hp, hdis, hen]
  | SLEEP =>
      by_cases hq : w.answer Query.gIsTagDeactivating (w.asked Query.gIsTagDeactivating) = 0 <;>
        simp [NfaConnectionCallback, Op_bind_apply, Op_pure_apply, getFlags, call, log, askBool,
          setFlags, nfa, Outcome.world, hq]
  | SLEEP_AF =>
      simp [NfaConnectionCallback, Op_bind_apply, Op_pure_apply, getFlags, call, log, askBool,
        setFlags, nfa, Outcome.world]
  | other code =>
      simp [NfaConnectionCallback, Op_bind_apply, Op_pure_apply, getFlags, call, log, askBool,
        setFlags, nfa, Outcome.world]

/-- Claim C19, as the code has it. `NFA_DEACTIVATED_EVT` always returns. With
type IDLE or DISCOVERY, from every session state:
* when `sSeRfActive` is set it is cleared, every other flag, `sP2pActive`
  included, stays as it was, and no `NFA_SetConfig` is issued;
* when `sSeRfActive` is not set and `sP2pActive` is, `sP2pActive` is cleared
  and every other flag stays as it was; RF field events are re-enabled
  (`NFA_SetConfig(RF_FIELD_INFO, [1])`, then `NotifyRfFieldEvent(false)`) when
  the session is enabled and not disabling, and nothing is issued otherwise;
* when neither is set no flag changes.
With any other type no flag changes. -/
theorem C19_deactivation_flags (type : DeactType) (w : World) :
    (NfaConnectionCallback (ConnEvt.DEACTIVATED type) w).value = some ()
    ∧ ((type = DeactType.IDLE ∨ type = DeactType.DISCOVERY) →
        (w.flags.sSeRfActive = true →
          (NfaConnectionCallback (ConnEvt.DEACTIVATED type) w).world.flags
              = { w.flags with sSeRfActive := false }
            ∧ ∀ e ∈ w.since (NfaConnectionCallback (ConnEvt.DEACTIVATED type) w).world,
                e.isRadioCommand = false)
        ∧ (w.flags.sSeRfActive = false → w.flags.sP2pActive = true →
            (NfaConnectionCallback (ConnEvt.DEACTIVATED type) w).world.flags
                = { w.flags with sP2pActive := false }
              ∧ (w.flags.sIsDisabling = false → w.flags.sIsNfaEnabled = true →
                  w.since (NfaConnectionCallback (ConnEvt.DEACTIVATED type) w).world
                    = [Effect.NfcTag_SetDeactivationState type,
                       Effect.call Collab.TagManager_DoResetPresenceCheck,
                       Effect.call Collab.NfcTag_ConnectionEventHandler,
                       Effect.call Collab.TagManager_DoAbortWaits,
                       Effect.call Collab.NfcTag_Abort,
                       Effect.nfa (NfaCmd.NFA_SetConfig NciParam.RF_FIELD_INFO [0x01])
                         (w.status w.issued),
                       Effect.SE_NotifyRfFieldEvent false])
              ∧ ((w.flags.sIsDisabling = true ∨ w.flags.sIsNfaEnabled = false) →
                  w.since (NfaConnectionCallback (ConnEvt.DEACTIVATED type) w).world
                    = [Effect.NfcTag_SetDeactivationState type,
                       Effect.call Collab.TagManager_DoResetPresenceCheck,
                       Effect.call Collab.NfcTag_ConnectionEventHandler,
                       Effect.call Collab.TagManager_DoAbortWaits,
                       Effect.call Collab.NfcTag_Abort]))
        ∧ (w.flags.sSeRfActive = false → w.flags.sP2pActive = false →
            (NfaConnectionCallback (ConnEvt.DEACTIVATED type) w).world.flags = w.flags))
    ∧ (type ≠ DeactType.IDLE → type ≠ DeactType.DISCOVERY →
        (NfaConnectionCallback (ConnEvt.DEACTIVATED type) w).world.flags = w.flags) := by
  have hf := deactivated_flags type w
  have hs := deactivated_since type w
  refine ⟨?_, ?_, ?_⟩
  · obtain ⟨a, w1, h⟩ := NfaConnectionCallback_total (ConnEvt.DEACTIVATED type) w
    rw [h]
    rfl
  · intro ht
    have hsl : type ≠ DeactType.SLEEP := by
      rcases ht with h | h <;> rw [h] <;> decide
    simp only [ht, if_true] at hf
    simp only [ht, hsl, if_true, if_false] at hs
    refine ⟨?_, ?_, ?_⟩
    · intro hse
      simp only [hse, if_true] at hf hs
      refine ⟨hf, ?_⟩
      intro e he
      rw [hs] at he
      by_cases hlive : w.flags.sIsDisabling = false ∧ w.flags.sIsNfaEnabled = true
      · simp only [hlive, and_self, if_true] at he
        simp only [List.cons_append, List.nil_append, List.mem_cons, List.mem_singleton,
          List.not_mem_nil, or_false] at he
        rcases he with h | h | h | h | h | h <;> rw [h] <;> rfl
      · simp only [hlive, if_false, List.append_nil] at he
        simp only [List.mem_cons, List.mem_singleton, List.not_mem_nil, or_false] at he
        rcases he with h | h | h | h | h <;> rw [h] <;> rfl
    · intro hse hp
      rw [if_neg (by rw [hse]; exact Bool.false_ne_true), if_pos hp] at hf
      simp only [hse, hp, Bool.false_eq_true, if_true, if_false] at hs
      refine ⟨hf, ?_, ?_⟩
      · intro hdis hen
        rw [hs]
        simp [hdis, hen]
      · intro hor
        rw [hs]
        have hlive : ¬ (w.flags.sIsDisabling = false ∧ w.flags.sIsNfaEnabled = true) := by
          rcases hor with h | h <;> simp [h]
        simp [hlive]
    · intro hse hp
      simp only [hse, hp, Bool.false_eq_true, if_false] at hf
      exact hf
  · intro h1 h2
    have ht : ¬ (type = DeactType.IDLE ∨ type = DeactType.DISCOVERY) := by
      intro h
      rcases h with h | h
      · exact h1 h
      · exact h2 h
    simp only [ht, if_false] at hf
    exact hf

/-- Witness for C19: a P2P link released in an enabled session. -/
theorem C19_deactivation_flags_witness :
    (NfaConnectionCallback (ConnEvt.DEACTIVATED DeactType.IDLE)
        { World.idle with flags := { Session.enabled with sP2pActive := true } }).world.flags
      = Session.enabled
    ∧ World.since { World.idle with flags := { Session.enabled with sP2pActive := true } }
        (NfaConnectionCallback (ConnEvt.DEACTIVATED DeactType.IDLE)
          { World.idle with flags := { Session.enabled with sP2pActive := true } }).world
      = [Effect.NfcTag_SetDeactivationState DeactType.IDLE,
         Effect.call Collab.TagManager_DoResetPresenceCheck,
         Effect.call Collab.NfcTag_ConnectionEventHandler,
         Effect.call Collab.TagManager_DoAbortWaits,
         Effect.call Collab.NfcTag_Abort,
         Effect.nfa (NfaCmd.NFA_SetConfig NciParam.RF_FIELD_INFO [0x01]) NFA_STATUS_OK,
         Effect.SE_NotifyRfFieldEvent false] :=
  ⟨(((C19_deactivation_flags DeactType.IDLE
      { World.idle with flags := { Session.enabled with sP2pActive := true } }).2.1
        (Or.inl rfl)).2.1 rfl rfl).1,
   (((C19_deactivation_flags DeactType.IDLE
      { World.idle with flags := { Session.enabled with sP2pActive := true } }).2.1
        (Or.inl rfl)).2.1 rfl rfl).2.1 rfl rfl⟩

/-- Counterexample to C19 as stated. With both flags set, a deactivation to
IDLE clears `sSeRfActive` only: `sP2pActive` stays set and RF field events are
not re-enabled. With `sP2pActive` set in a session that is not enabled, it is
cleared and RF field events are not re-enabled either. -/
theorem C19_counterexample_not_reenabled :
    ((NfaConnectionCallback (ConnEvt.DEACTIVATED DeactType.IDLE)
        { World.idle with
          flags := { Session.enabled with sP2pActive := true, sSeRfActive := true } }).world.flags
      = { Session.enabled with sP2pActive := true }
    ∧ (NfaConnectionCallback (ConnEvt.DEACTIVATED DeactType.IDLE)
        { World.idle with
          flags := { Session.enabled with sP2pActive := true, sSeRfActive := true } }).world.trace
      = [Effect.NfcTag_SetDeactivationState DeactType.IDLE,
         Effect.call Collab.TagManager_DoResetPresenceCheck,
         Effect.call Collab.NfcTag_ConnectionEventHandler,
         Effect.call Collab.TagManager_DoAbortWaits,
         Effect.call Collab.NfcTag_Abort,
         Effect.SE_NotifyListenModeState false])
    ∧ ((NfaConnectionCallback (ConnEvt.DEACTIVATED DeactType.IDLE)
        { World.idle with flags := { Session.init with sP2pActive := true } }).world.flags
      = Session.init
    ∧ (NfaConnectionCallback (ConnEvt.DEACTIVATED DeactType.IDLE)
        { World.idle with flags := { Session.init with sP2pActive := true } }).world.trace
      = [Effect.NfcTag_SetDeactivationState DeactType.IDLE,
         Effect.call Collab.TagManager_DoResetPresenceCheck,
         Effect.call Collab.NfcTag_ConnectionEventHandler,
         Effect.call Collab.TagManager_DoAbortWaits,
         Effect.call Collab.NfcTag_Abort]) :=
  ⟨⟨rfl, rfl⟩, ⟨rfl, rfl⟩⟩

/-- Claim C20. On `NFA_DEACTIVATED_EVT` the abort fence fires if and only if
the type is not SLEEP: for any other type the callback does
`DoResetPresenceCheck`, `ConnectionEventHandler`, `DoAbortWaits` and
`NfcTag::Abort`, in this order, right after `SetDeactivationState`; for SLEEP
it does none of `DoResetPresenceCheck`, `DoAbortWaits` and `NfcTag::Abort`. -/
theorem C20_abort_fence (type : DeactType) (w : World) :
    (Effect.call Collab.TagManager_DoAbortWaits
        ∈ w.since (NfaConnectionCallback (ConnEvt.DEACTIVATED type) w).world
      ↔ type ≠ DeactType.SLEEP)
    ∧ (Effect.call Collab.NfcTag_Abort
        ∈ w.since (NfaConnectionCallback (ConnEvt.DEACTIVATED type) w).world
      ↔ type ≠ DeactType.SLEEP)
    ∧ (Effect.call Collab.TagManager_DoResetPresenceCheck
        ∈ w.since (NfaConnectionCallback (ConnEvt.DEACTIVATED type) w).world
      ↔ type ≠ DeactType.SLEEP)
    ∧ (type ≠ DeactType.SLEEP ↔
        ∃ rest, w.since (NfaConnectionCallback (ConnEvt.DEACTIVATED type) w).world
          = Effect.NfcTag_SetDeactivationState type
            :: Effect.call Collab.TagManager_DoResetPresenceCheck
            :: Effect.call Collab.NfcTag_ConnectionEventHandler
            :: Effect.call Collab.TagManager_DoAbortWaits
            :: Effect.call Collab.NfcTag_Abort :: rest) := by
  have hs := deactivated_since type w
  by_cases hsl : type = DeactType.SLEEP
  · subst hsl
    simp only [if_true, reduceCtorEq, or_self, if_false, List.append_nil] at hs
    rw [hs]
    by_cases hq : w.answer Query.gIsTagDeactivating (w.asked Query.gIsTagDeactivating) = 0 <;>
      simp [hq]
  · simp only [hsl, if_false] at hs
    rw [hs]
    simp [hsl]

/-! ## Secure-element selection -/

theorem Frame_and {R B R1 B1 : World → World → Prop} (F : Frame R B) (G : Frame R1 B1) :
    Frame (fun w w1 => R w w1 ∧ R1 w w1) (fun w w1 => B w w1 ∧ B1 w w1) where
  refl := fun w => ⟨F.refl w, G.refl w⟩
  trans := fun a b c h1 h2 => ⟨F.trans a b c h1.1 h2.1, G.trans a b c h1.2 h2.2⟩
  comp := fun a b c h1 h2 => ⟨F.comp a b c h1.1 h2.1, G.comp a b c h1.2 h2.2⟩
  stuck := fun w => ⟨F.stuck w, G.stuck w⟩
  wait := fun ev w => ⟨F.wait ev w, G.wait ev w⟩
  deliver := fun c rest w w1 hp hd => ⟨F.deliver c rest w w1 hp hd, G.deliver c rest w w1 hp hd⟩

theorem Steps_and {α : Type} {R B R1 B1 : World → World → Prop} {m : Op α}
    (h : Op.Steps R B m) (h1 : Op.Steps R1 B1 m) :
    Op.Steps (fun w w1 => R w w1 ∧ R1 w w1) (fun w w1 => B w w1 ∧ B1 w w1) m := by
  intro w
  have a := h w
  have b := h1 w
  cases hm : m w with
  | ret x w1 => rw [hm] at a b; exact ⟨a, b⟩
  | blocked w1 => rw [hm] at a b; exact ⟨a, b⟩

/-- No callback writes `sIsSecElemSelected`, reads the result of
`SecureElement::Activate`, or changes what the environment answers. -/
theorem NfaDeviceManagementCallback_keepsSelection (e : DmEvt) :
    Op.Steps (fun w w1 => w1.flags.sIsSecElemSelected = w.flags.sIsSecElemSelected
        ∧ w1.asked Query.SE_Activate = w.asked Query.SE_Activate ∧ w1.answer = w.answer)
      (fun w w1 => w1.flags.sIsSecElemSelected = w.flags.sIsSecElemSelected
        ∧ w1.asked Query.SE_Activate = w.asked Query.SE_Activate ∧ w1.answer = w.answer)
      (NfaDeviceManagementCallback e) := by
  have hrefl : ∀ w : World, w.flags.sIsSecElemSelected = w.flags.sIsSecElemSelected
      ∧ w.asked Query.SE_Activate = w.asked Query.SE_Activate ∧ w.answer = w.answer :=
    fun _ => ⟨rfl, rfl, rfl⟩
  have htrans : ∀ a b c : World,
      (b.flags.sIsSecElemSelected = a.flags.sIsSecElemSelected
        ∧ b.asked Query.SE_Activate = a.asked Query.SE_Activate ∧ b.answer = a.answer) →
      (c.flags.sIsSecElemSelected = b.flags.sIsSecElemSelected
        ∧ c.asked Query.SE_Activate = b.asked Query.SE_Activate ∧ c.answer = b.answer) →
      (c.flags.sIsSecElemSelected = a.flags.sIsSecElemSelected
        ∧ c.asked Query.SE_Activate = a.asked Query.SE_Activate ∧ c.answer = a.answer) :=
    fun _ _ _ h1 h2 => ⟨h2.1.trans h1.1, h2.2.1.trans h1.2.1, h2.2.2.trans h1.2.2⟩
  cases e <;> unfold NfaDeviceManagementCallback <;>
    repeat' first
      | exact Steps_pure hrefl _
      | exact fun _ => ⟨rfl, rfl, rfl⟩
      | (apply Steps_bind htrans htrans; swap; intro _)
      | apply Steps_ite

theorem NfaConnectionCallback_keepsSelection (e : ConnEvt) :
    Op.Steps (fun w w1 => w1.flags.sIsSecElemSelected = w.flags.sIsSecElemSelected
        ∧ w1.asked Query.SE_Activate = w.asked Query.SE_Activate ∧ w1.answer = w.answer)
      (fun w w1 => w1.flags.sIsSecElemSelected = w.flags.sIsSecElemSelected
        ∧ w1.asked Query.SE_Activate = w.asked Query.SE_Activate ∧ w1.answer = w.answer)
      (NfaConnectionCallback e) := by
  have hrefl : ∀ w : World, w.flags.sIsSecElemSelected = w.flags.sIsSecElemSelected
      ∧ w.asked Query.SE_Activate = w.asked Query.SE_Activate ∧ w.answer = w.answer :=
    fun _ => ⟨rfl, rfl, rfl⟩
  have htrans : ∀ a b c : World,
      (b.flags.sIsSecElemSelected = a.flags.sIsSecElemSelected
        ∧ b.asked Query.SE_Activate = a.asked Query.SE_Activate ∧ b.answer = a.answer) →
      (c.flags.sIsSecElemSelected = b.flags.sIsSecElemSelected
        ∧ c.asked Query.SE_Activate = b.asked Query.SE_Activate ∧ c.answer = b.answer) →
      (c.flags.sIsSecElemSelected = a.flags.sIsSecElemSelected
        ∧ c.asked Query.SE_Activate = a.asked Query.SE_Activate ∧ c.answer = a.answer) :=
    fun _ _ _ h1 h2 => ⟨h2.1.trans h1.1, h2.2.1.trans h1.2.1, h2.2.2.trans h1.2.2⟩
  cases e <;> unfold NfaConnectionCallback HandleRfDiscoveryEvent <;>
    repeat' first
      | exact Steps_pure hrefl _
      | exact fun _ => ⟨rfl, rfl, rfl⟩
      | (apply Steps_bind htrans htrans; swap; intro _)
      | apply Steps_ite

theorem selection_frame :
    Frame (fun w w1 => w1.flags.sIsSecElemSelected = w.flags.sIsSecElemSelected
        ∧ w1.asked Query.SE_Activate = w.asked Query.SE_Activate ∧ w1.answer = w.answer)
      (fun w w1 => w1.flags.sIsSecElemSelected = w.flags.sIsSecElemSelected
        ∧ w1.asked Query.SE_Activate = w.asked Query.SE_Activate ∧ w1.answer = w.answer) where
  refl := fun _ => ⟨rfl, rfl, rfl⟩
  trans := fun _ _ _ h1 h2 => ⟨h2.1.trans h1.1, h2.2.1.trans h1.2.1, h2.2.2.trans h1.2.2⟩
  comp := fun _ _ _ h1 h2 => ⟨h2.1.trans h1.1, h2.2.1.trans h1.2.1, h2.2.2.trans h1.2.2⟩
  stuck := fun _ => ⟨rfl, rfl, rfl⟩
  wait := fun _ _ => ⟨rfl, rfl, rfl⟩
  deliver := by
    intro c rest w w1 _ hd
    cases c with
    | dm e =>
        have h := NfaDeviceManagementCallback_keepsSelection e
          { w with pending := rest, signals := [],
                   trace := w.trace ++ [Effect.callback (Callback.dm e)] }
        have h2 : dispatch (Callback.dm e) { w with pending := rest }
            = NfaDeviceManagementCallback e
              { w with pending := rest, signals := [],
                       trace := w.trace ++ [Effect.callback (Callback.dm e)] } := rfl
        rw [← h2, hd] at h
        exact h
    | conn e =>
        have h := NfaConnectionCallback_keepsSelection e
          { w with pending := rest, signals := [],
                   trace := w.trace ++ [Effect.callback (Callback.conn e)] }
        have h2 : dispatch (Callback.conn e) { w with pending := rest }
            = NfaConnectionCallback e
              { w with pending := rest, signals := [],
                       trace := w.trace ++ [Effect.callback (Callback.conn e)] } := rfl
        rw [← h2, hd] at h
        exact h

theorem NfaDeviceManagementCallback_noRouting (e : DmEvt) :
    Op.Steps (Emits fun e => e.isRoutingChange = false)
      (Emits fun e => e.isRoutingChange = false) (NfaDeviceManagementCallback e) := by
  cases e <;> unfold NfaDeviceManagementCallback <;>
    repeat' first
      | exact Steps_pure (Emits_refl _) _
      | exact fun _ => Emits_same rfl
      | exact fun _ => Emits_one _ rfl rfl
      | (apply Steps_bind (Emits_trans _) (Emits_trans _); swap; intro _)
      | apply Steps_ite

theorem NfaConnectionCallback_noRouting (e : ConnEvt) :
    Op.Steps (Emits fun e => e.isRoutingChange = false)
      (Emits fun e => e.isRoutingChange = false) (NfaConnectionCallback e) := by
  cases e <;> unfold NfaConnectionCallback HandleRfDiscoveryEvent <;>
    repeat' first
      | exact Steps_pure (Emits_refl _) _
      | exact fun _ => Emits_same rfl
      | exact fun _ => Emits_one _ rfl rfl
      | (apply Steps_bind (Emits_trans _) (Emits_trans _); swap; intro _)
      | apply Steps_ite

/-- No callback changes the secure-element routing. -/
theorem noRouting_frame :
    Frame (Emits fun e => e.isRoutingChange = false)
      (Emits fun e => e.isRoutingChange = false) where
  refl := Emits_refl _
  trans := Emits_trans _
  comp := Emits_trans _
  stuck := Emits_refl _
  wait := fun ev _ => Emits_one _ rfl rfl
  deliver := by
    intro c rest w w1 _ hd
    have h0 : Emits (fun e => e.isRoutingChange = false) w
        { w with pending := rest, signals := [], trace := w.trace ++ [Effect.callback c] } :=
      Emits_one _ rfl rfl
    refine Emits_trans _ _ _ _ h0 ?_
    cases c with
    | dm e =>
        have h := NfaDeviceManagementCallback_noRouting e
          { w with pending := rest, signals := [],
                   trace := w.trace ++ [Effect.callback (Callback.dm e)] }
        have h2 : dispatch (Callback.dm e) { w with pending := rest }
            = NfaDeviceManagementCallback e
              { w with pending := rest, signals := [],
                       trace := w.trace ++ [Effect.callback (Callback.dm e)] } := rfl
        rw [← h2, hd] at h
        exact h
    | conn e =>
        have h := NfaConnectionCallback_noRouting e
          { w with pending := rest, signals := [],
                   trace := w.trace ++ [Effect.callback (Callback.conn e)] }
        have h2 : dispatch (Callback.conn e) { w with pending := rest }
            = NfaConnectionCallback e
              { w with pending := rest, signals := [],
                       trace := w.trace ++ [Effect.callback (Callback.conn e)] } := rfl
        rw [← h2, hd] at h
        exact h

/-- `StartRfDiscovery` leaves `sIsSecElemSelected` and the answers of
`SecureElement::Activate` alone, and changes no routing. -/
theorem StartRfDiscovery_selection (isStart : Bool) :
    Op.Steps
      (fun w w1 => (w1.flags.sIsSecElemSelected = w.flags.sIsSecElemSelected
          ∧ w1.asked Query.SE_Activate = w.asked Query.SE_Activate ∧ w1.answer = w.answer)
        ∧ Emits (fun e => e.isRoutingChange = false) w w1)
      (fun w w1 => (w1.flags.sIsSecElemSelected = w.flags.sIsSecElemSelected
          ∧ w1.asked Query.SE_Activate = w.asked Query.SE_Activate ∧ w1.answer = w.answer)
        ∧ Emits (fun e => e.isRoutingChange = false) w w1)
      (StartRfDiscovery isStart) := by
  have F := Frame_and selection_frame noRouting_frame
  unfold StartRfDiscovery
  repeat' first
    | with_reducible exact Wait_steps F _
    | ((with_reducible apply Steps_bind F.trans F.comp); swap; intro _)
    | with_reducible apply Steps_ite
    | with_reducible exact Steps_pure F.refl _
    | exact fun _ => ⟨⟨rfl, rfl, rfl⟩, Emits_same rfl⟩
    | exact fun _ => ⟨⟨rfl, rfl, rfl⟩, Emits_one _ rfl (by cases isStart <;> rfl)⟩

/-- `DoSelectSecureElement`, when no secure element is selected, as one
sequence of steps. -/
theorem DoSelectSecureElement_sequence (w : World) (hsel : w.flags.sIsSecElemSelected = false) :
    DoSelectSecureElement w =
      (log (.PowerSwitch_SetLevel .FULL_POWER) >>= fun _ =>
       (if w.flags.sRfEnabled then StartRfDiscovery false else pure ()) >>= fun _ =>
       call .SE_Activate >>= fun _ =>
       askBool .SE_Activate >>= fun result =>
       (if result then call .SE_RouteToSecureElement else pure ()) >>= fun _ =>
       setFlags (fun s => { s with sIsSecElemSelected := true }) >>= fun _ =>
       StartRfDiscovery true >>= fun _ =>
       log (.PowerSwitch_SetModeOn .SE_ROUTING) >>= fun _ =>
       pure result) w := by
  simp only [DoSelectSecureElement, Op_bind_assoc, Op_pure_bind, Op_ite_bind]
  simp only [Op_bind_apply, getFlags, hsel, Bool.false_eq_true, if_false]

theorem routed_append (X new : List Effect) (r : Prop)
    (h : Effect.call Collab.SE_RouteToSecureElement ∈ X ↔ r)
    (hn : ∀ e ∈ new, e.isRoutingChange = false) :
    Effect.call Collab.SE_RouteToSecureElement ∈ X ++ new ↔ r := by
  rw [List.mem_append, h]
  constructor
  · intro h1
    rcases h1 with h1 | h1
    · exact h1
    · exact absurd (hn _ h1) (by decide)
  · exact Or.inl

/-- What `DoSelectSecureElement` has done when it returns from a world with no
secure element selected. -/
theorem DoSelectSecureElement_spec (w : World) (hsel : w.flags.sIsSecElemSelected = false) :
    match DoSelectSecureElement w with
    | Outcome.ret r w1 =>
        r = (w.answer Query.SE_Activate (w.asked Query.SE_Activate) != 0)
        ∧ w1.flags.sIsSecElemSelected = true
        ∧ ∃ X, w1.trace = w.trace ++ X
          ∧ (Effect.call Collab.SE_RouteToSecureElement ∈ X ↔ r = true)
          ∧ ∃ st, Effect.nfa NfaCmd.NFA_StartRfDiscovery st ∈ X
    | Outcome.blocked _ => True := by
  have F := Frame_and selection_frame noRouting_frame
  have H : ∀ rf : Bool, Op.Hoare (fun w0 => w0 = w)
      (log (.PowerSwitch_SetLevel .FULL_POWER) >>= fun _ =>
       (if rf then StartRfDiscovery false else pure ()) >>= fun _ =>
       call .SE_Activate >>= fun _ =>
       askBool .SE_Activate >>= fun result =>
       (if result then call .SE_RouteToSecureElement else pure ()) >>= fun _ =>
       setFlags (fun s => { s with sIsSecElemSelected := true }) >>= fun _ =>
       StartRfDiscovery true >>= fun _ =>
       log (.PowerSwitch_SetModeOn .SE_ROUTING) >>= fun _ =>
       pure result)
      (fun r w1 => r = (w.answer Query.SE_Activate (w.asked Query.SE_Activate) != 0)
        ∧ w1.flags.sIsSecElemSelected = true
        ∧ ∃ X, w1.trace = w.trace ++ X
          ∧ (Effect.call Collab.SE_RouteToSecureElement ∈ X ↔ r = true)
          ∧ ∃ st, Effect.nfa NfaCmd.NFA_StartRfDiscovery st ∈ X)
      (fun _ => True) := by
    intro rf
    -- SetLevel(FULL_POWER)
    refine Hoare_bind
      (Q := fun _ w1 => (w1.flags.sIsSecElemSelected = w.flags.sIsSecElemSelected
          ∧ w1.asked Query.SE_Activate = w.asked Query.SE_Activate ∧ w1.answer = w.answer)
        ∧ Emits (fun e => e.isRoutingChange = false) w w1) ?_ (fun _ => ?_)
    · intro w0 h0
      subst h0
      exact ⟨⟨rfl, rfl, rfl⟩, Emits_one _ rfl rfl⟩
    -- the stop of RF discovery
    refine Hoare_bind
      (Q := fun _ w1 => (w1.flags.sIsSecElemSelected = w.flags.sIsSecElemSelected
          ∧ w1.asked Query.SE_Activate = w.asked Query.SE_Activate ∧ w1.answer = w.answer)
        ∧ Emits (fun e => e.isRoutingChange = false) w w1) ?_ (fun _ => ?_)
    · refine Hoare_steps (Steps_ite (StartRfDiscovery_selection false) (Steps_pure F.refl ()))
        (fun w0 w1 _ h0 h1 => F.trans _ _ _ h0 h1) (fun _ _ _ _ => trivial)
    -- Activate
    refine Hoare_bind
      (Q := fun _ w1 => (w1.flags.sIsSecElemSelected = w.flags.sIsSecElemSelected
          ∧ w1.asked Query.SE_Activate = w.asked Query.SE_Activate ∧ w1.answer = w.answer)
        ∧ Emits (fun e => e.isRoutingChange = false) w w1) ?_ (fun _ => ?_)
    · intro w0 h0
      exact F.trans _ _ _ h0 ⟨⟨rfl, rfl, rfl⟩, Emits_one _ rfl rfl⟩
    refine Hoare_bind
      (Q := fun result w1 =>
        result = (w.answer Query.SE_Activate (w.asked Query.SE_Activate) != 0)
        ∧ Emits (fun e => e.isRoutingChange = false) w w1) ?_ (fun result => ?_)
    · intro w0 h0
      refine ⟨?_, Emits_trans _ _ _ _ h0.2 (Emits_same rfl)⟩
      show (w0.answer Query.SE_Activate (w0.asked Query.SE_Activate) != 0) = _
      rw [h0.1.2.2, h0.1.2.1]
    -- RouteToSecureElement
    refine Hoare_bind
      (Q := fun _ w1 =>
        result = (w.answer Query.SE_Activate (w.asked Query.SE_Activate) != 0)
        ∧ ∃ X, w1.trace = w.trace ++ X
          ∧ (Effect.call Collab.SE_RouteToSecureElement ∈ X ↔ result = true)) ?_ (fun _ => ?_)
    · intro w0 h0
      obtain ⟨hr, X, hX, hp⟩ := h0
      have hno : Effect.call Collab.SE_RouteToSecureElement ∉ X :=
        fun hm => absurd (hp _ hm) (by decide)
      cases result with
      | true =>
          refine ⟨hr, X ++ [Effect.call Collab.SE_RouteToSecureElement], ?_, by simp⟩
          show w0.trace ++ [Effect.call Collab.SE_RouteToSecureElement] = _
          rw [hX, List.append_assoc]
      | false =>
          exact ⟨hr, X, hX, by simp [hno]⟩
    -- sIsSecElemSelected = true
    refine Hoare_bind
      (Q := fun _ w1 =>
        (result = (w.answer Query.SE_Activate (w.asked Query.SE_Activate) != 0)
          ∧ ∃ X, w1.trace = w.trace ++ X
            ∧ (Effect.call Collab.SE_RouteToSecureElement ∈ X ↔ result = true))
        ∧ w1.flags.sIsSecElemSelected = true) ?_ (fun _ => ?_)
    · intro w0 h0
      exact ⟨h0, rfl⟩
    -- the start of RF discovery
    refine Hoare_bind
      (Q := fun _ w1 =>
        result = (w.answer Query.SE_Activate (w.asked Query.SE_Activate) != 0)
        ∧ w1.flags.sIsSecElemSelected = true
        ∧ ∃ X, w1.trace = w.trace ++ X
          ∧ (Effect.call Collab.SE_RouteToSecureElement ∈ X ↔ result = true)
          ∧ ∃ st, Effect.nfa NfaCmd.NFA_StartRfDiscovery st ∈ X) ?_ (fun _ => ?_)
    · intro w0 h0
      obtain ⟨⟨hr, X, hX, hroute⟩, hs⟩ := h0
      have h1 := StartRfDiscovery_selection true w0
      obtain ⟨more, ht, -⟩ := StartRfDiscovery_true_trace w0
      cases hm : StartRfDiscovery true w0 with
      | blocked w1 => trivial
      | ret a w1 =>
          rw [hm] at h1 ht
          obtain ⟨⟨hk, -, -⟩, new, hnew, hp⟩ := h1
          simp only [Outcome.world] at ht
          refine ⟨hr, hk.trans hs, X ++ new, by rw [hnew, hX, List.append_assoc],
            routed_append X new _ hroute hp, w0.status w0.issued, ?_⟩
          have hnm : new = Effect.nfa NfaCmd.NFA_StartRfDiscovery (w0.status w0.issued) :: more :=
            List.append_cancel_left (hnew.symm.trans ht)
          rw [hnm]
          simp
    -- SetModeOn(SE_ROUTING)
    refine Hoare_bind
      (Q := fun _ w1 =>
        result = (w.answer Query.SE_Activate (w.asked Query.SE_Activate) != 0)
        ∧ w1.flags.sIsSecElemSelected = true
        ∧ ∃ X, w1.trace = w.trace ++ X
          ∧ (Effect.call Collab.SE_RouteToSecureElement ∈ X ↔ result = true)
          ∧ ∃ st, Effect.nfa NfaCmd.NFA_StartRfDiscovery st ∈ X) ?_ (fun _ => ?_)
    · intro w0 h0
      obtain ⟨hr, hs, X, hX, hroute, st, hst⟩ := h0
      refine ⟨hr, hs, X ++ [Effect.PowerSwitch_SetModeOn PowerActivity.SE_ROUTING], ?_,
        routed_append X _ _ hroute (by intro e he; rw [List.mem_singleton.mp he]; rfl),
        st, List.mem_append_left _ hst⟩
      show w0.trace ++ [Effect.PowerSwitch_SetModeOn PowerActivity.SE_ROUTING] = _
      rw [hX, List.append_assoc]
    intro w0 h0
    exact h0
  cases hd : DoSelectSecureElement w with
  | blocked w1 => trivial
  | ret r w1 =>
      rw [DoSelectSecureElement_sequence w hsel] at hd
      exact Hoare_ret (H w.flags.sRfEnabled) rfl hd

/-- Claim C21. `DoSelectSecureElement` called while no secure element is
selected, when it returns: it returns the result of `SecureElement::Activate`;
`sIsSecElemSelected` is true and `NFA_StartRfDiscovery` has been issued,
whatever that result; `RouteToSecureElement` has been called if and only if the
result is true; and a select called next finds the element already selected
and returns true at once, also after a false return. It does return, with RF
discovery not active before, when the start is accepted and
`NFA_RF_DISCOVERY_STARTED_EVT` is the next callback. -/
theorem C21_select_after_failed_activation (w : World)
    (hsel : w.flags.sIsSecElemSelected = false) :
    (match DoSelectSecureElement w with
      | Outcome.ret r w1 =>
          r = (w.answer Query.SE_Activate (w.asked Query.SE_Activate) != 0)
          ∧ w1.flags.sIsSecElemSelected = true
          ∧ (∃ st, Effect.nfa NfaCmd.NFA_StartRfDiscovery st ∈ w.since w1)
          ∧ (Effect.call Collab.SE_RouteToSecureElement ∈ w.since w1 ↔ r = true)
          ∧ DoSelectSecureElement w1 = Outcome.ret true w1
      | Outcome.blocked _ => True)
    ∧ (∀ rest, w.flags.sRfEnabled = false → w.status w.issued = NFA_STATUS_OK →
        w.pending = Callback.conn ConnEvt.RF_DISCOVERY_STARTED :: rest →
        ∃ w1, DoSelectSecureElement w
            = Outcome.ret (w.answer Query.SE_Activate (w.asked Query.SE_Activate) != 0) w1
          ∧ w1.flags.sIsSecElemSelected = true ∧ w1.flags.sRfEnabled = true
          ∧ w1.pending = rest) := by
  constructor
  · have h := DoSelectSecureElement_spec w hsel
    cases hd : DoSelectSecureElement w with
    | blocked w1 => trivial
    | ret r w1 =>
        rw [hd] at h
        obtain ⟨hr, hs, X, hX, hroute, hstart⟩ := h
        refine ⟨hr, hs, ?_, ?_, ?_⟩
        · rw [since_of_append w w1 X hX]
          exact hstart
        · rw [since_of_append w w1 X hX]
          exact hroute
        · simp [DoSelectSecureElement, Op_bind_apply, Op_pure_apply, getFlags, hs]
  · intro rest hrf hst hp
    by_cases ha : w.answer Query.SE_Activate (w.asked Query.SE_Activate) = 0 <;>
      simp [DoSelectSecureElement, StartRfDiscovery, Op_bind_apply, Op_pure_apply, getFlags,
        call, log, nfa, askBool, setFlags, Wait, waitLoop, dispatch, NfaConnectionCallback,
        NotifyOne, hsel, hrf, hst, hp, ha]

/-- Witness for C21: an enabled session at rest; the activation fails, the
start is accepted and completed. The select returns false with the element
marked as selected. -/
theorem C21_select_after_failed_activation_witness :
    ∃ w1, DoSelectSecureElement
        { World.idle with flags := Session.enabled,
                          pending := [Callback.conn ConnEvt.RF_DISCOVERY_STARTED] }
        = Outcome.ret false w1
      ∧ w1.flags.sIsSecElemSelected = true ∧ w1.flags.sRfEnabled = true
      ∧ w1.pending = [] :=
  (C21_select_after_failed_activation
    { World.idle with flags := Session.enabled,
                      pending := [Callback.conn ConnEvt.RF_DISCOVERY_STARTED] } rfl).2
    [] rfl rfl rfl
/-! ## The configuration buffer -/

/-- Claim C22. `NFA_DM_GET_CONFIG_EVT` always returns. When the status is OK
and `tlv_size <= sizeof(sConfig)` (256), `sCurrentConfigLen` becomes `tlv_size`
and `tlv_size` bytes are copied to the start of `sConfig`; otherwise
`sCurrentConfigLen` becomes 0 and nothing is copied. In both cases
`sNfaGetConfigEvent` is notified, and nothing else is done. So no copy is of
more than 256 bytes, and a buffer of 256 bytes stays one of 256 bytes. -/
theorem C22_get_config_bounded (status tlv_size : Nat) (param_tlvs : List Nat) (w : World) :
    NfaDeviceManagementCallback (DmEvt.GET_CONFIG status tlv_size param_tlvs) w
      = Outcome.ret ()
          (if status = NFA_STATUS_OK ∧ tlv_size ≤ sizeof_sConfig then
            { w with
              sCurrentConfigLen := tlv_size,
              sConfig := param_tlvs.take tlv_size ++ w.sConfig.drop tlv_size,
              signals := w.signals ++ [SyncEv.sNfaGetConfigEvent],
              trace := w.trace ++ [Effect.memcpy_sConfig tlv_size,
                Effect.NotifyOne SyncEv.sNfaGetConfigEvent] }
           else
            { w with
              sCurrentConfigLen := 0,
              signals := w.signals ++ [SyncEv.sNfaGetConfigEvent],
              trace := w.trace ++ [Effect.NotifyOne SyncEv.sNfaGetConfigEvent] })
    ∧ (∀ n, Effect.memcpy_sConfig n
          ∈ w.since (NfaDeviceManagementCallback
              (DmEvt.GET_CONFIG status tlv_size param_tlvs) w).world →
        n = tlv_size ∧ n ≤ 256)
    ∧ (w.sConfig.length = sizeof_sConfig → tlv_size ≤ param_tlvs.length →
        (NfaDeviceManagementCallback
          (DmEvt.GET_CONFIG status tlv_size param_tlvs) w).world.sConfig.length
          = sizeof_sConfig) := by
  have h : NfaDeviceManagementCallback (DmEvt.GET_CONFIG status tlv_size param_tlvs) w
      = Outcome.ret ()
          (if status = NFA_STATUS_OK ∧ tlv_size ≤ sizeof_sConfig then
            { w with
              sCurrentConfigLen := tlv_size,
              sConfig := param_tlvs.take tlv_size ++ w.sConfig.drop tlv_size,
              signals := w.signals ++ [SyncEv.sNfaGetConfigEvent],
              trace := w.trace ++ [Effect.memcpy_sConfig tlv_size,
                Effect.NotifyOne SyncEv.sNfaGetConfigEvent] }
           else
            { w with
              sCurrentConfigLen := 0,
              signals := w.signals ++ [SyncEv.sNfaGetConfigEvent],
              trace := w.trace ++ [Effect.NotifyOne SyncEv.sNfaGetConfigEvent] }) := by
    by_cases hst : status = NFA_STATUS_OK <;> by_cases hsz : tlv_size ≤ sizeof_sConfig <;>
      simp [NfaDeviceManagementCallback, Op_bind_apply, Op_pure_apply, setCurrentConfigLen,
        memcpy_sConfig, NotifyOne, hst, hsz]
  refine ⟨h, ?_, ?_⟩
  · intro n hn
    rw [h] at hn
    by_cases hc : status = NFA_STATUS_OK ∧ tlv_size ≤ sizeof_sConfig
    · simp [Outcome.world, World.since, hc] at hn
      exact ⟨hn, by rw [hn]; exact hc.2⟩
    · simp [Outcome.world, World.since, hc] at hn
  · intro hlen hp
    rw [h]
    by_cases hc : status = NFA_STATUS_OK ∧ tlv_size ≤ sizeof_sConfig
    · have h2 : tlv_size ≤ w.sConfig.length := by rw [hlen]; exact hc.2
      simp only [Outcome.world, hc, and_self, if_true, List.length_append, List.length_take,
        List.length_drop]
      omega
    · simp only [Outcome.world, hc, if_false]
      exact hlen

/-- Witness for C22: a config of 300 bytes is refused, one of 2 bytes is
copied into the buffer of 256. -/
theorem C22_get_config_bounded_witness :
    (NfaDeviceManagementCallback (DmEvt.GET_CONFIG NFA_STATUS_OK 2 [7, 9]) World.idle).world.sConfig.length
      = sizeof_sConfig
    ∧ (NfaDeviceManagementCallback (DmEvt.GET_CONFIG NFA_STATUS_OK 2 [7, 9])
        World.idle).world.sCurrentConfigLen = 2
    ∧ (NfaDeviceManagementCallback (DmEvt.GET_CONFIG NFA_STATUS_OK 300 (List.replicate 300 1))
        World.idle).world.sCurrentConfigLen = 0 :=
  ⟨(C22_get_config_bounded NFA_STATUS_OK 2 [7, 9] World.idle).2.2
      (List.length_replicate 256 0) (by decide),
    by rw [(C22_get_config_bounded NFA_STATUS_OK 2 [7, 9] World.idle).1]; rfl,
    by rw [(C22_get_config_bounded NFA_STATUS_OK 300 (List.replicate 300 1) World.idle).1]; rfl⟩

/-! ## Field ownership: the flags follow the activations delivered -/

theorem fieldView_append (tr l : List Effect) :
    fieldView (tr ++ l) = l.foldl fieldStep (fieldView tr) := by
  simp [fieldView, List.foldl_append]

theorem fieldStep_of_not_mark (v : FieldView) (e : Effect) (h : e.isFieldMark = false) :
    fieldStep v e = v := by
  unfold Effect.isFieldMark at h
  unfold fieldStep
  split <;> simp_all

theorem foldl_fieldStep_of_not_mark (l : List Effect) :
    ∀ v : FieldView, (∀ e ∈ l, e.isFieldMark = false) → l.foldl fieldStep v = v := by
  induction l with
  | nil => intro v _; rfl
  | cons e rest ih =>
      intro v h
      rw [List.foldl_cons, fieldStep_of_not_mark v e (h e (List.mem_cons_self _ _))]
      exact ih v (fun x hx => h x (List.mem_cons_of_mem _ hx))

/-- A world whose flags `sP2pActive` and `sSeRfActive` are those of `w` and
whose trace continues that of `w` with effects the observer does not look at
is as safe as `w`. -/
theorem FieldSafe_quiet {w w1 : World} (new : List Effect)
    (hp : w1.flags.sP2pActive = w.flags.sP2pActive)
    (hs : w1.flags.sSeRfActive = w.flags.sSeRfActive)
    (ht : w1.trace = w.trace ++ new) (hn : ∀ e ∈ new, e.isFieldMark = false)
    (h : FieldSafe w) : FieldSafe w1 := by
  unfold FieldSafe FieldTracked at *
  rw [ht, fieldView_append, foldl_fieldStep_of_not_mark new _ hn, hp, hs]
  exact h

theorem fieldSafe_prims :
    Prims (fun w w1 => FieldSafe w → FieldSafe w1) (fun e => e.isFieldMark = false)
      (fun f => ∀ s, (f s).sP2pActive = s.sP2pActive ∧ (f s).sSeRfActive = s.sSeRfActive) where
  keep := by
    intro w w1 hf ht _ h
    exact FieldSafe_quiet [] (by rw [hf]) (by rw [hf]) (by simp [ht]) (by simp) h
  emit := by
    intro e w w1 he hf ht _ h
    refine FieldSafe_quiet [e] (by rw [hf]) (by rw [hf]) ht ?_ h
    intro x hx
    rw [List.mem_singleton.mp hx]
    exact he
  update := by
    intro f w w1 hq hf ht _ h
    exact FieldSafe_quiet [] (by rw [hf, (hq w.flags).1]) (by rw [hf, (hq w.flags).2])
      (by simp [ht]) (by simp) h

/-- What `NFA_ACTIVATED_EVT` adds to the trace, in full. -/
theorem activated_since (protocol : Protocol) (mode : RfMode) (w : World) :
    w.since (NfaConnectionCallback (ConnEvt.ACTIVATED protocol mode) w).world
      = if w.flags.sIsDisabling = true ∨ w.flags.sIsNfaEnabled = false then []
        else Effect.call Collab.NfcTag_SetActivationState ::
          (if w.answer Query.gIsSelectingRfInterface (w.asked Query.gIsSelectingRfInterface) ≠ 0
           then [Effect.TagManager_DoConnectStatus true]
           else Effect.call Collab.TagManager_DoResetPresenceCheck ::
            (if IsPeerToPeer protocol = true then
              [Effect.nfa (NfaCmd.NFA_SetConfig NciParam.RF_FIELD_INFO [0x00]) (w.status w.issued),
               Effect.SE_NotifyRfFieldEvent true]
             else Effect.call Collab.Pn544InteropIsBusy ::
              (if w.answer Query.Pn544InteropIsBusy (w.asked Query.Pn544InteropIsBusy) ≠ 0
               then []
               else Effect.call Collab.NfcTag_ConnectionEventHandler ::
                (if IsListenMode mode = true then [Effect.SE_NotifyListenModeState true]
                 else [])))) := by
  cases hdis : w.flags.sIsDisabling <;> cases hen : w.flags.sIsNfaEnabled <;>
    cases hp : IsPeerToPeer protocol <;> cases hl : IsListenMode mode <;>
    by_cases hsel : w.answer Query.gIsSelectingRfInterface
        (w.asked Query.gIsSelectingRfInterface) = 0 <;>
    by_cases hbusy : w.answer Query.Pn544InteropIsBusy (w.asked Query.Pn544InteropIsBusy) = 0 <;>
    simp [NfaConnectionCallback, Op_bind_apply, Op_pure_apply, getFlags, call, log, askBool,
      setFlags, nfa, Outcome.world, World.since, hdis, hen, hp, hl, hsel, hbusy]

/-- What `NFA_ACTIVATED_EVT` does to the flags, in full. -/
theorem activated_flags (protocol : Protocol) (mode : RfMode) (w : World) :
    (NfaConnectionCallback (ConnEvt.ACTIVATED protocol mode) w).world.flags
      = if w.flags.sIsDisabling = true ∨ w.flags.sIsNfaEnabled = false then w.flags
        else if w.answer Query.gIsSelectingRfInterface (w.asked Query.gIsSelectingRfInterface)
            ≠ 0 then w.flags
        else if IsPeerToPeer protocol = true then { w.flags with sP2pActive := true }
        else if w.answer Query.Pn544InteropIsBusy (w.asked Query.Pn544InteropIsBusy) ≠ 0
          then w.flags
        else if IsListenMode mode = true then { w.flags with sSeRfActive := true }
        else w.flags := by
  cases hdis : w.flags.sIsDisabling <;> cases hen : w.flags.sIsNfaEnabled <;>
    cases hp : IsPeerToPeer protocol <;> cases hl : IsListenMode mode <;>
    by_cases hsel : w.answer Query.gIsSelectingRfInterface
        (w.asked Query.gIsSelectingRfInterface) = 0 <;>
    by_cases hbusy : w.answer Query.Pn544InteropIsBusy (w.asked Query.Pn544InteropIsBusy) = 0 <;>
    simp [NfaConnectionCallback, Op_bind_apply, Op_pure_apply, getFlags, call, log, askBool,
      setFlags, nfa, Outcome.world, hdis, hen, hp, hl, hsel, hbusy]

theorem NfaDeviceManagementCallback_noMark (e : DmEvt) :
    Op.Steps (Emits fun e => e.isFieldMark = false)
      (Emits fun e => e.isFieldMark = false) (NfaDeviceManagementCallback e) := by
  cases e <;> unfold NfaDeviceManagementCallback <;>
    repeat' first
      | exact Steps_pure (Emits_refl _) _
      | exact fun _ => Emits_same rfl
      | exact fun _ => Emits_one _ rfl rfl
      | (apply Steps_bind (Emits_trans _) (Emits_trans _); swap; intro _)
      | apply Steps_ite

theorem NfaConnectionCallback_noMark (e : ConnEvt)
    (h1 : ∀ protocol mode, e ≠ ConnEvt.ACTIVATED protocol mode)
    (h2 : ∀ type, e ≠ ConnEvt.DEACTIVATED type) :
    Op.Steps (Emits fun e => e.isFieldMark = false)
      (Emits fun e => e.isFieldMark = false) (NfaConnectionCallback e) := by
  cases e with
  | ACTIVATED p m => exact absurd rfl (h1 p m)
  | DEACTIVATED t => exact absurd rfl (h2 t)
  | _ =>
      unfold NfaConnectionCallback HandleRfDiscoveryEvent
      repeat' first
        | exact Steps_pure (Emits_refl _) _
        | exact fun _ => Emits_same rfl
        | exact fun _ => Emits_one _ rfl rfl
        | (apply Steps_bind (Emits_trans _) (Emits_trans _); swap; intro _)
        | apply Steps_ite

/-- What the delivery of an activation does to the observer's view: it
leaves `p2p` and `se` alone, and records a clash exactly when the activation
is of the other kind than a flag that is set. -/
theorem fieldStep_activation (v : FieldView) (protocol : Protocol) (mode : RfMode) :
    (fieldStep v (Effect.callback (Callback.conn (ConnEvt.ACTIVATED protocol mode)))).p2p = v.p2p
    ∧ (fieldStep v (Effect.callback (Callback.conn (ConnEvt.ACTIVATED protocol mode)))).se = v.se
    ∧ ((fieldStep v (Effect.callback (Callback.conn (ConnEvt.ACTIVATED protocol mode)))).clash
          = false →
        v.clash = false ∧ (IsPeerToPeer protocol = true → v.se = false)
          ∧ (IsPeerToPeer protocol = false → IsListenMode mode = true → v.p2p = false)) := by
  cases hp : IsPeerToPeer protocol <;> cases hl : IsListenMode mode <;>
    simp [fieldStep, hp, hl]

/-- What the delivery of a deactivation does to the observer's view: to IDLE
or DISCOVERY it clears `se` if it is set and `p2p` otherwise; to another state
it changes nothing. -/
theorem fieldStep_deactivation (v : FieldView) (type : DeactType) :
    fieldStep v (Effect.callback (Callback.conn (ConnEvt.DEACTIVATED type)))
      = if type = DeactType.IDLE ∨ type = DeactType.DISCOVERY then
          (if v.se = true then { v with se := false } else { v with p2p := false })
        else v := by
  cases type <;> simp [fieldStep]

/-- The delivery of a connection callback that is neither an activation nor
a deactivation keeps the world safe. -/
theorem FieldSafe_deliver_other (e : ConnEvt)
    (h1 : ∀ protocol mode, e ≠ ConnEvt.ACTIVATED protocol mode)
    (h2 : ∀ type, e ≠ ConnEvt.DEACTIVATED type) (rest : List Callback) (w w1 : World)
    (hd : dispatch (Callback.conn e) { w with pending := rest } = Outcome.ret () w1)
    (h : FieldSafe w) : FieldSafe w1 := by
  have hA : (Callback.conn e).isActivation = false := by
    cases e <;> first | rfl | exact absurd rfl (h1 _ _)
  have hR : (Callback.conn e).isRelease = false := by
    cases e <;> first | rfl | exact absurd rfl (h2 _)
  have hk := dispatch_field_other (Callback.conn e) hA hR { w with pending := rest }
  rw [hd] at hk
  have he := NfaConnectionCallback_noMark e h1 h2
    { w with pending := rest, signals := [],
             trace := w.trace ++ [Effect.callback (Callback.conn e)] }
  have h3 : dispatch (Callback.conn e) { w with pending := rest }
      = NfaConnectionCallback e
        { w with pending := rest, signals := [],
                 trace := w.trace ++ [Effect.callback (Callback.conn e)] } := rfl
  rw [← h3, hd] at he
  obtain ⟨new, hn, hp⟩ := he
  refine FieldSafe_quiet (Effect.callback (Callback.conn e) :: new) hk.1 hk.2
    (by rw [hn]; simp) ?_ h
  intro x hx
  rcases List.mem_cons.mp hx with hx | hx
  · rw [hx]
    cases e <;> first | rfl | exact absurd rfl (h1 _ _) | exact absurd rfl (h2 _)
  · exact hp x hx

/-- The delivery of one callback keeps the world safe. -/
theorem FieldSafe_deliver (c : Callback) (rest : List Callback) (w w1 : World)
    (hd : dispatch c { w with pending := rest } = Outcome.ret () w1)
    (h : FieldSafe w) : FieldSafe w1 := by
  obtain ⟨w2, new, hd2, -, -, ht, -, -⟩ := dispatch_spec c { w with pending := rest }
  rw [hd] at hd2
  cases hd2
  have ht1 : w1.trace = w.trace ++ Effect.callback c :: new := ht
  have hsince : World.since
      { w with pending := rest, signals := [], trace := w.trace ++ [Effect.callback c] } w1
      = new := by
    simp [World.since, ht1]
  obtain ⟨⟨htp, hts⟩, hsafe⟩ := h
  cases c with
  | dm e =>
      have hk := dispatch_field_other (Callback.dm e) rfl rfl { w with pending := rest }
      rw [hd] at hk
      have he := NfaDeviceManagementCallback_noMark e
        { w with pending := rest, signals := [],
                 trace := w.trace ++ [Effect.callback (Callback.dm e)] }
      have h2 : dispatch (Callback.dm e) { w with pending := rest }
          = NfaDeviceManagementCallback e
            { w with pending := rest, signals := [],
                     trace := w.trace ++ [Effect.callback (Callback.dm e)] } := rfl
      rw [← h2, hd] at he
      obtain ⟨new1, hn1, hp1⟩ := he
      have hnew : new1 = new := by
        have : w.trace ++ [Effect.callback (Callback.dm e)] ++ new1
            = w.trace ++ Effect.callback (Callback.dm e) :: new := hn1.symm.trans ht1
        simpa using this
      subst hnew
      refine FieldSafe_quiet (Effect.callback (Callback.dm e) :: new1) hk.1 hk.2 ht1 ?_
        ⟨⟨htp, hts⟩, hsafe⟩
      intro x hx
      rcases List.mem_cons.mp hx with hx | hx
      · rw [hx]; rfl
      · exact hp1 x hx
  | conn e =>
      have h2 : dispatch (Callback.conn e) { w with pending := rest }
          = NfaConnectionCallback e
            { w with pending := rest, signals := [],
                     trace := w.trace ++ [Effect.callback (Callback.conn e)] } := rfl
      have hd0 := hd
      rw [h2] at hd
      cases e with
      | ACTIVATED p m =>
          have hs := activated_since p m
            { w with pending := rest, signals := [],
                     trace := w.trace ++ [Effect.callback
                       (Callback.conn (ConnEvt.ACTIVATED p m))] }
          have hf := activated_flags p m
            { w with pending := rest, signals := [],
                     trace := w.trace ++ [Effect.callback
                       (Callback.conn (ConnEvt.ACTIVATED p m))] }
          rw [hd] at hs hf
          simp only [Outcome.world] at hs hf
          rw [hsince] at hs
          obtain ⟨a1, a2, a3⟩ := fieldStep_activation (fieldView w.trace) p m
          unfold FieldSafe FieldTracked
          rw [ht1, fieldView_append, List.foldl_cons]
          generalize fieldStep (fieldView w.trace)
            (Effect.callback (Callback.conn (ConnEvt.ACTIVATED p m))) = v1 at a1 a2 a3 ⊢
          rw [hs, hf]
          have hquiet : ∀ l : List Effect, (∀ e ∈ l, e.isFieldMark = false) →
              (w.flags.sP2pActive = (List.foldl fieldStep v1 l).p2p
                ∧ w.flags.sSeRfActive = (List.foldl fieldStep v1 l).se)
              ∧ ((List.foldl fieldStep v1 l).clash = false →
                  ¬ (w.flags.sP2pActive = true ∧ w.flags.sSeRfActive = true)) := by
            intro l hl
            rw [foldl_fieldStep_of_not_mark l v1 hl]
            exact ⟨⟨htp.trans a1.symm, hts.trans a2.symm⟩, fun hc => hsafe (a3 hc).1⟩
          by_cases c1 : w.flags.sIsDisabling = true ∨ w.flags.sIsNfaEnabled = false
          · simp only [if_pos c1]
            exact hquiet [] (by simp)
          · simp only [if_neg c1]
            by_cases c2 : w.answer Query.gIsSelectingRfInterface
                (w.asked Query.gIsSelectingRfInterface) ≠ 0
            · simp only [if_pos c2]
              refine hquiet _ ?_
              intro e he
              simp only [List.mem_cons, List.mem_singleton, List.not_mem_nil, or_false] at he
              rcases he with h | h <;> rw [h] <;> rfl
            · simp only [if_neg c2]
              by_cases c3 : IsPeerToPeer p = true
              · simp only [if_pos c3]
                refine ⟨⟨?_, ?_⟩, ?_⟩
                · simp [fieldStep]
                · simpa [fieldStep] using hts.trans a2.symm
                · intro hc hb
                  have hc1 : v1.clash = false := by simpa [fieldStep] using hc
                  have hse : (fieldView w.trace).se = false := (a3 hc1).2.1 c3
                  have hb2 : w.flags.sSeRfActive = true := hb.2
                  rw [hts, hse] at hb2
                  exact Bool.noConfusion hb2
              · simp only [if_neg c3]
                by_cases c4 : w.answer Query.Pn544InteropIsBusy
                    (w.asked Query.Pn544InteropIsBusy) ≠ 0
                · simp only [if_pos c4]
                  refine hquiet _ ?_
                  intro e he
                  simp only [List.mem_cons, List.mem_singleton, List.not_mem_nil, or_false] at he
                  rcases he with h | h | h <;> rw [h] <;> rfl
                · simp only [if_neg c4]
                  by_cases c5 : IsListenMode m = true
                  · simp only [if_pos c5]
                    refine ⟨⟨?_, ?_⟩, ?_⟩
                    · simpa [fieldStep] using htp.trans a1.symm
                    · simp [fieldStep]
                    · intro hc hb
                      have hc1 : v1.clash = false := by simpa [fieldStep] using hc
                      have hp2 : (fieldView w.trace).p2p = false :=
                        (a3 hc1).2.2 (by simpa using c3) c5
                      have hb1 : w.flags.sP2pActive = true := hb.1
                      rw [htp, hp2] at hb1
                      exact Bool.noConfusion hb1
                  · simp only [if_neg c5]
                    refine hquiet _ ?_
                    intro e he
                    simp only [List.mem_cons, List.mem_singleton, List.not_mem_nil, or_false]
                      at he
                    rcases he with h | h | h | h <;> rw [h] <;> rfl
      | DEACTIVATED t =>
          have hs := deactivated_since t
            { w with pending := rest, signals := [],
                     trace := w.trace ++ [Effect.callback
                       (Callback.conn (ConnEvt.DEACTIVATED t))] }
          have hf := deactivated_flags t
            { w with pending := rest, signals := [],
                     trace := w.trace ++ [Effect.callback
                       (Callback.conn (ConnEvt.DEACTIVATED t))] }
          rw [hd] at hs hf
          simp only [Outcome.world] at hs hf
          rw [hsince] at hs
          have hfold : ∀ v : FieldView, List.foldl fieldStep v new = v := by
            intro v
            rw [hs]
            simp only [List.foldl_cons, List.foldl_append]
            split_ifs <;> simp [fieldStep]
          have hv := fieldStep_deactivation (fieldView w.trace) t
          unfold FieldSafe FieldTracked
          rw [ht1, fieldView_append, List.foldl_cons, hfold, hv, hf]
          by_cases c1 : t = DeactType.IDLE ∨ t = DeactType.DISCOVERY
          · simp only [if_pos c1]
            cases hse : w.flags.sSeRfActive <;> cases hp : w.flags.sP2pActive <;>
              simp_all
          · simp only [if_neg c1]
            exact ⟨⟨htp, hts⟩, hsafe⟩
      | _ =>
          exact FieldSafe_deliver_other _ (fun _ _ h => ConnEvt.noConfusion h)
            (fun _ h => ConnEvt.noConfusion h) rest w w1 hd0 ⟨⟨htp, hts⟩, hsafe⟩

theorem fieldSafe_frame :
    Frame (fun w w1 => FieldSafe w → FieldSafe w1) (fun w w1 => FieldSafe w → FieldSafe w1) where
  refl := fun _ h => h
  trans := fun _ _ _ h1 h2 h => h2 (h1 h)
  comp := fun _ _ _ h1 h2 h => h2 (h1 h)
  stuck := fun _ h => h
  wait := fun ev w h =>
    FieldSafe_quiet (w := w) [Effect.Wait ev] rfl rfl rfl
      (fun x hx => by rw [List.mem_singleton.mp hx]; rfl) h
  deliver := fun c rest w w1 _ hd h => FieldSafe_deliver c rest w w1 hd h

theorem StartRfDiscovery_fieldSafe (isStart : Bool) :
    Op.Steps (fun w w1 => FieldSafe w → FieldSafe w1) (fun w w1 => FieldSafe w → FieldSafe w1)
      (StartRfDiscovery isStart) := by
  have F := fieldSafe_frame
  have P := fieldSafe_prims
  unfold StartRfDiscovery
  repeat' first
    | with_reducible exact Wait_steps F _
    | ((with_reducible apply Steps_bind F.trans F.comp); swap; intro _)
    | with_reducible apply Steps_ite
    | with_reducible exact Steps_pure F.refl _
    | ((with_reducible refine Steps_nfa P _ ?_); exact fun _ => by cases isStart <;> rfl)
    | ((with_reducible refine Steps_setFlags P _ ?_); exact fun _ => ⟨rfl, rfl⟩)

/-- A host command follows a relation that every step follows which neither
writes `sP2pActive` or `sSeRfActive` nor adds to the trace an effect the
observer of the field owner looks at. -/
theorem HostCmd_steps_quiet {R B : World → World → Prop} {p : Effect → Prop}
    {q : (Session → Session) → Prop} (F : Frame R B) (P : Prims R p q)
    (hS : ∀ b, Op.Steps R B (StartRfDiscovery b))
    (hp : ∀ e : Effect, e.isFieldMark = false → p e)
    (hq : ∀ f : Session → Session,
      (∀ s, (f s).sP2pActive = s.sP2pActive ∧ (f s).sSeRfActive = s.sSeRfActive) → q f)
    (c : HostCmd) : Op.Steps R B c.exec := by
  cases c <;>
    simp only [HostCmd.exec, Initialize, Deinitialize, EnableDiscovery, DisableDiscovery,
      EnablePolling, DisablePolling, StartStopPolling, EnableP2pListening, DisableP2pListening,
      CheckLlcp, ActivateLlcp, SetP2pInitiatorModes, SetP2pTargetModes, DoSelectSecureElement,
      DoDeselectSecureElement, DoStartupConfig] <;>
    repeat' first
      | with_reducible exact Wait_steps F _
      | with_reducible exact hS _
      | ((with_reducible apply Steps_bind F.trans F.comp); swap; intro _)
      | with_reducible apply Steps_ite
      | with_reducible exact Steps_pure F.refl _
      | with_reducible exact Steps_getFlags P
      | with_reducible exact Steps_getTechMask P
      | with_reducible exact Steps_getTechMask8 P
      | with_reducible exact Steps_setTechMask P _
      | with_reducible exact Steps_ask P _
      | with_reducible exact Steps_askBool P _
      | ((with_reducible refine Steps_log P _ ?_); exact hp _ rfl)
      | ((with_reducible refine Steps_call P _ ?_); exact hp _ rfl)
      | ((with_reducible refine Steps_nfa P _ ?_); exact fun _ => hp _ rfl)
      | ((with_reducible refine Steps_NotifyOne P _ ?_); exact hp _ rfl)
      | ((with_reducible refine Steps_setFlags P _ ?_); exact hq _ (fun _ => ⟨rfl, rfl⟩))

/-- Every run keeps the world safe. -/
theorem run_fieldSafe (steps : List Step) :
    Op.Steps (fun w w1 => FieldSafe w → FieldSafe w1) (fun w w1 => FieldSafe w → FieldSafe w1)
      (run steps) :=
  run_steps fieldSafe_frame
    (HostCmd_steps_quiet fieldSafe_frame fieldSafe_prims StartRfDiscovery_fieldSafe
      (fun _ h => h) (fun _ h => h))
    steps

/-- Claim C9, as the code has it. In every state reached from the initial
state (all flags false) by any sequence of host commands and radio-interface
callbacks, whether the last command returned or stays blocked in a wait:
* `sP2pActive` and `sSeRfActive` are what the trace shows: `sP2pActive` is set
  where `NFA_SetConfig(RF_FIELD_INFO, [0])` is issued, `sSeRfActive` where
  `NotifyListenModeState(true)` is called, and a deactivation to IDLE or
  DISCOVERY clears `sSeRfActive` if it is set and `sP2pActive` otherwise;
* the two flags are not both true, unless the radio interface has delivered an
  activation of the other kind while a flag was set: an `NFA_ACTIVATED_EVT` for
  NFC-DEP while `sSeRfActive` was true, or for another protocol in a listen
  mode while `sP2pActive` was true.
A deactivation to SLEEP followed by another activation of the same kind,
repeated activations of the same kind, activations for another protocol in a
poll mode and activations delivered while neither flag is set are no such
clash. -/
theorem C9_field_owner_exclusive (status : Nat → Nat) (answer : Query → Nat → Nat)
    (pending : List Callback) (steps : List Step) :
    FieldTracked (run steps (World.start status answer pending)).world
    ∧ ((fieldView (run steps (World.start status answer pending)).world.trace).clash = false →
        ¬ ((run steps (World.start status answer pending)).world.flags.sP2pActive = true
          ∧ (run steps (World.start status answer pending)).world.flags.sSeRfActive = true)) := by
  have h0 : FieldSafe (World.start status answer pending) :=
    ⟨⟨rfl, rfl⟩, fun _ h => Bool.noConfusion h.1⟩
  exact Steps_world (run_fieldSafe steps) (World.start status answer pending) h0

/-- Witness for C9: `Initialize` enables the session; a listen-mode
activation is followed by a deactivation to SLEEP and a second listen-mode
activation, then by a deactivation to IDLE and two peer-to-peer activations.
No activation of the other kind comes while a flag is set, and the flags are
not both true. -/
theorem C9_field_owner_exclusive_witness :
    (fieldView (run [Step.host HostCmd.Initialize, Step.deliver, Step.deliver, Step.deliver,
          Step.deliver, Step.deliver, Step.deliver]
        (World.start (fun _ => NFA_STATUS_OK) (fun _ _ => 0)
          [Callback.dm (DmEvt.ENABLE NFA_STATUS_OK),
           Callback.dm DmEvt.SET_CONFIG,
           Callback.conn (ConnEvt.ACTIVATED (Protocol.other 4) RfMode.LISTEN_A),
           Callback.conn (ConnEvt.DEACTIVATED DeactType.SLEEP),
           Callback.conn (ConnEvt.ACTIVATED (Protocol.other 4) RfMode.LISTEN_A),
           Callback.conn (ConnEvt.DEACTIVATED DeactType.IDLE),
           Callback.conn (ConnEvt.ACTIVATED Protocol.NFC_DEP (RfMode.other 0)),
           Callback.conn (ConnEvt.ACTIVATED Protocol.NFC_DEP (RfMode.other 0))])).world.trace).clash
      = false
    ∧ (run [Step.host HostCmd.Initialize, Step.deliver, Step.deliver, Step.deliver,
          Step.deliver, Step.deliver, Step.deliver]
        (World.start (fun _ => NFA_STATUS_OK) (fun _ _ => 0)
          [Callback.dm (DmEvt.ENABLE NFA_STATUS_OK),
           Callback.dm DmEvt.SET_CONFIG,
           Callback.conn (ConnEvt.ACTIVATED (Protocol.other 4) RfMode.LISTEN_A),
           Callback.conn (ConnEvt.DEACTIVATED DeactType.SLEEP),
           Callback.conn (ConnEvt.ACTIVATED (Protocol.other 4) RfMode.LISTEN_A),
           Callback.conn (ConnEvt.DEACTIVATED DeactType.IDLE),
           Callback.conn (ConnEvt.ACTIVATED Protocol.NFC_DEP (RfMode.other 0)),
           Callback.conn (ConnEvt.ACTIVATED Protocol.NFC_DEP (RfMode.other 0))])).world.flags.sP2pActive
      = true
    ∧ ¬ ((run [Step.host HostCmd.Initialize, Step.deliver, Step.deliver, Step.deliver,
          Step.deliver, Step.deliver, Step.deliver]
        (World.start (fun _ => NFA_STATUS_OK) (fun _ _ => 0)
          [Callback.dm (DmEvt.ENABLE NFA_STATUS_OK),
           Callback.dm DmEvt.SET_CONFIG,
           Callback.conn (ConnEvt.ACTIVATED (Protocol.other 4) RfMode.LISTEN_A),
           Callback.conn (ConnEvt.DEACTIVATED DeactType.SLEEP),
           Callback.conn (ConnEvt.ACTIVATED (Protocol.other 4) RfMode.LISTEN_A),
           Callback.conn (ConnEvt.DEACTIVATED DeactType.IDLE),
           Callback.conn (ConnEvt.ACTIVATED Protocol.NFC_DEP (RfMode.other 0)),
           Callback.conn (ConnEvt.ACTIVATED Protocol.NFC_DEP (RfMode.other 0))])).world.flags.sP2pActive
          = true
      ∧ (run [Step.host HostCmd.Initialize, Step.deliver, Step.deliver, Step.deliver,
          Step.deliver, Step.deliver, Step.deliver]
        (World.start (fun _ => NFA_STATUS_OK) (fun _ _ => 0)
          [Callback.dm (DmEvt.ENABLE NFA_STATUS_OK),
           Callback.dm DmEvt.SET_CONFIG,
           Callback.conn (ConnEvt.ACTIVATED (Protocol.other 4) RfMode.LISTEN_A),
           Callback.conn (ConnEvt.DEACTIVATED DeactType.SLEEP),
           Callback.conn (ConnEvt.ACTIVATED (Protocol.other 4) RfMode.LISTEN_A),
           Callback.conn (ConnEvt.DEACTIVATED DeactType.IDLE),
           Callback.conn (ConnEvt.ACTIVATED Protocol.NFC_DEP (RfMode.other 0)),
           Callback.conn (ConnEvt.ACTIVATED Protocol.NFC_DEP (RfMode.other 0))])).world.flags.sSeRfActive
          = true) :=
  ⟨rfl, rfl, (C9_field_owner_exclusive _ _ _ _).2 rfl⟩

end Nfcd
